import Mathlib

/-!
KPI-Tracker: measurement store and achievement scoring.

A shallow embedding of the measurement store and the scoring code of the KPI
tracker (`models.go`, `input.go`, `view.go`, `report.go`, `rest_api.go`,
`excel_database.go`) together with theorems about it.  The global slices
`measurements` and `kpis` are passed explicitly, and `time.Now()` is a parameter of
the operations that read the clock.

**Numeric model.**

Go's `float64` is embedded as the type `F64`: the rationals extended with the IEEE-754
special values `+Inf`, `-Inf` and `NaN`.  The special values follow the IEEE rules that
Go implements (`x / 0 = ±Inf`, `0 / 0 = NaN`, `Inf / Inf = NaN`, `0 * Inf = NaN`,
`Inf - Inf = NaN`, every comparison with `NaN` is false).  The operations `+`, `*`, `/`
of `F64` are exact on finite operands; `calculateAchievement` and
`calculateOverallScore` are the scoring code in this exact arithmetic.  The same code is
also embedded with every operation followed by a rounding (`calculateAchievementRounded`,
`calculateOverallScoreRounded`): with the rounding `F64.round64`, the IEEE-754
round-to-nearest-even of binary64 with subnormal numbers and overflow to an infinity, it
is the float64 arithmetic of the program, and with the rounding `F64.fin` it is the exact
arithmetic.  The sign of zero is not modelled.

**Integer model.**

Go's `int` is embedded as `Int`.  The one addition of the code whose overflow is
reachable, `m.ID + 1` in `saveMeasurement`, wraps around into the 64-bit range
(`wrapInt`).

**Time model.**

A `time.Time` is embedded by its civil fields in its own location (year, month, day and
the nanoseconds elapsed since midnight), the offset from UTC in effect and the location.
`Year` and `Month` read the civil fields; `Before`, `Equal` and `IsZero` compare instants,
the civil time less the offset.  A location is its list of offset transitions; `time.Date`
and `AddDate` normalise the month and a day past the end of the month and resolve the
civil time in the location as Go does, daylight-saving gaps included.  `time.Local` is a
parameter of the operations that use it.  Years are unbounded; the timestamps the program
reads have years 0 to 9999.

**Abstraction of the environment.**

Library and file-system results (decoding a request, `saveToExcel`, opening the
workbook, reading a sheet, parsing a cell) and the text renderers of the reports are
parameters of the operations that use them.
-/

namespace KPITracker

/-! ## float64 -/

/-- Values of Go's `float64`: a finite number, `+Inf`, `-Inf` or `NaN`. -/
inductive F64 where
  | fin (q : ℚ)
  | pinf
  | ninf
  | nan
deriving DecidableEq

namespace F64

/-- The sign-directed infinity produced by `a / 0` and `a * Inf` for a finite `a`:
`+Inf` for positive `a`, `-Inf` for negative `a`, `NaN` for zero. -/
def infOfSign (a : ℚ) : F64 :=
  if 0 < a then pinf else if a < 0 then ninf else nan

/-- Negation. -/
def neg : F64 → F64
  | fin a => fin (-a)
  | pinf => ninf
  | ninf => pinf
  | nan => nan

/-- Go `x + y` on float64. -/
def add : F64 → F64 → F64
  | fin a, fin b => fin (a + b)
  | fin _, pinf => pinf
  | fin _, ninf => ninf
  | pinf, fin _ => pinf
  | pinf, pinf => pinf
  | pinf, ninf => nan
  | ninf, fin _ => ninf
  | ninf, ninf => ninf
  | ninf, pinf => nan
  | fin _, nan => nan
  | pinf, nan => nan
  | ninf, nan => nan
  | nan, _ => nan

/-- Go `x * y` on float64. -/
def mul : F64 → F64 → F64
  | fin a, fin b => fin (a * b)
  | fin a, pinf => infOfSign a
  | fin a, ninf => infOfSign (-a)
  | pinf, fin b => infOfSign b
  | ninf, fin b => infOfSign (-b)
  | pinf, pinf => pinf
  | pinf, ninf => ninf
  | ninf, pinf => ninf
  | ninf, ninf => pinf
  | fin _, nan => nan
  | pinf, nan => nan
  | ninf, nan => nan
  | nan, _ => nan

/-- Go `x / y` on float64.  Division by zero does not fault: it yields an
infinity, or `NaN` for `0 / 0`. -/
def div : F64 → F64 → F64
  | fin a, fin b => if b = 0 then infOfSign a else fin (a / b)
  | fin _, pinf => fin 0
  | fin _, ninf => fin 0
  | pinf, fin b => if 0 ≤ b then pinf else ninf
  | ninf, fin b => if 0 ≤ b then ninf else pinf
  | pinf, pinf => nan
  | pinf, ninf => nan
  | ninf, pinf => nan
  | ninf, ninf => nan
  | fin _, nan => nan
  | pinf, nan => nan
  | ninf, nan => nan
  | nan, _ => nan

/-- Go `x <= y` on float64 (false as soon as an operand is `NaN`). -/
def ble : F64 → F64 → Bool
  | fin a, fin b => decide (a ≤ b)
  | fin _, pinf => true
  | fin _, ninf => false
  | pinf, fin _ => false
  | pinf, pinf => true
  | pinf, ninf => false
  | ninf, fin _ => true
  | ninf, pinf => true
  | ninf, ninf => true
  | fin _, nan => false
  | pinf, nan => false
  | ninf, nan => false
  | nan, _ => false

/-- Go `x < y` on float64 (false as soon as an operand is `NaN`). -/
def blt : F64 → F64 → Bool
  | fin a, fin b => decide (a < b)
  | fin _, pinf => true
  | fin _, ninf => false
  | pinf, fin _ => false
  | pinf, pinf => false
  | pinf, ninf => false
  | ninf, fin _ => true
  | ninf, pinf => true
  | ninf, ninf => false
  | fin _, nan => false
  | pinf, nan => false
  | ninf, nan => false
  | nan, _ => false

/-- Go `x == y` on float64 (`NaN` is not equal to itself). -/
def feq : F64 → F64 → Bool
  | fin a, fin b => decide (a = b)
  | pinf, pinf => true
  | ninf, ninf => true
  | _, _ => false

instance : Add F64 := ⟨add⟩
instance : Mul F64 := ⟨mul⟩
instance : Div F64 := ⟨div⟩
instance : Neg F64 := ⟨neg⟩
instance : LE F64 := ⟨fun a b => ble a b = true⟩
instance : LT F64 := ⟨fun a b => blt a b = true⟩
instance (a b : F64) : Decidable (a ≤ b) := inferInstanceAs (Decidable (ble a b = true))
instance (a b : F64) : Decidable (a < b) := inferInstanceAs (Decidable (blt a b = true))

/-- The smaller of two float64 values, as Go's `math.Min` on this model:
`NaN` as soon as an operand is `NaN`. -/
def fmin (a b : F64) : F64 :=
  if a = nan ∨ b = nan then nan else if a ≤ b then a else b

/-- Left-to-right sum of a list of float64 values, starting from 0. -/
def sum (xs : List F64) : F64 := xs.foldl (· + ·) (fin 0)

/-- The result of an operation after rounding with `rnd`: a finite exact result `q`
becomes `rnd q`, a special value stays. -/
def rounded (rnd : ℚ → F64) : F64 → F64
  | fin q => rnd q
  | pinf => pinf
  | ninf => ninf
  | nan => nan

/-- Go `x + y` on float64, the exact sum rounded with `rnd`. -/
def addR (rnd : ℚ → F64) (a b : F64) : F64 := rounded rnd (a + b)

/-- Go `x * y` on float64, the exact product rounded with `rnd`. -/
def mulR (rnd : ℚ → F64) (a b : F64) : F64 := rounded rnd (a * b)

/-- Go `x / y` on float64, the exact quotient rounded with `rnd`. -/
def divR (rnd : ℚ → F64) (a b : F64) : F64 := rounded rnd (a / b)

/-- Left-to-right sum of a list of float64 values, starting from 0, every addition
rounded with `rnd`. -/
def sumR (rnd : ℚ → F64) (xs : List F64) : F64 := xs.foldl (addR rnd) (fin 0)

/-- The integer part of the base-2 logarithm of a positive natural number, by repeated
halving; `n` steps of fuel are enough for `n`. -/
def log2Nat (fuel n : Nat) : Nat :=
  match fuel with
  | 0 => 0
  | fuel + 1 => if n < 2 then 0 else log2Nat fuel (n / 2) + 1

/-- The integer part of the base-2 logarithm of the positive rational `num / den`. -/
def floorLog2 (num den : Nat) : Int :=
  let e0 : Int := (log2Nat num num : Int) - (log2Nat den den : Int)
  if (if 0 ≤ e0 then decide (num < den * 2 ^ e0.toNat)
      else decide (num * 2 ^ e0.natAbs < den)) = true then e0 - 1
  else e0

/-- The integer nearest to `N / D`, the even one of the two when `N / D` lies half-way. -/
def roundHalfEven (N D : Nat) : Nat :=
  if 2 * (N % D) < D then N / D
  else if D < 2 * (N % D) then N / D + 1
  else if (N / D) % 2 = 0 then N / D
  else N / D + 1

/-- The binary64 number nearest to the positive rational `num / den` (IEEE 754
round-to-nearest, ties to even): 53 significant bits at the exponent of the argument, at
the exponent -1022 for the subnormal numbers; `none` when the result overflows. -/
def round64Pos (num den : Nat) : Option ℚ :=
  let e : Int := max (floorLog2 num den) (-1022)
  let n : Nat :=
    if e ≤ 52 then roundHalfEven (num * 2 ^ (52 - e).toNat) den
    else roundHalfEven num (den * 2 ^ (e - 52).toNat)
  if 1023 < e ∨ (e = 1023 ∧ 2 ^ 53 ≤ n) then none
  else if e ≤ 52 then some ((n : ℚ) / ((2 ^ (52 - e).toNat : Nat) : ℚ))
  else some ((n * 2 ^ (e - 52).toNat : Nat) : ℚ)

/-- The rounding of binary64 arithmetic: the float64 value of an exact finite result.
A result too large in magnitude overflows to an infinity. -/
def round64 (q : ℚ) : F64 :=
  if q = 0 then fin 0
  else if 0 < q then
    match round64Pos q.num.natAbs q.den with
    | some v => fin v
    | none => pinf
  else
    match round64Pos q.num.natAbs q.den with
    | some v => fin (-v)
    | none => ninf

/-- A value that is not negative: `NaN`, `+Inf` or a finite number that is at least 0. -/
def notNegative (x : F64) : Prop := x = nan ∨ fin 0 ≤ x

/-- A rounding that keeps the sign of a result: a result that is at least 0 is rounded to
a finite number that is at least 0, or overflows to `+Inf`. -/
def keepsSign (rnd : ℚ → F64) : Prop :=
  ∀ q : ℚ, 0 ≤ q → rnd q = pinf ∨ ∃ r : ℚ, rnd q = fin r ∧ 0 ≤ r

end F64

/-! ## Data model (`models.go`) -/

/-- A Go `*time.Location`: the offset from UTC (seconds east) in effect before the first
transition, and the transitions in ascending order, each with the Unix second at which it
happens and the offset in effect from then on.  `time.UTC` and the fixed zone of a parsed
timestamp such as `+05:00` have no transition; `time.Local` is a parameter of the
operations that use it. -/
structure Location where
  base : Int
  transitions : List (Int × Int)
deriving DecidableEq

/-- Go `time.UTC`. -/
def Location.utc : Location := { base := 0, transitions := [] }

/-- Go `time.FixedZone` with the given offset in seconds east of UTC. -/
def fixedZone (offset : Int) : Location := { base := offset, transitions := [] }

/-- A Go `time.Time`: its civil fields in its own location (year, month, day and the
nanoseconds elapsed since midnight), the offset from UTC in effect at that instant in
seconds east, and its location.  The instant is the civil time less the offset. -/
structure Time where
  year : Int
  month : Nat
  day : Nat
  nsec : Nat
  offset : Int := 0
  loc : Location := Location.utc
deriving DecidableEq

/-- Go `t.Year()`. -/
def Time.Year (t : Time) : Int := t.year

/-- Go `t.Month()`. -/
def Time.Month (t : Time) : Nat := t.month

/-- Go struct `KPI`. -/
structure KPI where
  ID : Int
  RoleID : Int
  Category : String
  Name : String
  Description : String
  Metric : String
  Unit : String
  Target : String
  TargetValue : F64
  Operator : String
  Weight : F64
deriving DecidableEq

/-- Go struct `Measurement`. -/
structure Measurement where
  ID : Int
  KPIID : Int
  MetricValue : F64
  Unit : String
  Period : Time
  Notes : String
  CreatedAt : Time
deriving DecidableEq

/-! ## Measurement lookup (`input.go`) -/

/-- Go `getExistingMeasurement`: the first stored measurement of the KPI whose
period has the year and month of `period`, or `none` (Go `nil`).  The global
slice `measurements` is passed explicitly. -/
def getExistingMeasurement (measurements : List Measurement) (kpiID : Int) (period : Time) :
    Option Measurement :=
  match measurements with
  | [] => none
  | m :: rest =>
    if m.KPIID = kpiID ∧ m.Period.Year = period.Year ∧ m.Period.Month = period.Month then
      some m
    else
      getExistingMeasurement rest kpiID period

/-! ## Scoring (`view.go`) -/

/-- Go `calculateAchievement`: achievement percentage of a KPI for a measurement
(`none` is the `nil` pointer). -/
def calculateAchievement (kpi : KPI) (measurement : Option Measurement) : F64 :=
  match measurement with
  | none => F64.fin 0
  | some m =>
    let value := m.MetricValue
    let achievement : F64 :=
      match kpi.Operator with
      | "≤" | "<=" =>
        if value ≤ kpi.TargetValue then
          F64.fin 100
        else
          (kpi.TargetValue / value) * F64.fin 100
      | "≥" | ">=" =>
        (value / kpi.TargetValue) * F64.fin 100
      | "=" =>
        if kpi.TargetValue ≤ value then
          F64.fin 100
        else
          (value / kpi.TargetValue) * F64.fin 100
      | _ =>
        (value / kpi.TargetValue) * F64.fin 100
    if F64.fin 100 < achievement then F64.fin 100 else achievement

/-- One iteration of the loop of `calculateOverallScore`: the accumulator is the
pair `(totalScore, totalWeight)`. -/
def scoreStep (measurements : List Measurement) (period : Time) (acc : F64 × F64) (kpi : KPI) :
    F64 × F64 :=
  match getExistingMeasurement measurements kpi.ID period with
  | some m =>
    let achievementPct := calculateAchievement kpi (some m)
    let score := achievementPct * kpi.Weight / F64.fin 100
    (acc.1 + score, acc.2 + kpi.Weight)
  | none => acc

/-- Go `calculateOverallScore`: weighted score of a set of KPIs for a period. -/
def calculateOverallScore (measurements : List Measurement) (kpis : List KPI) (period : Time) :
    F64 :=
  let totals := kpis.foldl (scoreStep measurements period) (F64.fin 0, F64.fin 0)
  let totalScore := totals.1
  let totalWeight := totals.2
  if F64.feq totalWeight (F64.fin 0) = true then
    F64.fin 0
  else
    (totalScore / totalWeight) * F64.fin 100

/-- Go `calculateAchievement` with every arithmetic operation rounded with `rnd`:
`F64.round64` gives the float64 arithmetic of the program, `F64.fin` the exact
arithmetic of `calculateAchievement`. -/
def calculateAchievementRounded (rnd : ℚ → F64) (kpi : KPI)
    (measurement : Option Measurement) : F64 :=
  match measurement with
  | none => F64.fin 0
  | some m =>
    let value := m.MetricValue
    let achievement : F64 :=
      match kpi.Operator with
      | "≤" | "<=" =>
        if value ≤ kpi.TargetValue then
          F64.fin 100
        else
          F64.mulR rnd (F64.divR rnd kpi.TargetValue value) (F64.fin 100)
      | "≥" | ">=" =>
        F64.mulR rnd (F64.divR rnd value kpi.TargetValue) (F64.fin 100)
      | "=" =>
        if kpi.TargetValue ≤ value then
          F64.fin 100
        else
          F64.mulR rnd (F64.divR rnd value kpi.TargetValue) (F64.fin 100)
      | _ =>
        F64.mulR rnd (F64.divR rnd value kpi.TargetValue) (F64.fin 100)
    if F64.fin 100 < achievement then F64.fin 100 else achievement

/-- One iteration of the loop of `calculateOverallScore` with every arithmetic operation
rounded with `rnd`. -/
def scoreStepRounded (rnd : ℚ → F64) (measurements : List Measurement) (period : Time)
    (acc : F64 × F64) (kpi : KPI) : F64 × F64 :=
  match getExistingMeasurement measurements kpi.ID period with
  | some m =>
    let achievementPct := calculateAchievementRounded rnd kpi (some m)
    let score := F64.divR rnd (F64.mulR rnd achievementPct kpi.Weight) (F64.fin 100)
    (F64.addR rnd acc.1 score, F64.addR rnd acc.2 kpi.Weight)
  | none => acc

/-- Go `calculateOverallScore` with every arithmetic operation rounded with `rnd`. -/
def calculateOverallScoreRounded (rnd : ℚ → F64) (measurements : List Measurement)
    (kpis : List KPI) (period : Time) : F64 :=
  let totals := kpis.foldl (scoreStepRounded rnd measurements period) (F64.fin 0, F64.fin 0)
  let totalScore := totals.1
  let totalWeight := totals.2
  if F64.feq totalWeight (F64.fin 0) = true then
    F64.fin 0
  else
    F64.mulR rnd (F64.divR rnd totalScore totalWeight) (F64.fin 100)

/-- The listed KPIs for which `getExistingMeasurement` finds a measurement in the
period, in list order. -/
def measuredKPIs (measurements : List Measurement) (kpis : List KPI) (period : Time) :
    List KPI :=
  kpis.filter (fun k => (getExistingMeasurement measurements k.ID period).isSome)

/-- The weighted score `Achievement * Weight / 100` of one KPI for the period. -/
def weightedScore (measurements : List Measurement) (period : Time) (k : KPI) : F64 :=
  calculateAchievement k (getExistingMeasurement measurements k.ID period) * k.Weight /
    F64.fin 100

/-- The weighted score `Achievement * Weight / 100` of one KPI for the period, every
arithmetic operation rounded with `rnd`. -/
def weightedScoreRounded (rnd : ℚ → F64) (measurements : List Measurement) (period : Time)
    (k : KPI) : F64 :=
  F64.divR rnd
    (F64.mulR rnd
      (calculateAchievementRounded rnd k (getExistingMeasurement measurements k.ID period))
      k.Weight)
    (F64.fin 100)

/-! ## Measurement store (`input.go`) -/

/-- A measurement is for `(kpiID, year and month of period)`: the test in the loop of
`getExistingMeasurement`. -/
def isFor (m : Measurement) (kpiID : Int) (period : Time) : Prop :=
  m.KPIID = kpiID ∧ m.Period.Year = period.Year ∧ m.Period.Month = period.Month

instance (m : Measurement) (kpiID : Int) (period : Time) : Decidable (isFor m kpiID period) :=
  inferInstanceAs (Decidable (_ ∧ _ ∧ _))

/-- The index `i` at which the loop of Go `getExistingMeasurement` returns
`&measurements[i]`, or `none` when it returns `nil`. -/
def getExistingMeasurementIndex (measurements : List Measurement) (kpiID : Int)
    (period : Time) : Option Nat :=
  match measurements with
  | [] => none
  | m :: rest =>
    if m.KPIID = kpiID ∧ m.Period.Year = period.Year ∧ m.Period.Month = period.Month then
      some 0
    else
      (getExistingMeasurementIndex rest kpiID period).map (· + 1)

/-- Assignment through the pointer `&measurements[i]`: the element at index `i` is
replaced by `f` of it, every other element stays. -/
def updateAt (measurements : List Measurement) (i : Nat) (f : Measurement → Measurement) :
    List Measurement :=
  match measurements, i with
  | [], _ => []
  | m :: rest, 0 => f m :: rest
  | m :: rest, j + 1 => m :: updateAt rest j f

/-- The largest value of Go's 64-bit `int`, `math.MaxInt64`. -/
def maxInt : Int := 9223372036854775807

/-- The value a Go `int` holds after an arithmetic result `x`: the result wrapped into
the 64-bit two's-complement range `[-2^63, 2^63)`. -/
def wrapInt (x : Int) : Int :=
  (x + 9223372036854775808) % 18446744073709551616 - 9223372036854775808

/-- The `newID` computed by Go `saveMeasurement`: starting from 1, every measurement
whose ID is at least the running value raises it to that ID plus one (a Go `int`
addition, which wraps around at `math.MaxInt64`). -/
def newID (measurements : List Measurement) : Int :=
  if measurements.length > 0 then
    measurements.foldl (fun acc m => if m.ID ≥ acc then wrapInt (m.ID + 1) else acc) 1
  else
    1

/-- Go `saveMeasurement`: update the existing measurement of the KPI and month in
place, or append a new one.  Returns the new contents of `measurements`; `now` is the
value of `time.Now()`. -/
def saveMeasurement (measurements : List Measurement) (kpiID : Int) (value : F64)
    (unit : String) (period : Time) (notes : String) (now : Time) : List Measurement :=
  match getExistingMeasurementIndex measurements kpiID period with
  | some i =>
    updateAt measurements i
      (fun m => { m with MetricValue := value, Unit := unit, Notes := notes })
  | none =>
    measurements ++
      [{ ID := newID measurements, KPIID := kpiID, MetricValue := value, Unit := unit,
         Period := period, Notes := notes, CreatedAt := now }]

/-- The arguments of one `saveMeasurement` call, with the clock value it reads. -/
structure SaveCall where
  kpiID : Int
  value : F64
  unit : String
  period : Time
  notes : String
  now : Time

/-- A finite sequence of `saveMeasurement` calls, in order. -/
def saveAll (measurements : List Measurement) (calls : List SaveCall) : List Measurement :=
  calls.foldl (fun ms c => saveMeasurement ms c.kpiID c.value c.unit c.period c.notes c.now)
    measurements

/-- The store holds at most one measurement per (KPIID, Period year, Period month). -/
def uniquePerKPIMonth (measurements : List Measurement) : Prop :=
  measurements.Pairwise
    (fun a b => ¬ (a.KPIID = b.KPIID ∧ a.Period.Year = b.Period.Year ∧
      a.Period.Month = b.Period.Month))

/-- The identity of a measurement in the store: its KPIID with the year and month of
its Period. -/
def monthKey (m : Measurement) : Int × Int × Nat :=
  (m.KPIID, m.Period.Year, m.Period.Month)

/-- The number of stored measurements for `(kpiID, year and month of period)`. -/
def countFor (measurements : List Measurement) (kpiID : Int) (period : Time) : Nat :=
  (measurements.filter (fun m => decide (isFor m kpiID period))).length

/-! ## The `createMeasurement` handler (`rest_api.go`) -/

/-- The decoded JSON body of a `createMeasurement` request. -/
structure MeasurementRequest where
  KPIID : Int
  MetricValue : F64
  Unit : String
  Period : Time
  Notes : String

/-- What the handler writes: an `http.Error` with its message and status code, or the
JSON encoding of a measurement pointer. -/
inductive Response where
  | httpError (message : String) (status : Nat)
  | encoded (body : Option Measurement)
deriving DecidableEq

/-- Go `createMeasurement`.  `body` is the outcome of decoding the request (`none` when
decoding fails) and `excelError` the outcome of `saveToExcel` (`none` on success).
Returns the response and the new contents of `measurements`. -/
def createMeasurement (kpis : List KPI) (measurements : List Measurement)
    (body : Option MeasurementRequest) (now : Time) (excelError : Option String) :
    Response × List Measurement :=
  match body with
  | none => (Response.httpError "Invalid request body" 400, measurements)
  | some measurementRequest =>
    let validKPI := kpis.any (fun kpi => decide (kpi.ID = measurementRequest.KPIID))
    if !validKPI then
      (Response.httpError "Invalid KPI ID" 400, measurements)
    else
      let saved := saveMeasurement measurements measurementRequest.KPIID
        measurementRequest.MetricValue measurementRequest.Unit measurementRequest.Period
        measurementRequest.Notes now
      match excelError with
      | some err => (Response.httpError ("Failed to save to Excel: " ++ err) 500, saved)
      | none =>
        (Response.encoded (getExistingMeasurement saved measurementRequest.KPIID
          measurementRequest.Period), saved)

/-! ## Sample data used by the concrete checks -/

/-- A KPI with the given operator, target value and weight; the text fields are empty. -/
def mkKPI (id : Int) (op : String) (target weight : F64) : KPI :=
  { ID := id, RoleID := 1, Category := "Quantitative", Name := "", Description := "",
    Metric := "", Unit := "", Target := "", TargetValue := target, Operator := op,
    Weight := weight }

/-- The first day of a month, at midnight UTC. -/
def firstOfMonth (y : Int) (mo : Nat) : Time :=
  { year := y, month := mo, day := 1, nsec := 0 }

/-- A measurement of a KPI for a period; the text fields are empty. -/
def mkMeasurement (id kpiID : Int) (v : F64) (p : Time) : Measurement :=
  { ID := id, KPIID := kpiID, MetricValue := v, Unit := "", Period := p, Notes := "",
    CreatedAt := p }

/-! ## Calendar arithmetic of `time.Time` -/

/-- Leap years of the Gregorian calendar. -/
def isLeap (year : Int) : Bool :=
  decide (year % 4 = 0 ∧ (year % 100 ≠ 0 ∨ year % 400 = 0))

/-- The number of days of a month. -/
def daysIn (year : Int) (month : Nat) : Nat :=
  if month = 2 then (if isLeap year then 29 else 28)
  else if month = 4 ∨ month = 6 ∨ month = 9 ∨ month = 11 then 30
  else 31

/-- Day normalisation of Go `time.Date`: a day past the end of the month is carried
into the following months.  Every step removes at least 28 days, so `day` steps of
fuel are enough. -/
def normDay (fuel : Nat) (year : Int) (month day nsec : Nat) : Time :=
  match fuel with
  | 0 => { year := year, month := month, day := day, nsec := nsec }
  | fuel + 1 =>
    if day > daysIn year month then
      if month = 12 then normDay fuel (year + 1) 1 (day - daysIn year month) nsec
      else normDay fuel year (month + 1) (day - daysIn year month) nsec
    else
      { year := year, month := month, day := day, nsec := nsec }

/-- The number of days from 1 January of year 1 to 1 January of `year`. -/
def daysBeforeYear (year : Int) : Int :=
  365 * (year - 1) + (year - 1) / 4 - (year - 1) / 100 + (year - 1) / 400

/-- The number of days from 1 January of `year` to the first of `month`: the Go table
`daysBefore`, with the leap day from March on. -/
def daysBeforeMonth (year : Int) (month : Nat) : Int :=
  (match month with
    | 1 => 0
    | 2 => 31
    | 3 => 59
    | 4 => 90
    | 5 => 120
    | 6 => 151
    | 7 => 181
    | 8 => 212
    | 9 => 243
    | 10 => 273
    | 11 => 304
    | _ => 334) + (if isLeap year = true ∧ 3 ≤ month then 1 else 0)

/-- The Unix second of a civil time read as UTC (1 January 1970 is day 719162 after
1 January of year 1). -/
def civilSeconds (year : Int) (month day nsec : Nat) : Int :=
  (daysBeforeYear year + daysBeforeMonth year month + ((day : Int) - 1) - 719162) * 86400 +
    ((nsec / 1000000000 : Nat) : Int)

/-- Go `t.Unix()`: the Unix second of the instant. -/
def Time.Unix (t : Time) : Int :=
  civilSeconds t.year t.month t.day t.nsec - t.offset

/-- The instant of a time, in nanoseconds since the Unix epoch. -/
def Time.instant (t : Time) : Int :=
  t.Unix * 1000000000 + ((t.nsec % 1000000000 : Nat) : Int)

/-- What Go `(*Location).lookup` returns: the offset in effect and the Unix seconds
between which it is in effect (`none` for no bound on that side). -/
structure ZoneSpan where
  offset : Int
  start : Option Int
  stop : Option Int
deriving DecidableEq

/-- The scan of the transitions of Go `(*Location).lookup`: `offset` is in effect from
`start` on, until the first transition after `sec`. -/
def lookupFrom (offset : Int) (start : Option Int) (transitions : List (Int × Int))
    (sec : Int) : ZoneSpan :=
  match transitions with
  | [] => { offset := offset, start := start, stop := none }
  | tr :: rest =>
    if sec < tr.1 then { offset := offset, start := start, stop := some tr.1 }
    else lookupFrom tr.2 (some tr.1) rest sec

/-- Go `(*Location).lookup`: the zone in effect at the Unix second `sec`. -/
def Location.lookup (l : Location) (sec : Int) : ZoneSpan :=
  lookupFrom l.base none l.transitions sec

/-- The test `utc < start || utc >= end` of Go `time.Date`. -/
def ZoneSpan.excludes (z : ZoneSpan) (utc : Int) : Bool :=
  (match z.start with
    | some s => decide (utc < s)
    | none => false) ||
  (match z.stop with
    | some e => decide (utc ≥ e)
    | none => false)

/-- The civil date `days` days before a civil date. -/
def daysBack (days : Nat) (year : Int) (month day nsec : Nat) : Time :=
  match days with
  | 0 => { year := year, month := month, day := day, nsec := nsec }
  | days + 1 =>
    if day > 1 then daysBack days year month (day - 1) nsec
    else if month = 1 then daysBack days (year - 1) 12 31 nsec
    else daysBack days year (month - 1) (daysIn year (month - 1)) nsec

/-- The civil time `delta` seconds after a civil time (before it for a negative
`delta`). -/
def shiftSeconds (c : Time) (delta : Int) : Time :=
  let total : Int := ((c.nsec / 1000000000 : Nat) : Int) + delta
  let nsec : Nat := (total % 86400).toNat * 1000000000 + c.nsec % 1000000000
  if 0 ≤ total / 86400 then
    normDay (c.day + (total / 86400).toNat) c.year c.month (c.day + (total / 86400).toNat) nsec
  else
    daysBack (total / 86400).natAbs c.year c.month c.day nsec

/-- Go `time.Date(year, month, day, ..., loc)` for a day of at least 1 and a time of day
`nsec` within the day.  The month is normalised into 1..12 with carry into the year and
the day is normalised; the civil time is then read in `loc`: the zone found for it as if
it were UTC gives the offset, looked up again when the corrected second falls outside
that zone, and the result shows the civil fields of the instant so obtained, which in a
daylight-saving gap differ from the civil time asked for. -/
def Date (year : Int) (month : Int) (day nsec : Nat) (loc : Location) : Time :=
  let c := normDay day (year + (month - 1) / 12) (((month - 1) % 12).toNat + 1) day nsec
  let unix := civilSeconds c.year c.month c.day c.nsec
  let span := loc.lookup unix
  let offset :=
    if span.offset ≠ 0 then
      if span.excludes (unix - span.offset) then (loc.lookup (unix - span.offset)).offset
      else span.offset
    else 0
  let shown := (loc.lookup (unix - offset)).offset
  if shown = offset then { c with offset := offset, loc := loc }
  else { shiftSeconds c (shown - offset) with offset := shown, loc := loc }

/-- Go `t.AddDate(years, months, days)` for non-negative `days`: the civil fields of
`t` with the months added, read again in the location of `t`. -/
def Time.AddDate (t : Time) (years months : Int) (days : Nat) : Time :=
  Date (t.year + years) ((t.month : Int) + months) (t.day + days) t.nsec t.loc

/-- Go `t.Before(u)`: the instant of `t` is before the instant of `u`. -/
def Time.Before (t u : Time) : Bool :=
  decide (t.instant < u.instant)

/-- Go `t.Equal(u)`: `t` and `u` are the same instant, whatever their locations. -/
def Time.Equal (t u : Time) : Bool :=
  decide (t.instant = u.instant)

/-- Go `t.IsZero()`: the instant is January 1 of year 1 at midnight UTC. -/
def Time.IsZero (t : Time) : Bool :=
  decide (t.instant = -62135596800000000000)

/-! ## Month loop of the reports (`report.go`) -/

/-- The month loop of `generateTextReport`, `generateCSVReport` and
`generateHTMLReport`: `currentPeriod := startPeriod`, and while `currentPeriod` is
before or equal to `endPeriod` the period is visited and advanced by
`AddDate(0, 1, 0)`.  Returns the visited periods in order; `fuel` bounds the number of
iterations. -/
def monthLoop (fuel : Nat) (currentPeriod endPeriod : Time) : List Time :=
  match fuel with
  | 0 => []
  | fuel + 1 =>
    if currentPeriod.Before endPeriod || currentPeriod.Equal endPeriod then
      currentPeriod :: monthLoop fuel (currentPeriod.AddDate 0 1 0) endPeriod
    else
      []

/-- The position of a calendar month on the month line: `12 * year + (month - 1)`. -/
def monthIndex (t : Time) : Int := 12 * t.year + ((t.month : Int) - 1)

/-- The first day of a month at midnight in the fixed zone of offset `z`. -/
def firstOfMonthAt (z : Int) (y : Int) (mo : Nat) : Time :=
  { year := y, month := mo, day := 1, nsec := 0, offset := z, loc := fixedZone z }

/-- The first day, at midnight in the fixed zone of offset `z`, of the calendar month at a
position of the month line. -/
def monthOfIndexAt (z : Int) (i : Int) : Time :=
  firstOfMonthAt z (i / 12) ((i % 12).toNat + 1)

/-- The number of days from 1 January of year 1 to the first day of the calendar month at
a position of the month line. -/
def monthStartDay (i : Int) : Int :=
  daysBeforeYear (i / 12) + daysBeforeMonth (i / 12) ((i % 12).toNat + 1)

/-! ## Period ranges of the reports (`report.go`, `rest_api.go`) -/

/-- The `startPeriod` and `endPeriod` that `generateQuarterlyReport` and
`getQuarterlyReport` compute from the parsed year and quarter; `none` when the year or
the quarter is rejected as invalid.  `Local` is the value of `time.Local`. -/
def quarterlyPeriods (Local : Location) (year quarter : Int) : Option (Time × Time) :=
  if year < 2000 ∨ year > 2100 then
    none
  else if quarter < 1 ∨ quarter > 4 then
    none
  else
    let startMonth := (quarter - 1) * 3 + 1
    let endMonth := quarter * 3
    some (Date year startMonth 1 0 Local, Date year endMonth 1 0 Local)

/-- The `startPeriod` and `endPeriod` that `generateYearlyReport` and `getYearlyReport`
compute from the parsed year; `none` when the year is rejected as invalid.  `Local` is
the value of `time.Local`. -/
def yearlyPeriods (Local : Location) (year : Int) : Option (Time × Time) :=
  if year < 2000 ∨ year > 2100 then
    none
  else
    some (Date year 1 1 0 Local, Date year 12 1 0 Local)

/-- The three text renderers of `report.go`, whose output text is not modelled. -/
structure Renderers where
  generateTextReport : Time → Time → String
  generateCSVReport : Time → Time → String
  generateHTMLReport : Time → Time → String

/-- Go `generateReport`: dispatch on the format. -/
def generateReport (r : Renderers) (startPeriod endPeriod : Time) (format : String) :
    String :=
  match format with
  | "txt" => r.generateTextReport startPeriod endPeriod
  | "csv" => r.generateCSVReport startPeriod endPeriod
  | "html" => r.generateHTMLReport startPeriod endPeriod
  | _ => "Unsupported format"

/-- The decoded JSON body of a `getCustomReport` request. -/
structure CustomReportRequest where
  StartPeriod : Time
  EndPeriod : Time
  RoleIDs : List Int
  Format : String

/-- What `getCustomReport` writes: an `http.Error`, the JSON summary of the range, or
the text of a generated report. -/
inductive ReportResponse where
  | httpError (message : String) (status : Nat)
  | rangeSummary (startDate endDate : Time) (roleIDs : List Int)
  | content (text : String)
deriving DecidableEq

/-- Go `getCustomReport`; `body` is the outcome of decoding the request (`none` when
decoding fails). -/
def getCustomReport (r : Renderers) (body : Option CustomReportRequest) : ReportResponse :=
  match body with
  | none => ReportResponse.httpError "Invalid request body" 400
  | some customReportRequest =>
    if customReportRequest.EndPeriod.Before customReportRequest.StartPeriod then
      ReportResponse.httpError "End period cannot be before start period" 400
    else
      let format := if customReportRequest.Format = "" then "json"
        else customReportRequest.Format
      if format = "json" then
        ReportResponse.rangeSummary customReportRequest.StartPeriod
          customReportRequest.EndPeriod customReportRequest.RoleIDs
      else
        ReportResponse.content (generateReport r customReportRequest.StartPeriod
          customReportRequest.EndPeriod format)

/-- How the console function `generateCustomReport` ends: it returns without a report,
it prints a rejection and returns, or it generates and saves a report. -/
inductive ConsoleOutcome where
  | returned
  | rejected (message : String)
  | saved (report : String)
deriving DecidableEq

/-- Go `generateCustomReport` (console).  `startPeriod` and `endPeriod` are the results
of the two `selectPeriod` dialogues; `selection` is the format chosen by the role and
format dialogues that follow the range check, `none` when one of them ends the
function. -/
def generateCustomReport (r : Renderers) (startPeriod endPeriod : Time)
    (selection : Option String) : ConsoleOutcome :=
  if startPeriod.IsZero then
    ConsoleOutcome.returned
  else if endPeriod.IsZero then
    ConsoleOutcome.returned
  else if endPeriod.Before startPeriod then
    ConsoleOutcome.rejected "End period cannot be before start period."
  else
    match selection with
    | none => ConsoleOutcome.returned
    | some format => ConsoleOutcome.saved (generateReport r startPeriod endPeriod format)

/-! ## KPIs of a role (`view.go`) -/

/-- Go `getKPIsByRoleID`: the loop appends every KPI of the role to `result`. -/
def getKPIsByRoleID (kpis : List KPI) (roleID : Int) : List KPI :=
  kpis.foldl (fun result kpi => if kpi.RoleID = roleID then result ++ [kpi] else result) []

/-! ## Loading the dataset (`excel_database.go`) -/

/-- Go struct `Role`. -/
structure Role where
  ID : Int
  Name : String
  Description : String
deriving DecidableEq

/-- The three global collections `roles`, `kpis` and `measurements`. -/
structure Dataset where
  roles : List Role
  kpis : List KPI
  measurements : List Measurement
deriving DecidableEq

/-- The library parsers used on the cells: `strconv.Atoi`, `strconv.ParseFloat`,
`time.Parse` with the date layout and with the date-and-time layout (`none` is an
error). -/
structure Parsers where
  atoi : String → Option Int
  parseFloat : String → Option F64
  parseDate : String → Option Time
  parseDateTime : String → Option Time

/-- An opened workbook: the outcome of `GetRows` on each of the three sheets. -/
structure Workbook where
  rolesRows : Except String (List (List String))
  kpisRows : Except String (List (List String))
  measurementsRows : Except String (List (List String))

/-- The outcome of `excelize.OpenFile`: the workbook, an error for which
`os.IsNotExist` holds, or another error. -/
inductive OpenResult where
  | opened (f : Workbook)
  | notExist (err : String)
  | failed (err : String)

/-- The roles loop of `loadFromExcel`: the header row, incomplete rows and rows with an
invalid ID are skipped. -/
def loadRoles (p : Parsers) (rows : List (List String)) : List Role :=
  (rows.drop 1).filterMap (fun row =>
    if row.length < 3 then none
    else
      match p.atoi (row.getD 0 "") with
      | none => none
      | some id => some { ID := id, Name := row.getD 1 "", Description := row.getD 2 "" })

/-- The KPIs loop of `loadFromExcel`: an unparsable target value or weight becomes 0. -/
def loadKPIs (p : Parsers) (rows : List (List String)) : List KPI :=
  (rows.drop 1).filterMap (fun row =>
    if row.length < 11 then none
    else
      match p.atoi (row.getD 0 "") with
      | none => none
      | some id =>
        match p.atoi (row.getD 1 "") with
        | none => none
        | some roleID =>
          let targetValue := (p.parseFloat (row.getD 8 "")).getD (F64.fin 0)
          let weight := (p.parseFloat (row.getD 10 "")).getD (F64.fin 0)
          some { ID := id, RoleID := roleID, Category := row.getD 2 "", Name := row.getD 3 "",
                 Description := row.getD 4 "", Metric := row.getD 5 "", Unit := row.getD 6 "",
                 Target := row.getD 7 "", TargetValue := targetValue,
                 Operator := row.getD 9 "", Weight := weight })

/-- The measurements loop of `loadFromExcel`: an unparsable creation date becomes
`time.Now()`. -/
def loadMeasurements (p : Parsers) (now : Time) (rows : List (List String)) :
    List Measurement :=
  (rows.drop 1).filterMap (fun row =>
    if row.length < 7 then none
    else
      match p.atoi (row.getD 0 "") with
      | none => none
      | some id =>
        match p.atoi (row.getD 1 "") with
        | none => none
        | some kpiID =>
          match p.parseFloat (row.getD 2 "") with
          | none => none
          | some metricValue =>
            match p.parseDate (row.getD 4 "") with
            | none => none
            | some period =>
              let createdAt := (p.parseDateTime (row.getD 6 "")).getD now
              some { ID := id, KPIID := kpiID, MetricValue := metricValue,
                     Unit := row.getD 3 "", Period := period, Notes := row.getD 5 "",
                     CreatedAt := createdAt })

/-- The part of `loadFromExcel` that follows a successful open: the three collections
are cleared, then roles, KPIs and measurements are read sheet by sheet, returning at the
first sheet that cannot be read.  Returns the error (`none` for `nil`) and the
collections as the function leaves them. -/
def loadSheets (p : Parsers) (now : Time) (f : Workbook) : Option String × Dataset :=
  match f.rolesRows with
  | Except.error err =>
    (some ("failed to read roles sheet: " ++ err),
      { roles := [], kpis := [], measurements := [] })
  | Except.ok roleRows =>
    match f.kpisRows with
    | Except.error err =>
      (some ("failed to read KPIs sheet: " ++ err),
        { roles := loadRoles p roleRows, kpis := [], measurements := [] })
    | Except.ok kpiRows =>
      match f.measurementsRows with
      | Except.error err =>
        (some ("failed to read measurements sheet: " ++ err),
          { roles := loadRoles p roleRows, kpis := loadKPIs p kpiRows, measurements := [] })
      | Except.ok measurementRows =>
        (none,
          { roles := loadRoles p roleRows, kpis := loadKPIs p kpiRows,
            measurements := loadMeasurements p now measurementRows })

/-- Go `loadFromExcel`.  `opening` is the outcome of the first `OpenFile`, `createError`
that of `createEmptyExcelDB` and `reopening` that of the second `OpenFile`, both used
only when the file does not exist.  Returns the error (`none` for `nil`) and the
collections as the function leaves them. -/
def loadFromExcel (p : Parsers) (now : Time) (opening : OpenResult)
    (createError : Option String) (reopening : Except String Workbook) (data : Dataset) :
    Option String × Dataset :=
  match opening with
  | OpenResult.failed err => (some ("failed to open Excel database: " ++ err), data)
  | OpenResult.notExist _ =>
    match createError with
    | some err => (some ("failed to create new Excel database: " ++ err), data)
    | none =>
      match reopening with
      | Except.error err =>
        (some ("failed to open newly created Excel database: " ++ err), data)
      | Except.ok f => loadSheets p now f
  | OpenResult.opened f => loadSheets p now f

/-! ## Rescaling of weights -/

/-- The KPI list with the Weight of every KPI multiplied by the constant `c`. -/
def scaleWeights (c : ℚ) (kpis : List KPI) : List KPI :=
  kpis.map (fun k => { k with Weight := F64.fin c * k.Weight })

/-! ## Sample environment used by the concrete checks -/

/-- The transitions of the zone `America/Asuncion` around the last quarter of 2017:
UTC-4 until daylight saving starts on 1 October 2017 at local midnight (04:00 UTC), UTC-3
until it ends on 25 March 2018 (03:00 UTC). -/
def asuncion : Location :=
  { base := -14400, transitions := [(1506830400, -10800), (1521946800, -14400)] }

/-- Renderers that return a fixed text for each format. -/
def sampleRenderers : Renderers :=
  { generateTextReport := fun _ _ => "text report",
    generateCSVReport := fun _ _ => "csv report",
    generateHTMLReport := fun _ _ => "html report" }

/-- Parsers that reject every cell. -/
def sampleParsers : Parsers :=
  { atoi := fun _ => none, parseFloat := fun _ => none, parseDate := fun _ => none,
    parseDateTime := fun _ => none }

/-- A dataset of one role, one KPI and one measurement. -/
def sampleDataset : Dataset :=
  { roles := [{ ID := 1, Name := "Support Agent", Description := "" }],
    kpis := [mkKPI 1 "≤" (F64.fin 3) (F64.fin 70)],
    measurements := [mkMeasurement 1 1 (F64.fin 2) (firstOfMonth 2025 2)] }

/-! ## Arithmetic of the float64 model -/

namespace F64

@[simp] theorem add_def (a b : F64) : a + b = add a b := rfl
@[simp] theorem mul_def (a b : F64) : a * b = mul a b := rfl
@[simp] theorem div_def (a b : F64) : a / b = div a b := rfl
@[simp] theorem le_def (a b : F64) : a ≤ b ↔ ble a b = true := Iff.rfl
@[simp] theorem lt_def (a b : F64) : a < b ↔ blt a b = true := Iff.rfl

end F64

/-! ## Branches of `calculateAchievement` -/

/-- Multiplying a quotient by 100 is dividing the 100-fold numerator, special values included. -/
theorem div_mul_hundred (x y : F64) :
    x / y * F64.fin 100 = (F64.fin 100 * x) / y := by
  cases x <;> cases y <;> norm_num [F64.div, F64.mul, F64.infOfSign]
  · rename_i a b
    by_cases hb : b = 0
    · simp [hb, F64.mul, F64.infOfSign]
      split_ifs <;> simp_all [F64.mul, F64.infOfSign] <;> linarith
    · simp [hb, F64.mul]; ring

/-- The final clamp of `calculateAchievement` is the minimum with 100. -/
theorem clamp_eq_fmin (x : F64) :
    (if F64.fin 100 < x then F64.fin 100 else x) = F64.fmin (F64.fin 100) x := by
  cases x <;> simp [F64.fmin, F64.ble, F64.blt]
  rename_i q
  by_cases h : (100:ℚ) < q
  · simp [h, h.le]
  · simp only [h, if_false]
    by_cases h2 : (100:ℚ) ≤ q
    · have : q = 100 := le_antisymm (not_lt.mp h) h2
      simp [this]
    · simp [h2]

/-- The minimum of two finite values. -/
theorem fmin_fin (a b : ℚ) : F64.fmin (F64.fin a) (F64.fin b) = F64.fin (min a b) := by
  by_cases h : a ≤ b
  · simp [F64.fmin, F64.ble, h]
  · simp [F64.fmin, F64.ble, h, min_eq_right (le_of_not_le h)]

/-- The quotient `100 * a / b` of finite values with a non-zero divisor. -/
theorem hundred_mul_div_fin (a b : ℚ) (hb : b ≠ 0) :
    (F64.fin 100 * F64.fin a) / F64.fin b = F64.fin (100 * a / b) := by
  simp [F64.mul, F64.div, hb]

/-- The lower-is-better branch of `calculateAchievement`. -/
theorem calc_le_op (kpi : KPI) (m : Measurement)
    (h : kpi.Operator = "≤" ∨ kpi.Operator = "<=") :
    calculateAchievement kpi (some m) =
      if m.MetricValue ≤ kpi.TargetValue then F64.fin 100
      else F64.fmin (F64.fin 100) (F64.fin 100 * kpi.TargetValue / m.MetricValue) := by
  have key : calculateAchievement kpi (some m) =
      if F64.fin 100 < (if m.MetricValue ≤ kpi.TargetValue then F64.fin 100
          else kpi.TargetValue / m.MetricValue * F64.fin 100) then F64.fin 100
      else (if m.MetricValue ≤ kpi.TargetValue then F64.fin 100
          else kpi.TargetValue / m.MetricValue * F64.fin 100) := by
    rcases h with h | h <;> simp only [calculateAchievement, h]
  rw [key, clamp_eq_fmin]
  by_cases hv : m.MetricValue ≤ kpi.TargetValue
  · rw [if_pos hv, if_pos hv, fmin_fin]; norm_num
  · rw [if_neg hv, if_neg hv, div_mul_hundred]

/-- The higher-is-better branch of `calculateAchievement`. -/
theorem calc_ge_op (kpi : KPI) (m : Measurement)
    (h : kpi.Operator = "≥" ∨ kpi.Operator = ">=") :
    calculateAchievement kpi (some m) =
      F64.fmin (F64.fin 100) (F64.fin 100 * m.MetricValue / kpi.TargetValue) := by
  have key : calculateAchievement kpi (some m) =
      if F64.fin 100 < m.MetricValue / kpi.TargetValue * F64.fin 100 then F64.fin 100
      else m.MetricValue / kpi.TargetValue * F64.fin 100 := by
    rcases h with h | h <;> simp only [calculateAchievement, h]
  rw [key, clamp_eq_fmin, div_mul_hundred]

/-- The default branch of `calculateAchievement`. -/
theorem calc_other_op (kpi : KPI) (m : Measurement)
    (h1 : kpi.Operator ≠ "≤") (h2 : kpi.Operator ≠ "<=") (h3 : kpi.Operator ≠ "≥")
    (h4 : kpi.Operator ≠ ">=") (h5 : kpi.Operator ≠ "=") :
    calculateAchievement kpi (some m) =
      F64.fmin (F64.fin 100) (F64.fin 100 * m.MetricValue / kpi.TargetValue) := by
  have key : calculateAchievement kpi (some m) =
      if F64.fin 100 < m.MetricValue / kpi.TargetValue * F64.fin 100 then F64.fin 100
      else m.MetricValue / kpi.TargetValue * F64.fin 100 := by
    simp only [calculateAchievement]
  rw [key, clamp_eq_fmin, div_mul_hundred]

/-- The `=` branch of `calculateAchievement`. -/
theorem calc_eq_op (kpi : KPI) (m : Measurement) (h : kpi.Operator = "=") :
    calculateAchievement kpi (some m) =
      if kpi.TargetValue ≤ m.MetricValue then F64.fin 100
      else F64.fmin (F64.fin 100) (F64.fin 100 * m.MetricValue / kpi.TargetValue) := by
  have key : calculateAchievement kpi (some m) =
      if F64.fin 100 < (if kpi.TargetValue ≤ m.MetricValue then F64.fin 100
          else m.MetricValue / kpi.TargetValue * F64.fin 100) then F64.fin 100
      else (if kpi.TargetValue ≤ m.MetricValue then F64.fin 100
          else m.MetricValue / kpi.TargetValue * F64.fin 100) := by
    simp only [calculateAchievement, h]
  rw [key, clamp_eq_fmin]
  by_cases hv : kpi.TargetValue ≤ m.MetricValue
  · rw [if_pos hv, if_pos hv, fmin_fin]; norm_num
  · rw [if_neg hv, if_neg hv, div_mul_hundred]

/-! ## Branches of `calculateAchievement` in rounded arithmetic -/

/-- Values of the binary64 rounding at the edges of the format: a number with at most 53
significant bits is kept; one tenth is rounded to `3602879701896397 / 2^55`; a tie goes to
the even neighbour; the largest finite number is `2^1024 - 2^971`, and from
`2^1024 - 2^970` on a result overflows; the smallest positive number is `2^-1074`, and
half of it is rounded to 0. -/
theorem round64_examples :
    F64.round64 (1 / 2) = F64.fin (1 / 2) ∧
    F64.round64 (-3) = F64.fin (-3) ∧
    F64.round64 (1 / 10) = F64.fin (3602879701896397 / 36028797018963968) ∧
    F64.round64 (2 ^ 53 + 1) = F64.fin (2 ^ 53) ∧
    F64.round64 (2 ^ 53 + 3) = F64.fin (2 ^ 53 + 4) ∧
    F64.round64 (2 ^ 1024 - 2 ^ 971) = F64.fin (2 ^ 1024 - 2 ^ 971) ∧
    F64.round64 (2 ^ 1024 - 2 ^ 970 - 1) = F64.fin (2 ^ 1024 - 2 ^ 971) ∧
    F64.round64 (2 ^ 1024 - 2 ^ 970) = F64.pinf ∧
    F64.round64 (-(2 ^ 1024)) = F64.ninf ∧
    F64.round64 (1 / 2 ^ 1074) = F64.fin (1 / 2 ^ 1074) ∧
    F64.round64 (1 / 2 ^ 1075) = F64.fin 0 ∧
    F64.round64 (3 / 2 ^ 1075) = F64.fin (2 / 2 ^ 1074) := by
  refine ⟨by decide!, by decide!, by decide!, by decide!, by decide!, by decide!, by decide!,
    by decide!, by decide!, by decide!, by decide!, by decide!⟩

/-- Rounding with `F64.fin` changes nothing: it is the exact arithmetic. -/
theorem rounded_fin (x : F64) : F64.rounded F64.fin x = x := by
  cases x <;> rfl

/-- With the rounding `F64.fin` the rounded achievement is `calculateAchievement`. -/
theorem calculateAchievementRounded_exact (kpi : KPI) (measurement : Option Measurement) :
    calculateAchievementRounded F64.fin kpi measurement =
      calculateAchievement kpi measurement := by
  unfold calculateAchievementRounded calculateAchievement
  simp only [F64.mulR, F64.divR, rounded_fin]

/-- With the rounding `F64.fin` the rounded loop step is `scoreStep`. -/
theorem scoreStepRounded_exact (measurements : List Measurement) (period : Time)
    (acc : F64 × F64) (kpi : KPI) :
    scoreStepRounded F64.fin measurements period acc kpi =
      scoreStep measurements period acc kpi := by
  unfold scoreStepRounded scoreStep
  simp only [F64.mulR, F64.divR, F64.addR, rounded_fin, calculateAchievementRounded_exact]

/-- With the rounding `F64.fin` the rounded score is `calculateOverallScore`. -/
theorem calculateOverallScoreRounded_exact (measurements : List Measurement)
    (kpis : List KPI) (period : Time) :
    calculateOverallScoreRounded F64.fin measurements kpis period =
      calculateOverallScore measurements kpis period := by
  unfold calculateOverallScoreRounded calculateOverallScore
  have h : scoreStepRounded F64.fin measurements period = scoreStep measurements period := by
    funext acc kpi
    exact scoreStepRounded_exact measurements period acc kpi
  simp only [F64.mulR, F64.divR, rounded_fin, h]

/-- The lower-is-better branch of `calculateAchievement`, in the order of operations of
the code. -/
theorem calcRounded_le_op (rnd : ℚ → F64) (kpi : KPI) (m : Measurement)
    (h : kpi.Operator = "≤" ∨ kpi.Operator = "<=") :
    calculateAchievementRounded rnd kpi (some m) =
      if m.MetricValue ≤ kpi.TargetValue then F64.fin 100
      else F64.fmin (F64.fin 100)
        (F64.mulR rnd (F64.divR rnd kpi.TargetValue m.MetricValue) (F64.fin 100)) := by
  have key : calculateAchievementRounded rnd kpi (some m) =
      if F64.fin 100 < (if m.MetricValue ≤ kpi.TargetValue then F64.fin 100
          else F64.mulR rnd (F64.divR rnd kpi.TargetValue m.MetricValue) (F64.fin 100))
        then F64.fin 100
      else (if m.MetricValue ≤ kpi.TargetValue then F64.fin 100
          else F64.mulR rnd (F64.divR rnd kpi.TargetValue m.MetricValue) (F64.fin 100)) := by
    rcases h with h | h <;> simp only [calculateAchievementRounded, h]
  rw [key, clamp_eq_fmin]
  by_cases hv : m.MetricValue ≤ kpi.TargetValue
  · rw [if_pos hv, if_pos hv, fmin_fin]; norm_num
  · rw [if_neg hv, if_neg hv]

/-- The higher-is-better branch of `calculateAchievement`, in the order of operations of
the code. -/
theorem calcRounded_ge_op (rnd : ℚ → F64) (kpi : KPI) (m : Measurement)
    (h : kpi.Operator = "≥" ∨ kpi.Operator = ">=") :
    calculateAchievementRounded rnd kpi (some m) =
      F64.fmin (F64.fin 100)
        (F64.mulR rnd (F64.divR rnd m.MetricValue kpi.TargetValue) (F64.fin 100)) := by
  have key : calculateAchievementRounded rnd kpi (some m) =
      if F64.fin 100 < F64.mulR rnd (F64.divR rnd m.MetricValue kpi.TargetValue) (F64.fin 100)
        then F64.fin 100
      else F64.mulR rnd (F64.divR rnd m.MetricValue kpi.TargetValue) (F64.fin 100) := by
    rcases h with h | h <;> simp only [calculateAchievementRounded, h]
  rw [key, clamp_eq_fmin]

/-- The default branch of `calculateAchievement`, in the order of operations of the
code. -/
theorem calcRounded_other_op (rnd : ℚ → F64) (kpi : KPI) (m : Measurement)
    (h1 : kpi.Operator ≠ "≤") (h2 : kpi.Operator ≠ "<=") (h3 : kpi.Operator ≠ "≥")
    (h4 : kpi.Operator ≠ ">=") (h5 : kpi.Operator ≠ "=") :
    calculateAchievementRounded rnd kpi (some m) =
      F64.fmin (F64.fin 100)
        (F64.mulR rnd (F64.divR rnd m.MetricValue kpi.TargetValue) (F64.fin 100)) := by
  have key : calculateAchievementRounded rnd kpi (some m) =
      if F64.fin 100 < F64.mulR rnd (F64.divR rnd m.MetricValue kpi.TargetValue) (F64.fin 100)
        then F64.fin 100
      else F64.mulR rnd (F64.divR rnd m.MetricValue kpi.TargetValue) (F64.fin 100) := by
    simp only [calculateAchievementRounded]
  rw [key, clamp_eq_fmin]

/-- The `=` branch of `calculateAchievement`, in the order of operations of the code. -/
theorem calcRounded_eq_op (rnd : ℚ → F64) (kpi : KPI) (m : Measurement)
    (h : kpi.Operator = "=") :
    calculateAchievementRounded rnd kpi (some m) =
      if kpi.TargetValue ≤ m.MetricValue then F64.fin 100
      else F64.fmin (F64.fin 100)
        (F64.mulR rnd (F64.divR rnd m.MetricValue kpi.TargetValue) (F64.fin 100)) := by
  have key : calculateAchievementRounded rnd kpi (some m) =
      if F64.fin 100 < (if kpi.TargetValue ≤ m.MetricValue then F64.fin 100
          else F64.mulR rnd (F64.divR rnd m.MetricValue kpi.TargetValue) (F64.fin 100))
        then F64.fin 100
      else (if kpi.TargetValue ≤ m.MetricValue then F64.fin 100
          else F64.mulR rnd (F64.divR rnd m.MetricValue kpi.TargetValue) (F64.fin 100)) := by
    simp only [calculateAchievementRounded, h]
  rw [key, clamp_eq_fmin]
  by_cases hv : kpi.TargetValue ≤ m.MetricValue
  · rw [if_pos hv, if_pos hv, fmin_fin]; norm_num
  · rw [if_neg hv, if_neg hv]


/-! ## Achievement by operator -/

/-- Counterexample to C2: operator "≤", target 1, measured value 3, all float64 numbers.
In float64 arithmetic the code returns `(1 / 3) * 100 = 33.33333333333333` (exactly
`2345624805922133 / 2^46`), which is neither the number `100 * 1 / 3` nor its float64
value `33.333333333333336` (`4691249611844267 / 2^47`). -/
theorem calculateAchievement_lessOrEqual_counterexample :
    F64.round64 1 = F64.fin 1 ∧ F64.round64 3 = F64.fin 3 ∧
    ¬ ((mkMeasurement 1 1 (F64.fin 3) (firstOfMonth 2025 2)).MetricValue ≤
      (mkKPI 1 "≤" (F64.fin 1) (F64.fin 70)).TargetValue) ∧
    calculateAchievementRounded F64.round64 (mkKPI 1 "≤" (F64.fin 1) (F64.fin 70))
        (some (mkMeasurement 1 1 (F64.fin 3) (firstOfMonth 2025 2))) =
      F64.fin (2345624805922133 / 70368744177664) ∧
    calculateAchievementRounded F64.round64 (mkKPI 1 "≤" (F64.fin 1) (F64.fin 70))
        (some (mkMeasurement 1 1 (F64.fin 3) (firstOfMonth 2025 2))) ≠
      F64.fin (100 * 1 / 3) ∧
    F64.divR F64.round64 (F64.mulR F64.round64 (F64.fin 100) (F64.fin 1)) (F64.fin 3) =
      F64.fin (4691249611844267 / 140737488355328) ∧
    calculateAchievementRounded F64.round64 (mkKPI 1 "≤" (F64.fin 1) (F64.fin 70))
        (some (mkMeasurement 1 1 (F64.fin 3) (firstOfMonth 2025 2))) ≠
      F64.divR F64.round64 (F64.mulR F64.round64 (F64.fin 100) (F64.fin 1)) (F64.fin 3) := by
  refine ⟨by decide!, by decide!, by decide!, by decide!, by decide!, by decide!, by decide!⟩

/-- Claim C2 (amended): for a KPI whose operator is "≤" or "<=" and a present measurement
with value `v` and target `t`, `calculateAchievement` returns 100 when `v <= t` and
otherwise the product `(t / v) * 100`, quotient first and each operation rounded, capped
at 100, whatever the rounding; in exact arithmetic this is `100 * t / v` capped at 100,
for finite `v ≠ 0` and `t` the rational number `min 100 (100 * t / v)`. -/
theorem calculateAchievement_lessOrEqual (rnd : ℚ → F64) (kpi : KPI) (m : Measurement)
    (hop : kpi.Operator = "≤" ∨ kpi.Operator = "<=") :
    (calculateAchievementRounded rnd kpi (some m) =
      if m.MetricValue ≤ kpi.TargetValue then F64.fin 100
      else F64.fmin (F64.fin 100)
        (F64.mulR rnd (F64.divR rnd kpi.TargetValue m.MetricValue) (F64.fin 100))) ∧
    (calculateAchievement kpi (some m) =
      if m.MetricValue ≤ kpi.TargetValue then F64.fin 100
      else F64.fmin (F64.fin 100) (F64.fin 100 * kpi.TargetValue / m.MetricValue)) ∧
    (∀ v t : ℚ, m.MetricValue = F64.fin v → kpi.TargetValue = F64.fin t → v ≠ 0 →
      calculateAchievement kpi (some m) =
        F64.fin (if v ≤ t then 100 else min 100 (100 * t / v))) := by
  refine ⟨calcRounded_le_op rnd kpi m hop, calc_le_op kpi m hop, ?_⟩
  intro v t hv ht hv0
  rw [calc_le_op kpi m hop, hv, ht, hundred_mul_div_fin t v hv0, fmin_fin]
  by_cases h : v ≤ t <;> simp [F64.ble, h]

/-- Witness of C2: target 3 days, measured 6 days gives 50 in float64 arithmetic. -/
theorem calculateAchievement_lessOrEqual_witness :
    ((mkKPI 1 "≤" (F64.fin 3) (F64.fin 70)).Operator = "≤" ∨
      (mkKPI 1 "≤" (F64.fin 3) (F64.fin 70)).Operator = "<=") ∧
    calculateAchievementRounded F64.round64 (mkKPI 1 "≤" (F64.fin 3) (F64.fin 70))
      (some (mkMeasurement 1 1 (F64.fin 6) (firstOfMonth 2025 2))) = F64.fin 50 :=
  ⟨Or.inl rfl,
    ((calculateAchievement_lessOrEqual F64.round64 (mkKPI 1 "≤" (F64.fin 3) (F64.fin 70))
      (mkMeasurement 1 1 (F64.fin 6) (firstOfMonth 2025 2)) (Or.inl rfl)).1).trans
      (by decide!)⟩

/-- Counterexample to C3: operator "≥", target 3, measured value 1, all float64 numbers.
In float64 arithmetic the code returns `(1 / 3) * 100 = 33.33333333333333` (exactly
`2345624805922133 / 2^46`), which is neither the number `min(100, 100 * 1 / 3)` nor the
float64 value `33.333333333333336` of `100 * 1 / 3`. -/
theorem calculateAchievement_greaterOrEqual_counterexample :
    F64.round64 1 = F64.fin 1 ∧ F64.round64 3 = F64.fin 3 ∧
    calculateAchievementRounded F64.round64 (mkKPI 1 "≥" (F64.fin 3) (F64.fin 70))
        (some (mkMeasurement 1 1 (F64.fin 1) (firstOfMonth 2025 2))) =
      F64.fin (2345624805922133 / 70368744177664) ∧
    calculateAchievementRounded F64.round64 (mkKPI 1 "≥" (F64.fin 3) (F64.fin 70))
        (some (mkMeasurement 1 1 (F64.fin 1) (firstOfMonth 2025 2))) ≠
      F64.fin (min 100 (100 * 1 / 3)) ∧
    calculateAchievementRounded F64.round64 (mkKPI 1 "≥" (F64.fin 3) (F64.fin 70))
        (some (mkMeasurement 1 1 (F64.fin 1) (firstOfMonth 2025 2))) ≠
      F64.fmin (F64.fin 100)
        (F64.divR F64.round64 (F64.mulR F64.round64 (F64.fin 100) (F64.fin 1)) (F64.fin 3)) := by
  refine ⟨by decide!, by decide!, by decide!, by decide!, by decide!⟩

/-- Claim C3 (amended): for a KPI whose operator is "≥" or ">=", and equally for a KPI
whose operator is none of "≤", "<=", "≥", ">=", "=", and a present measurement with value
`v` and non-zero target `t`, `calculateAchievement` returns the product `(v / t) * 100`,
quotient first and each operation rounded, capped at 100, whatever the rounding; in exact
arithmetic this is `min(100, 100 * v / t)`; an unknown operator gives the same result as
"≥" on the same value and target. -/
theorem calculateAchievement_greaterOrEqual_or_unknown (rnd : ℚ → F64) (kpi : KPI)
    (m : Measurement)
    (hop : (kpi.Operator = "≥" ∨ kpi.Operator = ">=") ∨
      (kpi.Operator ≠ "≤" ∧ kpi.Operator ≠ "<=" ∧ kpi.Operator ≠ "≥" ∧
        kpi.Operator ≠ ">=" ∧ kpi.Operator ≠ "="))
    (ht : kpi.TargetValue ≠ F64.fin 0) :
    (calculateAchievementRounded rnd kpi (some m) =
      F64.fmin (F64.fin 100)
        (F64.mulR rnd (F64.divR rnd m.MetricValue kpi.TargetValue) (F64.fin 100))) ∧
    (calculateAchievement kpi (some m) =
      F64.fmin (F64.fin 100) (F64.fin 100 * m.MetricValue / kpi.TargetValue)) ∧
    (∀ v t : ℚ, m.MetricValue = F64.fin v → kpi.TargetValue = F64.fin t →
      calculateAchievement kpi (some m) = F64.fin (min 100 (100 * v / t))) ∧
    (∀ kpi2 : KPI, (kpi2.Operator = "≥" ∨ kpi2.Operator = ">=") →
      kpi2.TargetValue = kpi.TargetValue →
      calculateAchievementRounded rnd kpi2 (some m) =
          calculateAchievementRounded rnd kpi (some m) ∧
        calculateAchievement kpi2 (some m) = calculateAchievement kpi (some m)) := by
  have mainR : calculateAchievementRounded rnd kpi (some m) =
      F64.fmin (F64.fin 100)
        (F64.mulR rnd (F64.divR rnd m.MetricValue kpi.TargetValue) (F64.fin 100)) := by
    rcases hop with h | ⟨h1, h2, h3, h4, h5⟩
    · exact calcRounded_ge_op rnd kpi m h
    · exact calcRounded_other_op rnd kpi m h1 h2 h3 h4 h5
  have main : calculateAchievement kpi (some m) =
      F64.fmin (F64.fin 100) (F64.fin 100 * m.MetricValue / kpi.TargetValue) := by
    rcases hop with h | ⟨h1, h2, h3, h4, h5⟩
    · exact calc_ge_op kpi m h
    · exact calc_other_op kpi m h1 h2 h3 h4 h5
  refine ⟨mainR, main, ?_, ?_⟩
  · intro v t hv htv
    have ht0 : t ≠ 0 := by
      intro h0
      apply ht
      rw [htv, h0]
    rw [main, hv, htv, hundred_mul_div_fin v t ht0, fmin_fin]
  · intro kpi2 hop2 htt
    constructor
    · rw [mainR, calcRounded_ge_op rnd kpi2 m hop2, htt]
    · rw [main, calc_ge_op kpi2 m hop2, htt]

/-- Witness of C3: an empty operator, target 10, measured 5 gives 50 in float64
arithmetic. -/
theorem calculateAchievement_greaterOrEqual_or_unknown_witness :
    (((mkKPI 1 "" (F64.fin 10) (F64.fin 70)).Operator = "≥" ∨
        (mkKPI 1 "" (F64.fin 10) (F64.fin 70)).Operator = ">=") ∨
      ((mkKPI 1 "" (F64.fin 10) (F64.fin 70)).Operator ≠ "≤" ∧
        (mkKPI 1 "" (F64.fin 10) (F64.fin 70)).Operator ≠ "<=" ∧
        (mkKPI 1 "" (F64.fin 10) (F64.fin 70)).Operator ≠ "≥" ∧
        (mkKPI 1 "" (F64.fin 10) (F64.fin 70)).Operator ≠ ">=" ∧
        (mkKPI 1 "" (F64.fin 10) (F64.fin 70)).Operator ≠ "=")) ∧
    (mkKPI 1 "" (F64.fin 10) (F64.fin 70)).TargetValue ≠ F64.fin 0 ∧
    calculateAchievementRounded F64.round64 (mkKPI 1 "" (F64.fin 10) (F64.fin 70))
      (some (mkMeasurement 1 1 (F64.fin 5) (firstOfMonth 2025 2))) = F64.fin 50 :=
  ⟨Or.inr (by simp [mkKPI]), by simp [mkKPI],
    ((calculateAchievement_greaterOrEqual_or_unknown F64.round64
      (mkKPI 1 "" (F64.fin 10) (F64.fin 70))
      (mkMeasurement 1 1 (F64.fin 5) (firstOfMonth 2025 2)) (Or.inr (by simp [mkKPI]))
      (by simp [mkKPI])).1).trans (by decide!)⟩

/-- Counterexample to C4: operator "=", target 3, measured value 1, all float64 numbers.
In float64 arithmetic the code returns `(1 / 3) * 100 = 33.33333333333333` (exactly
`2345624805922133 / 2^46`), which is neither the number `100 * 1 / 3` nor its float64
value `33.333333333333336`. -/
theorem calculateAchievement_equal_counterexample :
    F64.round64 1 = F64.fin 1 ∧ F64.round64 3 = F64.fin 3 ∧
    ¬ ((mkKPI 1 "=" (F64.fin 3) (F64.fin 70)).TargetValue ≤
      (mkMeasurement 1 1 (F64.fin 1) (firstOfMonth 2025 2)).MetricValue) ∧
    calculateAchievementRounded F64.round64 (mkKPI 1 "=" (F64.fin 3) (F64.fin 70))
        (some (mkMeasurement 1 1 (F64.fin 1) (firstOfMonth 2025 2))) =
      F64.fin (2345624805922133 / 70368744177664) ∧
    calculateAchievementRounded F64.round64 (mkKPI 1 "=" (F64.fin 3) (F64.fin 70))
        (some (mkMeasurement 1 1 (F64.fin 1) (firstOfMonth 2025 2))) ≠
      F64.fin (100 * 1 / 3) ∧
    calculateAchievementRounded F64.round64 (mkKPI 1 "=" (F64.fin 3) (F64.fin 70))
        (some (mkMeasurement 1 1 (F64.fin 1) (firstOfMonth 2025 2))) ≠
      F64.divR F64.round64 (F64.mulR F64.round64 (F64.fin 100) (F64.fin 1)) (F64.fin 3) := by
  refine ⟨by decide!, by decide!, by decide!, by decide!, by decide!, by decide!⟩

/-- Claim C4 (amended): for a KPI whose operator is "=" and a present measurement with
value `v` and target `t`, `calculateAchievement` returns 100 when `v >= t` and otherwise
the product `(v / t) * 100`, quotient first and each operation rounded, capped at 100,
whatever the rounding; in exact arithmetic this is `100 * v / t` capped at 100, for
finite `v` and `t ≠ 0` the rational number `min 100 (100 * v / t)`. -/
theorem calculateAchievement_equal (rnd : ℚ → F64) (kpi : KPI) (m : Measurement)
    (hop : kpi.Operator = "=") :
    (calculateAchievementRounded rnd kpi (some m) =
      if kpi.TargetValue ≤ m.MetricValue then F64.fin 100
      else F64.fmin (F64.fin 100)
        (F64.mulR rnd (F64.divR rnd m.MetricValue kpi.TargetValue) (F64.fin 100))) ∧
    (calculateAchievement kpi (some m) =
      if kpi.TargetValue ≤ m.MetricValue then F64.fin 100
      else F64.fmin (F64.fin 100) (F64.fin 100 * m.MetricValue / kpi.TargetValue)) ∧
    (∀ v t : ℚ, m.MetricValue = F64.fin v → kpi.TargetValue = F64.fin t → t ≠ 0 →
      calculateAchievement kpi (some m) =
        F64.fin (if t ≤ v then 100 else min 100 (100 * v / t))) := by
  refine ⟨calcRounded_eq_op rnd kpi m hop, calc_eq_op kpi m hop, ?_⟩
  intro v t hv ht ht0
  rw [calc_eq_op kpi m hop, hv, ht, hundred_mul_div_fin v t ht0, fmin_fin]
  by_cases h : t ≤ v <;> simp [F64.ble, h]

/-- Witness of C4: target 100, measured 80 gives 80 in float64 arithmetic. -/
theorem calculateAchievement_equal_witness :
    (mkKPI 1 "=" (F64.fin 100) (F64.fin 70)).Operator = "=" ∧
    calculateAchievementRounded F64.round64 (mkKPI 1 "=" (F64.fin 100) (F64.fin 70))
      (some (mkMeasurement 1 1 (F64.fin 80) (firstOfMonth 2025 2))) = F64.fin 80 :=
  ⟨rfl,
    ((calculateAchievement_equal F64.round64 (mkKPI 1 "=" (F64.fin 100) (F64.fin 70))
      (mkMeasurement 1 1 (F64.fin 80) (firstOfMonth 2025 2)) rfl).1).trans (by decide!)⟩

/-- Claim C5: for every KPI, `calculateAchievement` applied to an absent (nil)
measurement returns 0. -/
theorem calculateAchievement_absent (kpi : KPI) :
    calculateAchievement kpi none = F64.fin 0 := rfl

/-! ## The clamp at 100 -/

/-- The minimum with 100 is at most 100 unless it is `NaN`. -/
theorem fmin_hundred_le (x : F64) (hx : x ≠ F64.nan) :
    F64.fmin (F64.fin 100) x ≤ F64.fin 100 := by
  cases x with
  | fin q => rw [fmin_fin]; simp [F64.ble]
  | pinf => simp [F64.fmin, F64.ble]
  | ninf => simp [F64.fmin, F64.ble]
  | nan => exact absurd rfl hx

/-- The minimum with 100 is never above 100. -/
theorem fmin_hundred_not_gt (x : F64) : ¬ (F64.fin 100 < F64.fmin (F64.fin 100) x) := by
  cases x with
  | fin q => rw [fmin_fin]; simp [F64.blt]
  | pinf => simp [F64.fmin, F64.ble, F64.blt]
  | ninf => simp [F64.fmin, F64.ble, F64.blt]
  | nan => simp [F64.fmin, F64.blt]

/-- The quotient `100 * a / b` of finite values is `NaN` only for `0 / 0`. -/
theorem hundred_mul_div_ne_nan (a b : ℚ) (h : a ≠ 0 ∨ b ≠ 0) :
    (F64.fin 100 * F64.fin a) / F64.fin b ≠ F64.nan := by
  by_cases hb : b = 0
  · have ha : a ≠ 0 := by
      rcases h with h | h
      · exact h
      · exact absurd hb h
    rcases lt_or_gt_of_ne ha with hlt | hgt
    · have h1 : ¬ (0 < a) := not_lt.mpr hlt.le
      simp [F64.mul, F64.div, F64.infOfSign, hb, h1, hlt]
    · simp [F64.mul, F64.div, F64.infOfSign, hb, hgt]
  · simp [F64.mul, F64.div, hb]

/-- Every present measurement falls in one of the three branch shapes. -/
theorem calc_shapes (kpi : KPI) (m : Measurement) :
    (calculateAchievement kpi (some m) =
      if m.MetricValue ≤ kpi.TargetValue then F64.fin 100
      else F64.fmin (F64.fin 100) (F64.fin 100 * kpi.TargetValue / m.MetricValue)) ∨
    (calculateAchievement kpi (some m) =
      F64.fmin (F64.fin 100) (F64.fin 100 * m.MetricValue / kpi.TargetValue)) ∨
    (calculateAchievement kpi (some m) =
      if kpi.TargetValue ≤ m.MetricValue then F64.fin 100
      else F64.fmin (F64.fin 100) (F64.fin 100 * m.MetricValue / kpi.TargetValue)) := by
  by_cases h1 : kpi.Operator = "≤"
  · exact Or.inl (calc_le_op kpi m (Or.inl h1))
  by_cases h2 : kpi.Operator = "<="
  · exact Or.inl (calc_le_op kpi m (Or.inr h2))
  by_cases h3 : kpi.Operator = "≥"
  · exact Or.inr (Or.inl (calc_ge_op kpi m (Or.inl h3)))
  by_cases h4 : kpi.Operator = ">="
  · exact Or.inr (Or.inl (calc_ge_op kpi m (Or.inr h4)))
  by_cases h5 : kpi.Operator = "="
  · exact Or.inr (Or.inr (calc_eq_op kpi m h5))
  · exact Or.inr (Or.inl (calc_other_op kpi m h1 h2 h3 h4 h5))

/-- The result for a present measurement is never above 100. -/
theorem calc_some_not_gt (kpi : KPI) (m : Measurement) :
    ¬ (F64.fin 100 < calculateAchievement kpi (some m)) := by
  rcases calc_shapes kpi m with h | h | h <;> rw [h]
  · split
    · simp [F64.blt]
    · exact fmin_hundred_not_gt _
  · exact fmin_hundred_not_gt _
  · split
    · simp [F64.blt]
    · exact fmin_hundred_not_gt _

/-- The result for a present measurement is at most 100 unless it is `NaN`. -/
theorem calc_some_le_or_nan (kpi : KPI) (m : Measurement) :
    calculateAchievement kpi (some m) = F64.nan ∨
      calculateAchievement kpi (some m) ≤ F64.fin 100 := by
  by_cases hn : calculateAchievement kpi (some m) = F64.nan
  · exact Or.inl hn
  · right
    have hgt := calc_some_not_gt kpi m
    revert hn hgt
    generalize calculateAchievement kpi (some m) = r
    intro hn hgt
    cases r with
    | fin q => simp [F64.blt, F64.ble] at hgt ⊢; exact hgt
    | pinf => simp [F64.blt] at hgt
    | ninf => simp [F64.ble]
    | nan => exact absurd rfl hn

/-- With finite value and non-zero finite target the result is at most 100. -/
theorem calc_some_le_of_fin (kpi : KPI) (m : Measurement) (v t : ℚ)
    (hv : m.MetricValue = F64.fin v) (ht : kpi.TargetValue = F64.fin t) (ht0 : t ≠ 0) :
    calculateAchievement kpi (some m) ≤ F64.fin 100 := by
  rcases calc_shapes kpi m with h | h | h <;> rw [h, hv, ht]
  · split
    · simp [F64.ble]
    · exact fmin_hundred_le _ (hundred_mul_div_ne_nan t v (Or.inl ht0))
  · exact fmin_hundred_le _ (hundred_mul_div_ne_nan v t (Or.inr ht0))
  · split
    · simp [F64.ble]
    · exact fmin_hundred_le _ (hundred_mul_div_ne_nan v t (Or.inr ht0))

/-- Counterexample to C6: operator "≥", target 0 and measured value 0 give `0 / 0`,
which is `NaN` and is not at most 100. -/
theorem calculateAchievement_le_hundred_counterexample :
    calculateAchievement (mkKPI 1 "≥" (F64.fin 0) (F64.fin 70))
      (some (mkMeasurement 1 1 (F64.fin 0) (firstOfMonth 2025 2))) = F64.nan ∧
    ¬ (calculateAchievement (mkKPI 1 "≥" (F64.fin 0) (F64.fin 70))
      (some (mkMeasurement 1 1 (F64.fin 0) (firstOfMonth 2025 2))) ≤ F64.fin 100) := by
  have h : calculateAchievement (mkKPI 1 "≥" (F64.fin 0) (F64.fin 70))
      (some (mkMeasurement 1 1 (F64.fin 0) (firstOfMonth 2025 2))) = F64.nan := by
    simp [calculateAchievement, mkKPI, mkMeasurement, F64.div, F64.mul, F64.blt,
      F64.infOfSign]
  refine ⟨h, ?_⟩
  rw [h]
  simp [F64.ble]

/-- Claim C6 (amended): for every KPI and every measurement, present or absent, the
value returned by `calculateAchievement` is never greater than 100, and it is at most
100 unless it is `NaN`; it is at most 100 when the measurement is absent and when the
measured value and the target are finite with a non-zero target. -/
theorem calculateAchievement_never_above_hundred (kpi : KPI) (m : Option Measurement) :
    ¬ (F64.fin 100 < calculateAchievement kpi m) ∧
    (calculateAchievement kpi m = F64.nan ∨ calculateAchievement kpi m ≤ F64.fin 100) ∧
    (m = none → calculateAchievement kpi m ≤ F64.fin 100) ∧
    (∀ (mm : Measurement) (v t : ℚ), m = some mm → mm.MetricValue = F64.fin v →
      kpi.TargetValue = F64.fin t → t ≠ 0 → calculateAchievement kpi m ≤ F64.fin 100) := by
  have hnone : calculateAchievement kpi none ≤ F64.fin 100 := by
    simp [calculateAchievement, F64.ble]
  refine ⟨?_, ?_, ?_, ?_⟩
  · cases m with
    | none => simp [calculateAchievement, F64.blt]
    | some mm => exact calc_some_not_gt kpi mm
  · cases m with
    | none => exact Or.inr hnone
    | some mm => exact calc_some_le_or_nan kpi mm
  · intro h
    rw [h]
    exact hnone
  · intro mm v t hm hv ht ht0
    rw [hm]
    exact calc_some_le_of_fin kpi mm v t hv ht ht0

/-- Witness of C6 (amended): target 10, measured 25 with operator "≥" is clamped. -/
theorem calculateAchievement_never_above_hundred_witness :
    calculateAchievement (mkKPI 1 "≥" (F64.fin 10) (F64.fin 70))
      (some (mkMeasurement 1 1 (F64.fin 25) (firstOfMonth 2025 2))) ≤ F64.fin 100 :=
  (calculateAchievement_never_above_hundred (mkKPI 1 "≥" (F64.fin 10) (F64.fin 70))
    (some (mkMeasurement 1 1 (F64.fin 25) (firstOfMonth 2025 2)))).2.2.2
    (mkMeasurement 1 1 (F64.fin 25) (firstOfMonth 2025 2)) 25 10 rfl rfl rfl (by norm_num)

/-! ## Range of the achievement and zero targets -/

/-- Counterexample to C7: operator "≥", target 1 and measured value -1 give -100,
which is below 0. -/
theorem calculateAchievement_range_counterexample :
    calculateAchievement (mkKPI 1 "≥" (F64.fin 1) (F64.fin 70))
      (some (mkMeasurement 1 1 (F64.fin (-1)) (firstOfMonth 2025 2))) = F64.fin (-100) ∧
    ¬ (F64.fin 0 ≤ calculateAchievement (mkKPI 1 "≥" (F64.fin 1) (F64.fin 70))
        (some (mkMeasurement 1 1 (F64.fin (-1)) (firstOfMonth 2025 2))) ∧
      calculateAchievement (mkKPI 1 "≥" (F64.fin 1) (F64.fin 70))
        (some (mkMeasurement 1 1 (F64.fin (-1)) (firstOfMonth 2025 2))) ≤ F64.fin 100) := by
  have h : calculateAchievement (mkKPI 1 "≥" (F64.fin 1) (F64.fin 70))
      (some (mkMeasurement 1 1 (F64.fin (-1)) (firstOfMonth 2025 2))) = F64.fin (-100) := by
    simp [calculateAchievement, mkKPI, mkMeasurement, F64.div, F64.mul, F64.blt]
  refine ⟨h, ?_⟩
  rw [h]
  simp [F64.ble]

/-- Claim C7 (amended): `calculateAchievement` returns a value in the closed interval
[0, 100] when the measurement is absent, and when it is present with a finite measured
value `v >= 0` and a finite target `t > 0`. -/
theorem calculateAchievement_range (kpi : KPI) :
    (F64.fin 0 ≤ calculateAchievement kpi none ∧
      calculateAchievement kpi none ≤ F64.fin 100) ∧
    (∀ (m : Measurement) (v t : ℚ), m.MetricValue = F64.fin v →
      kpi.TargetValue = F64.fin t → 0 ≤ v → 0 < t →
      F64.fin 0 ≤ calculateAchievement kpi (some m) ∧
        calculateAchievement kpi (some m) ≤ F64.fin 100) := by
  refine ⟨by simp [calculateAchievement, F64.ble], ?_⟩
  intro m v t hv ht hv0 ht0
  have hq : (0 : ℚ) ≤ 100 * v / t := div_nonneg (mul_nonneg (by norm_num) hv0) ht0.le
  have hB : F64.fin 0 ≤ F64.fmin (F64.fin 100) (F64.fin 100 * F64.fin v / F64.fin t) ∧
      F64.fmin (F64.fin 100) (F64.fin 100 * F64.fin v / F64.fin t) ≤ F64.fin 100 := by
    rw [hundred_mul_div_fin v t ht0.ne', fmin_fin]
    simp [F64.ble, hq]
  rcases calc_shapes kpi m with h | h | h <;> rw [h, hv, ht]
  · split
    · simp [F64.ble]
    · rename_i hle
      have hvt : t < v := by
        simpa [F64.ble] using hle
      have hvpos : 0 < v := lt_trans ht0 hvt
      rw [hundred_mul_div_fin t v hvpos.ne', fmin_fin]
      have : (0 : ℚ) ≤ 100 * t / v :=
        div_nonneg (mul_nonneg (by norm_num) ht0.le) hvpos.le
      simp [F64.ble, this]
  · exact hB
  · split
    · simp [F64.ble]
    · exact hB

/-- Witness of C7 (amended): target 10, measured 5 with operator "≥" gives a value in
[0, 100]. -/
theorem calculateAchievement_range_witness :
    F64.fin 0 ≤ calculateAchievement (mkKPI 1 "≥" (F64.fin 10) (F64.fin 70))
      (some (mkMeasurement 1 1 (F64.fin 5) (firstOfMonth 2025 2))) ∧
    calculateAchievement (mkKPI 1 "≥" (F64.fin 10) (F64.fin 70))
      (some (mkMeasurement 1 1 (F64.fin 5) (firstOfMonth 2025 2))) ≤ F64.fin 100 :=
  (calculateAchievement_range (mkKPI 1 "≥" (F64.fin 10) (F64.fin 70))).2
    (mkMeasurement 1 1 (F64.fin 5) (firstOfMonth 2025 2)) 5 10 rfl rfl (by norm_num)
    (by norm_num)

/-- Counterexample to C8: operator "<=", target 0 and measured value 0 give 100,
not 0. -/
theorem calculateAchievement_zero_target_counterexample :
    (mkKPI 1 "<=" (F64.fin 0) (F64.fin 70)).TargetValue = F64.fin 0 ∧
    calculateAchievement (mkKPI 1 "<=" (F64.fin 0) (F64.fin 70))
      (some (mkMeasurement 1 1 (F64.fin 0) (firstOfMonth 2025 2))) = F64.fin 100 ∧
    calculateAchievement (mkKPI 1 "<=" (F64.fin 0) (F64.fin 70))
      (some (mkMeasurement 1 1 (F64.fin 0) (firstOfMonth 2025 2))) ≠ F64.fin 0 := by
  have h : calculateAchievement (mkKPI 1 "<=" (F64.fin 0) (F64.fin 70))
      (some (mkMeasurement 1 1 (F64.fin 0) (firstOfMonth 2025 2))) = F64.fin 100 := by
    simp [calculateAchievement, mkKPI, mkMeasurement, F64.ble, F64.blt]
  refine ⟨rfl, h, ?_⟩
  rw [h]
  simp

/-- Claim C8 (amended): for a KPI whose TargetValue is 0 and a present measurement with
finite value `v`, `calculateAchievement` returns a value without faulting, but not
always 0: with operator "≤" or "<=" it returns 100 when `v <= 0` and 0 when `v > 0`;
with operator "=" it returns 100 when `v >= 0` and `-Inf` when `v < 0`; with operator
"≥", ">=" or an unknown operator it divides by zero and returns 100 when `v > 0`, `NaN`
when `v = 0` and `-Inf` when `v < 0`. -/
theorem calculateAchievement_zero_target (kpi : KPI) (m : Measurement) (v : ℚ)
    (ht : kpi.TargetValue = F64.fin 0) (hv : m.MetricValue = F64.fin v) :
    ((kpi.Operator = "≤" ∨ kpi.Operator = "<=") →
      calculateAchievement kpi (some m) = if v ≤ 0 then F64.fin 100 else F64.fin 0) ∧
    (kpi.Operator = "=" →
      calculateAchievement kpi (some m) = if 0 ≤ v then F64.fin 100 else F64.ninf) ∧
    (((kpi.Operator = "≥" ∨ kpi.Operator = ">=") ∨
        (kpi.Operator ≠ "≤" ∧ kpi.Operator ≠ "<=" ∧ kpi.Operator ≠ "≥" ∧
          kpi.Operator ≠ ">=" ∧ kpi.Operator ≠ "=")) →
      calculateAchievement kpi (some m) =
        if 0 < v then F64.fin 100 else if v = 0 then F64.nan else F64.ninf) := by
  have hB : F64.fmin (F64.fin 100) (F64.fin 100 * F64.fin v / F64.fin 0) =
      if 0 < v then F64.fin 100 else if v = 0 then F64.nan else F64.ninf := by
    rcases lt_trichotomy v 0 with h | h | h
    · have h1 : ¬ (0 < v) := not_lt.mpr h.le
      have h2 : ¬ (0 ≤ v) := not_le.mpr h
      have h3 : 100 * v < 0 := by linarith
      simp [F64.mul, F64.div, F64.infOfSign, F64.fmin, F64.ble, h, h1, h2, h3, h.ne]
    · simp [F64.mul, F64.div, F64.infOfSign, F64.fmin, h]
    · simp [F64.mul, F64.div, F64.infOfSign, F64.fmin, F64.ble, h]
  refine ⟨?_, ?_, ?_⟩
  · intro hop
    rw [calc_le_op kpi m hop, hv, ht]
    by_cases h : v ≤ 0
    · simp [F64.ble, h]
    · have hv0 : v ≠ 0 := fun h0 => h (le_of_eq h0)
      rw [hundred_mul_div_fin 0 v hv0, fmin_fin]
      simp [F64.ble, h]
  · intro hop
    rw [calc_eq_op kpi m hop, hv, ht, hB]
    by_cases h : 0 ≤ v
    · simp [F64.ble, h]
    · have h1 : ¬ (0 < v) := fun h2 => h h2.le
      have h2 : v ≠ 0 := fun h0 => h (le_of_eq h0.symm)
      simp [F64.ble, h, h1, h2]
  · intro hop
    rcases hop with hop | ⟨h1, h2, h3, h4, h5⟩
    · rw [calc_ge_op kpi m hop, hv, ht, hB]
    · rw [calc_other_op kpi m h1 h2 h3 h4 h5, hv, ht, hB]

/-- Witness of C8 (amended): operator "≥", target 0 and measured value 5 give 100. -/
theorem calculateAchievement_zero_target_witness :
    (mkKPI 1 "≥" (F64.fin 0) (F64.fin 70)).TargetValue = F64.fin 0 ∧
    (mkMeasurement 1 1 (F64.fin 5) (firstOfMonth 2025 2)).MetricValue = F64.fin 5 ∧
    calculateAchievement (mkKPI 1 "≥" (F64.fin 0) (F64.fin 70))
      (some (mkMeasurement 1 1 (F64.fin 5) (firstOfMonth 2025 2))) = F64.fin 100 :=
  ⟨rfl, rfl, by
    rw [(calculateAchievement_zero_target (mkKPI 1 "≥" (F64.fin 0) (F64.fin 70))
      (mkMeasurement 1 1 (F64.fin 5) (firstOfMonth 2025 2)) 5 rfl rfl).2.2
      (Or.inl (Or.inl rfl))]
    norm_num⟩

/-! ## Higher-is-better: monotonicity -/

/-- The higher-is-better formula against a positive finite target, by kind of value. -/
theorem ge_formula_pos (t : ℚ) (hpos : 0 < t) (x : F64) :
    F64.fmin (F64.fin 100) (F64.fin 100 * x / F64.fin t) =
      match x with
      | F64.fin a => F64.fin (min 100 (100 * a / t))
      | F64.pinf => F64.fin 100
      | F64.ninf => F64.ninf
      | F64.nan => F64.nan := by
  cases x with
  | fin a => rw [hundred_mul_div_fin a t hpos.ne', fmin_fin]
  | pinf => simp [F64.mul, F64.div, F64.infOfSign, F64.fmin, F64.ble, hpos.le]
  | ninf =>
    simp [F64.mul, F64.div, F64.infOfSign, F64.fmin, F64.ble, hpos.le,
      show ¬ ((100 : ℚ) < 0) by norm_num]
  | nan => simp [F64.mul, F64.div, F64.fmin]

/-- Claim C9: for a KPI with operator "≥" or ">=" and a finite target `t > 0`,
`calculateAchievement` is monotonically non-decreasing in the measured value, equals
100 at `v = t`, and equals 100 for every `v > t`. -/
theorem calculateAchievement_greaterOrEqual_monotone (kpi : KPI) (t : ℚ)
    (hop : kpi.Operator = "≥" ∨ kpi.Operator = ">=")
    (ht : kpi.TargetValue = F64.fin t) (hpos : 0 < t) :
    (∀ m1 m2 : Measurement, m1.MetricValue ≤ m2.MetricValue →
      calculateAchievement kpi (some m1) ≤ calculateAchievement kpi (some m2)) ∧
    (∀ m : Measurement, m.MetricValue = F64.fin t →
      calculateAchievement kpi (some m) = F64.fin 100) ∧
    (∀ m : Measurement, F64.fin t < m.MetricValue →
      calculateAchievement kpi (some m) = F64.fin 100) := by
  have hval : ∀ m : Measurement, calculateAchievement kpi (some m) =
      match m.MetricValue with
      | F64.fin a => F64.fin (min 100 (100 * a / t))
      | F64.pinf => F64.fin 100
      | F64.ninf => F64.ninf
      | F64.nan => F64.nan := by
    intro m
    rw [calc_ge_op kpi m hop, ht, ge_formula_pos t hpos]
  refine ⟨?_, ?_, ?_⟩
  · intro m1 m2 hle
    rw [hval m1, hval m2]
    revert hle
    generalize m1.MetricValue = x
    generalize m2.MetricValue = y
    intro hle
    cases x <;> cases y <;> simp [F64.ble] at hle ⊢
    · right
      exact div_le_div_of_nonneg_right (by linarith) hpos.le
  · intro m hm
    rw [hval m, hm]
    have : 100 * t / t = 100 := by field_simp
    simp [this]
  · intro m hm
    rw [hval m]
    revert hm
    generalize m.MetricValue = x
    intro hm
    cases x <;> simp [F64.blt] at hm ⊢
    rename_i a
    rw [le_div_iff₀ hpos]
    linarith

/-- Witness of C9: with target 10, the values 5 and 8 are scored in order. -/
theorem calculateAchievement_greaterOrEqual_monotone_witness :
    ((mkKPI 1 "≥" (F64.fin 10) (F64.fin 70)).Operator = "≥" ∨
      (mkKPI 1 "≥" (F64.fin 10) (F64.fin 70)).Operator = ">=") ∧
    (mkKPI 1 "≥" (F64.fin 10) (F64.fin 70)).TargetValue = F64.fin 10 ∧
    (0 : ℚ) < 10 ∧
    calculateAchievement (mkKPI 1 "≥" (F64.fin 10) (F64.fin 70))
        (some (mkMeasurement 1 1 (F64.fin 5) (firstOfMonth 2025 2))) ≤
      calculateAchievement (mkKPI 1 "≥" (F64.fin 10) (F64.fin 70))
        (some (mkMeasurement 2 1 (F64.fin 8) (firstOfMonth 2025 2))) :=
  ⟨Or.inl rfl, rfl, by norm_num,
    (calculateAchievement_greaterOrEqual_monotone (mkKPI 1 "≥" (F64.fin 10) (F64.fin 70)) 10
      (Or.inl rfl) rfl (by norm_num)).1
      (mkMeasurement 1 1 (F64.fin 5) (firstOfMonth 2025 2))
      (mkMeasurement 2 1 (F64.fin 8) (firstOfMonth 2025 2))
      (by simp [mkMeasurement, F64.ble]; norm_num)⟩

/-! ## Lower-is-better: profile -/

/-- Claim C10: for a KPI with operator "≤" or "<=" and a finite target `t`,
`calculateAchievement` at `v = t` is 100; for `t > 0` it is exactly 50 at `v = 2t`; and
for `t > 0` it tends to 0 as `v` grows without bound: for every `eps > 0` there is a `V`
such that every `v > V` gives an achievement in `[0, eps)`. -/
theorem calculateAchievement_lessOrEqual_profile (kpi : KPI) (t : ℚ)
    (hop : kpi.Operator = "≤" ∨ kpi.Operator = "<=")
    (ht : kpi.TargetValue = F64.fin t) :
    (∀ m : Measurement, m.MetricValue = F64.fin t →
      calculateAchievement kpi (some m) = F64.fin 100) ∧
    (0 < t → ∀ m : Measurement, m.MetricValue = F64.fin (2 * t) →
      calculateAchievement kpi (some m) = F64.fin 50) ∧
    (0 < t → ∀ eps : ℚ, 0 < eps → ∃ V : ℚ, ∀ m : Measurement, F64.fin V < m.MetricValue →
      F64.fin 0 ≤ calculateAchievement kpi (some m) ∧
        calculateAchievement kpi (some m) < F64.fin eps) := by
  refine ⟨?_, ?_, ?_⟩
  · intro m hm
    rw [calc_le_op kpi m hop, hm, ht]
    simp [F64.ble]
  · intro hpos m hm
    rw [calc_le_op kpi m hop, hm, ht]
    have h2 : ¬ (2 * t ≤ t) := by linarith
    have h0 : 2 * t ≠ 0 := by linarith
    rw [hundred_mul_div_fin t (2 * t) h0, fmin_fin]
    have h50 : 100 * t / (2 * t) = 50 := by
      field_simp
      ring
    simp [F64.ble, h2, h50]
    norm_num
  · intro hpos eps heps
    refine ⟨max t (100 * t / eps), ?_⟩
    intro m hm
    rw [calc_le_op kpi m hop, ht]
    revert hm
    generalize m.MetricValue = x
    intro hm
    cases x with
    | fin a =>
      have ha : max t (100 * t / eps) < a := by simpa [F64.blt] using hm
      have hta : t < a := lt_of_le_of_lt (le_max_left _ _) ha
      have hea : 100 * t / eps < a := lt_of_le_of_lt (le_max_right _ _) ha
      have hapos : 0 < a := lt_trans hpos hta
      have hnle : ¬ (a ≤ t) := not_le.mpr hta
      have hq0 : 0 ≤ 100 * t / a := div_nonneg (mul_nonneg (by norm_num) hpos.le) hapos.le
      have hqe : 100 * t / a < eps := by
        rw [div_lt_iff₀ hapos]
        rw [div_lt_iff₀ heps] at hea
        linarith
      rw [hundred_mul_div_fin t a hapos.ne', fmin_fin]
      simp [F64.ble, F64.blt, hnle, hq0]
      right
      exact hqe
    | pinf =>
      simp [F64.ble, F64.blt, F64.mul, F64.div, F64.fmin, heps,
        show ¬ ((100 : ℚ) ≤ 0) by norm_num]
    | ninf => simp [F64.blt] at hm
    | nan => simp [F64.blt] at hm

/-- Witness of C10: target 3, measured 3 gives 100. -/
theorem calculateAchievement_lessOrEqual_profile_witness :
    ((mkKPI 1 "≤" (F64.fin 3) (F64.fin 70)).Operator = "≤" ∨
      (mkKPI 1 "≤" (F64.fin 3) (F64.fin 70)).Operator = "<=") ∧
    (mkKPI 1 "≤" (F64.fin 3) (F64.fin 70)).TargetValue = F64.fin 3 ∧
    calculateAchievement (mkKPI 1 "≤" (F64.fin 3) (F64.fin 70))
      (some (mkMeasurement 1 1 (F64.fin 3) (firstOfMonth 2025 2))) = F64.fin 100 ∧
    calculateAchievement (mkKPI 1 "≤" (F64.fin 3) (F64.fin 70))
      (some (mkMeasurement 1 1 (F64.fin (2 * 3)) (firstOfMonth 2025 2))) = F64.fin 50 :=
  ⟨Or.inl rfl, rfl,
    (calculateAchievement_lessOrEqual_profile (mkKPI 1 "≤" (F64.fin 3) (F64.fin 70)) 3
      (Or.inl rfl) rfl).1 (mkMeasurement 1 1 (F64.fin 3) (firstOfMonth 2025 2)) rfl,
    (calculateAchievement_lessOrEqual_profile (mkKPI 1 "≤" (F64.fin 3) (F64.fin 70)) 3
      (Or.inl rfl) rfl).2.1 (by norm_num)
      (mkMeasurement 1 1 (F64.fin (2 * 3)) (firstOfMonth 2025 2)) rfl⟩

/-! ## Overall score -/

/-- The loop of `calculateOverallScore` accumulates the weighted scores and the
weights of the measured KPIs, in list order. -/
theorem foldl_scoreStep (measurements : List Measurement) (period : Time) (kpis : List KPI)
    (acc : F64 × F64) :
    kpis.foldl (scoreStep measurements period) acc =
      (((measuredKPIs measurements kpis period).map
          (weightedScore measurements period)).foldl (· + ·) acc.1,
        ((measuredKPIs measurements kpis period).map (fun k => k.Weight)).foldl
          (· + ·) acc.2) := by
  induction kpis generalizing acc with
  | nil => simp [measuredKPIs]
  | cons k rest ih =>
    rw [List.foldl_cons, ih]
    cases hm : getExistingMeasurement measurements k.ID period with
    | none => simp [measuredKPIs, scoreStep, hm]
    | some m => simp [measuredKPIs, scoreStep, hm, weightedScore]

/-- The score in terms of the two sums over the measured KPIs. -/
theorem calculateOverallScore_eq (measurements : List Measurement) (kpis : List KPI)
    (period : Time) :
    calculateOverallScore measurements kpis period =
      if F64.feq (F64.sum ((measuredKPIs measurements kpis period).map (fun k => k.Weight)))
          (F64.fin 0) = true then F64.fin 0
      else
        F64.fin 100 *
          F64.sum ((measuredKPIs measurements kpis period).map
            (weightedScore measurements period)) /
          F64.sum ((measuredKPIs measurements kpis period).map (fun k => k.Weight)) := by
  unfold calculateOverallScore
  simp only [foldl_scoreStep, div_mul_hundred]
  rfl

/-- The loop of `calculateOverallScore` accumulates the weighted scores and the weights
of the measured KPIs, in list order, whatever the rounding. -/
theorem foldl_scoreStepRounded (rnd : ℚ → F64) (measurements : List Measurement)
    (period : Time) (kpis : List KPI) (acc : F64 × F64) :
    kpis.foldl (scoreStepRounded rnd measurements period) acc =
      (((measuredKPIs measurements kpis period).map
          (weightedScoreRounded rnd measurements period)).foldl (F64.addR rnd) acc.1,
        ((measuredKPIs measurements kpis period).map (fun k => k.Weight)).foldl
          (F64.addR rnd) acc.2) := by
  induction kpis generalizing acc with
  | nil => simp [measuredKPIs]
  | cons k rest ih =>
    rw [List.foldl_cons, ih]
    cases hm : getExistingMeasurement measurements k.ID period with
    | none => simp [measuredKPIs, scoreStepRounded, hm]
    | some m => simp [measuredKPIs, scoreStepRounded, hm, weightedScoreRounded]

/-- The score in terms of the two sums over the measured KPIs, in the order of
operations of the code and whatever the rounding. -/
theorem calculateOverallScoreRounded_eq (rnd : ℚ → F64) (measurements : List Measurement)
    (kpis : List KPI) (period : Time) :
    calculateOverallScoreRounded rnd measurements kpis period =
      if F64.feq
          (F64.sumR rnd ((measuredKPIs measurements kpis period).map (fun k => k.Weight)))
          (F64.fin 0) = true then F64.fin 0
      else
        F64.mulR rnd
          (F64.divR rnd
            (F64.sumR rnd ((measuredKPIs measurements kpis period).map
              (weightedScoreRounded rnd measurements period)))
            (F64.sumR rnd ((measuredKPIs measurements kpis period).map (fun k => k.Weight))))
          (F64.fin 100) := by
  unfold calculateOverallScoreRounded
  simp only [foldl_scoreStepRounded]
  rfl

/-- Counterexample to C1: two KPIs with operator "≥", targets 2 and 4, weights 70 and 30,
measured at 1 and 3, all float64 numbers.  The achievements are 50 and 75, the weighted
scores 35 and 22.5, the sums 57.5 and 100.  In float64 arithmetic the code returns
`(57.5 / 100) * 100 = 57.49999999999999` (exactly `8092405580431359 / 2^47`), while
`100 * 57.5 / 100` is 57.5, as a number and in float64 arithmetic. -/
theorem calculateOverallScore_formula_counterexample :
    (∃ k ∈ [mkKPI 1 "≥" (F64.fin 2) (F64.fin 70), mkKPI 2 "≥" (F64.fin 4) (F64.fin 30)],
      (getExistingMeasurement
        [mkMeasurement 1 1 (F64.fin 1) (firstOfMonth 2025 2),
          mkMeasurement 2 2 (F64.fin 3) (firstOfMonth 2025 2)] k.ID
        (firstOfMonth 2025 2)).isSome = true) ∧
    F64.sumR F64.round64
        ((measuredKPIs
          [mkMeasurement 1 1 (F64.fin 1) (firstOfMonth 2025 2),
            mkMeasurement 2 2 (F64.fin 3) (firstOfMonth 2025 2)]
          [mkKPI 1 "≥" (F64.fin 2) (F64.fin 70), mkKPI 2 "≥" (F64.fin 4) (F64.fin 30)]
          (firstOfMonth 2025 2)).map (fun k => k.Weight)) = F64.fin 100 ∧
    F64.sumR F64.round64
        ((measuredKPIs
          [mkMeasurement 1 1 (F64.fin 1) (firstOfMonth 2025 2),
            mkMeasurement 2 2 (F64.fin 3) (firstOfMonth 2025 2)]
          [mkKPI 1 "≥" (F64.fin 2) (F64.fin 70), mkKPI 2 "≥" (F64.fin 4) (F64.fin 30)]
          (firstOfMonth 2025 2)).map
          (weightedScoreRounded F64.round64
            [mkMeasurement 1 1 (F64.fin 1) (firstOfMonth 2025 2),
              mkMeasurement 2 2 (F64.fin 3) (firstOfMonth 2025 2)]
            (firstOfMonth 2025 2))) = F64.fin (115 / 2) ∧
    calculateOverallScoreRounded F64.round64
        [mkMeasurement 1 1 (F64.fin 1) (firstOfMonth 2025 2),
          mkMeasurement 2 2 (F64.fin 3) (firstOfMonth 2025 2)]
        [mkKPI 1 "≥" (F64.fin 2) (F64.fin 70), mkKPI 2 "≥" (F64.fin 4) (F64.fin 30)]
        (firstOfMonth 2025 2) = F64.fin (8092405580431359 / 140737488355328) ∧
    F64.divR F64.round64 (F64.mulR F64.round64 (F64.fin 100) (F64.fin (115 / 2)))
        (F64.fin 100) = F64.fin (115 / 2) ∧
    calculateOverallScoreRounded F64.round64
        [mkMeasurement 1 1 (F64.fin 1) (firstOfMonth 2025 2),
          mkMeasurement 2 2 (F64.fin 3) (firstOfMonth 2025 2)]
        [mkKPI 1 "≥" (F64.fin 2) (F64.fin 70), mkKPI 2 "≥" (F64.fin 4) (F64.fin 30)]
        (firstOfMonth 2025 2) ≠ F64.fin (100 * (115 / 2) / 100) := by
  refine ⟨⟨mkKPI 1 "≥" (F64.fin 2) (F64.fin 70), by simp, by decide!⟩, by decide!,
    by decide!, by decide!, by decide!, by decide!⟩

/-- Claim C1 (amended): when at least one listed KPI has a stored measurement in the
period and the weights of the measured KPIs sum to a non-zero value,
`calculateOverallScore` returns `(S / W) * 100`, quotient first, where `S` is the sum of
`Achievement_i * Weight_i / 100` and `W` the sum of `Weight_i`, both accumulated from 0
in list order over exactly the listed KPIs for which `getExistingMeasurement` finds a
measurement in the period, each operation rounded, whatever the rounding; in exact
arithmetic this is `100 * S / W`. -/
theorem calculateOverallScore_formula (rnd : ℚ → F64) (measurements : List Measurement)
    (kpis : List KPI) (period : Time)
    (hmeasured : ∃ k ∈ kpis, (getExistingMeasurement measurements k.ID period).isSome = true) :
    (measuredKPIs measurements kpis period ≠ []) ∧
    (F64.feq
        (F64.sumR rnd ((measuredKPIs measurements kpis period).map (fun k => k.Weight)))
        (F64.fin 0) = false →
      calculateOverallScoreRounded rnd measurements kpis period =
        F64.mulR rnd
          (F64.divR rnd
            (F64.sumR rnd ((measuredKPIs measurements kpis period).map
              (fun k => F64.divR rnd
                (F64.mulR rnd
                  (calculateAchievementRounded rnd k
                    (getExistingMeasurement measurements k.ID period))
                  k.Weight)
                (F64.fin 100))))
            (F64.sumR rnd ((measuredKPIs measurements kpis period).map (fun k => k.Weight))))
          (F64.fin 100)) ∧
    (F64.feq
        (F64.sum ((measuredKPIs measurements kpis period).map (fun k => k.Weight)))
        (F64.fin 0) = false →
      calculateOverallScore measurements kpis period =
        F64.fin 100 *
          F64.sum ((measuredKPIs measurements kpis period).map
            (fun k => calculateAchievement k (getExistingMeasurement measurements k.ID period) *
              k.Weight / F64.fin 100)) /
          F64.sum ((measuredKPIs measurements kpis period).map (fun k => k.Weight))) := by
  refine ⟨?_, ?_, ?_⟩
  · obtain ⟨k, hk, hsome⟩ := hmeasured
    intro hnil
    have hmem : k ∈ measuredKPIs measurements kpis period := by
      unfold measuredKPIs
      exact List.mem_filter.mpr ⟨hk, hsome⟩
    rw [hnil] at hmem
    exact List.not_mem_nil k hmem
  · intro hweight
    rw [calculateOverallScoreRounded_eq, hweight]
    rfl
  · intro hweight
    rw [calculateOverallScore_eq, hweight]
    rfl

/-- Witness of C1: two KPIs weighted 70 and 30, only the first measured (6 days
against a target of 3): the score is 50 in float64 arithmetic. -/
theorem calculateOverallScore_formula_witness :
    (∃ k ∈ [mkKPI 1 "≤" (F64.fin 3) (F64.fin 70), mkKPI 2 "≥" (F64.fin 10) (F64.fin 30)],
      (getExistingMeasurement [mkMeasurement 1 1 (F64.fin 6) (firstOfMonth 2025 2)] k.ID
        (firstOfMonth 2025 2)).isSome = true) ∧
    calculateOverallScoreRounded F64.round64
      [mkMeasurement 1 1 (F64.fin 6) (firstOfMonth 2025 2)]
      [mkKPI 1 "≤" (F64.fin 3) (F64.fin 70), mkKPI 2 "≥" (F64.fin 10) (F64.fin 30)]
      (firstOfMonth 2025 2) = F64.fin 50 :=
  ⟨⟨mkKPI 1 "≤" (F64.fin 3) (F64.fin 70), by simp, by decide!⟩,
    ((calculateOverallScore_formula F64.round64
      [mkMeasurement 1 1 (F64.fin 6) (firstOfMonth 2025 2)]
      [mkKPI 1 "≤" (F64.fin 3) (F64.fin 70), mkKPI 2 "≥" (F64.fin 10) (F64.fin 30)]
      (firstOfMonth 2025 2)
      ⟨mkKPI 1 "≤" (F64.fin 3) (F64.fin 70), by simp, by decide!⟩).2.1 (by decide!)).trans
      (by decide!)⟩

/-! ## Overall score: unmeasured KPIs -/

/-- The score depends on the KPI list only through its measured sub-list. -/
theorem calculateOverallScore_congr (measurements : List Measurement) (period : Time)
    (l1 l2 : List KPI)
    (h : measuredKPIs measurements l1 period = measuredKPIs measurements l2 period) :
    calculateOverallScore measurements l1 period =
      calculateOverallScore measurements l2 period := by
  rw [calculateOverallScore_eq, calculateOverallScore_eq, h]

/-- Without any measured KPI the score is 0. -/
theorem calculateOverallScore_of_measured_nil (measurements : List Measurement)
    (period : Time) (kpis : List KPI) (h : measuredKPIs measurements kpis period = []) :
    calculateOverallScore measurements kpis period = F64.fin 0 := by
  rw [calculateOverallScore_eq, h]
  simp [F64.sum, F64.feq]

/-- Claim C11: for every KPI list, the empty list included, and every period such that
no listed KPI has a stored measurement in that period's calendar month,
`calculateOverallScore` returns 0. -/
theorem calculateOverallScore_no_measurement (measurements : List Measurement)
    (kpis : List KPI) (period : Time)
    (h : ∀ k ∈ kpis, getExistingMeasurement measurements k.ID period = none) :
    calculateOverallScore measurements kpis period = F64.fin 0 := by
  apply calculateOverallScore_of_measured_nil
  unfold measuredKPIs
  rw [List.filter_eq_nil_iff]
  intro k hk
  simp [h k hk]

/-- Witness of C11: one KPI and an empty store. -/
theorem calculateOverallScore_no_measurement_witness :
    (∀ k ∈ [mkKPI 1 "≤" (F64.fin 3) (F64.fin 70)],
      getExistingMeasurement [] k.ID (firstOfMonth 2025 2) = none) ∧
    calculateOverallScore [] [mkKPI 1 "≤" (F64.fin 3) (F64.fin 70)] (firstOfMonth 2025 2) =
      F64.fin 0 :=
  ⟨fun _ _ => rfl,
    calculateOverallScore_no_measurement [] [mkKPI 1 "≤" (F64.fin 3) (F64.fin 70)]
      (firstOfMonth 2025 2) (fun _ _ => rfl)⟩

/-- Claim C12: `calculateOverallScore` ignores unmeasured KPIs: the score of a KPI list
equals the score of its sub-list of KPIs measured in the period, so adding or removing
an unmeasured KPI of any weight anywhere in the list never changes it; in particular
with KPIs weighted 70 and 30 of which only the 70-weight one is measured, at 100%
achievement, the score is 100. -/
theorem calculateOverallScore_ignores_unmeasured (measurements : List Measurement)
    (period : Time) :
    (∀ kpis : List KPI, calculateOverallScore measurements kpis period =
      calculateOverallScore measurements (measuredKPIs measurements kpis period) period) ∧
    (∀ (l1 l2 : List KPI) (k : KPI),
      getExistingMeasurement measurements k.ID period = none →
      calculateOverallScore measurements (l1 ++ k :: l2) period =
        calculateOverallScore measurements (l1 ++ l2) period) ∧
    (∀ (k70 k30 : KPI) (m : Measurement), k70.Weight = F64.fin 70 →
      k30.Weight = F64.fin 30 →
      getExistingMeasurement measurements k70.ID period = some m →
      getExistingMeasurement measurements k30.ID period = none →
      calculateAchievement k70 (some m) = F64.fin 100 →
      calculateOverallScore measurements [k70, k30] period = F64.fin 100 ∧
        calculateOverallScore measurements [k30, k70] period = F64.fin 100) := by
  refine ⟨?_, ?_, ?_⟩
  · intro kpis
    apply calculateOverallScore_congr
    simp [measuredKPIs]
  · intro l1 l2 k hk
    apply calculateOverallScore_congr
    simp [measuredKPIs, hk]
  · intro k70 k30 m h70 h30 hm hnone hach
    have hone : calculateOverallScore measurements [k70] period = F64.fin 100 := by
      simp [calculateOverallScore, scoreStep, hm, hach, h70, F64.add, F64.mul, F64.div,
        F64.feq]
    constructor
    · rw [← hone]
      apply calculateOverallScore_congr
      simp [measuredKPIs, hm, hnone]
    · rw [← hone]
      apply calculateOverallScore_congr
      simp [measuredKPIs, hm, hnone]

/-- Witness of C12: weights 70 and 30, only the first KPI measured (2 days against a
target of 3): the score is 100. -/
theorem calculateOverallScore_ignores_unmeasured_witness :
    calculateOverallScore [mkMeasurement 1 1 (F64.fin 2) (firstOfMonth 2025 2)]
      [mkKPI 1 "≤" (F64.fin 3) (F64.fin 70), mkKPI 2 "≥" (F64.fin 10) (F64.fin 30)]
      (firstOfMonth 2025 2) = F64.fin 100 :=
  ((calculateOverallScore_ignores_unmeasured
    [mkMeasurement 1 1 (F64.fin 2) (firstOfMonth 2025 2)] (firstOfMonth 2025 2)).2.2
    (mkKPI 1 "≤" (F64.fin 3) (F64.fin 70)) (mkKPI 2 "≥" (F64.fin 10) (F64.fin 30))
    (mkMeasurement 1 1 (F64.fin 2) (firstOfMonth 2025 2)) rfl rfl
    (by simp [getExistingMeasurement, mkKPI, mkMeasurement])
    (by simp [getExistingMeasurement, mkKPI, mkMeasurement])
    (by
      simp [calculateAchievement, mkKPI, mkMeasurement, F64.ble, F64.blt]
      norm_num)).1

/-! ## Overall score: range -/

/-- With a finite value `v >= 0` and a finite target `t > 0` the achievement is a
finite number in [0, 100]. -/
theorem calc_some_fin_range (kpi : KPI) (m : Measurement) (v t : ℚ)
    (hv : m.MetricValue = F64.fin v) (ht : kpi.TargetValue = F64.fin t)
    (hv0 : 0 ≤ v) (ht0 : 0 < t) :
    ∃ a : ℚ, calculateAchievement kpi (some m) = F64.fin a ∧ 0 ≤ a ∧ a ≤ 100 := by
  have hq : (0 : ℚ) ≤ 100 * v / t := div_nonneg (mul_nonneg (by norm_num) hv0) ht0.le
  have hB : ∃ a : ℚ, F64.fmin (F64.fin 100) (F64.fin 100 * F64.fin v / F64.fin t) =
      F64.fin a ∧ 0 ≤ a ∧ a ≤ 100 := by
    rw [hundred_mul_div_fin v t ht0.ne', fmin_fin]
    exact ⟨_, rfl, le_min (by norm_num) hq, min_le_left _ _⟩
  have h100 : ∃ a : ℚ, F64.fin 100 = F64.fin a ∧ 0 ≤ a ∧ a ≤ 100 :=
    ⟨100, rfl, by norm_num, le_refl _⟩
  rcases calc_shapes kpi m with h | h | h <;> rw [h, hv, ht]
  · split
    · exact h100
    · rename_i hle
      have hvt : t < v := by
        simpa [F64.ble] using hle
      have hvpos : 0 < v := lt_trans ht0 hvt
      rw [hundred_mul_div_fin t v hvpos.ne', fmin_fin]
      have : (0 : ℚ) ≤ 100 * t / v :=
        div_nonneg (mul_nonneg (by norm_num) ht0.le) hvpos.le
      exact ⟨_, rfl, le_min (by norm_num) this, min_le_left _ _⟩
  · exact hB
  · split
    · exact h100
    · exact hB

/-- One step of the score loop keeps both totals finite with
`0 <= totalScore <= totalWeight`, when the KPI (if measured) has a finite non-negative
weight and a finite achievement in [0, 100]. -/
theorem scoreStep_bounds (measurements : List Measurement) (period : Time) (k : KPI)
    (s w : ℚ) (hs : 0 ≤ s) (hsw : s ≤ w)
    (hk : ∀ m, getExistingMeasurement measurements k.ID period = some m →
      ∃ wk a : ℚ, k.Weight = F64.fin wk ∧ 0 ≤ wk ∧
        calculateAchievement k (some m) = F64.fin a ∧ 0 ≤ a ∧ a ≤ 100) :
    ∃ s2 w2 : ℚ, scoreStep measurements period (F64.fin s, F64.fin w) k =
      (F64.fin s2, F64.fin w2) ∧ 0 ≤ s2 ∧ s2 ≤ w2 := by
  cases hm : getExistingMeasurement measurements k.ID period with
  | none => exact ⟨s, w, by simp [scoreStep, hm], hs, hsw⟩
  | some m =>
    obtain ⟨wk, a, hwk, hwk0, ha, ha0, ha100⟩ := hk m hm
    refine ⟨s + a * wk / 100, w + wk, ?_, ?_, ?_⟩
    · simp [scoreStep, hm, hwk, ha, F64.add, F64.mul, F64.div]
    · have : 0 ≤ a * wk / 100 := div_nonneg (mul_nonneg ha0 hwk0) (by norm_num)
      linarith
    · have : a * wk / 100 ≤ wk := by
        rw [div_le_iff₀ (by norm_num : (0 : ℚ) < 100)]
        nlinarith
      linarith

/-- The loop of `calculateOverallScore` keeps `0 <= totalScore <= totalWeight`. -/
theorem foldl_scoreStep_bounds (measurements : List Measurement) (period : Time)
    (kpis : List KPI) (s w : ℚ) (hs : 0 ≤ s) (hsw : s ≤ w)
    (hk : ∀ k ∈ kpis, ∀ m, getExistingMeasurement measurements k.ID period = some m →
      ∃ wk a : ℚ, k.Weight = F64.fin wk ∧ 0 ≤ wk ∧
        calculateAchievement k (some m) = F64.fin a ∧ 0 ≤ a ∧ a ≤ 100) :
    ∃ s2 w2 : ℚ, kpis.foldl (scoreStep measurements period) (F64.fin s, F64.fin w) =
      (F64.fin s2, F64.fin w2) ∧ 0 ≤ s2 ∧ s2 ≤ w2 := by
  induction kpis generalizing s w with
  | nil => exact ⟨s, w, rfl, hs, hsw⟩
  | cons k rest ih =>
    obtain ⟨s1, w1, h1, hs1, hsw1⟩ :=
      scoreStep_bounds measurements period k s w hs hsw (hk k (List.mem_cons_self _ _))
    rw [List.foldl_cons, h1]
    exact ih s1 w1 hs1 hsw1 (fun k2 hk2 => hk k2 (List.mem_cons_of_mem _ hk2))

/-- The score is in [0, 100] when every measured KPI has a finite non-negative weight
and a finite achievement in [0, 100]. -/
theorem calculateOverallScore_bounds (measurements : List Measurement) (kpis : List KPI)
    (period : Time)
    (hk : ∀ k ∈ kpis, ∀ m, getExistingMeasurement measurements k.ID period = some m →
      ∃ wk a : ℚ, k.Weight = F64.fin wk ∧ 0 ≤ wk ∧
        calculateAchievement k (some m) = F64.fin a ∧ 0 ≤ a ∧ a ≤ 100) :
    F64.fin 0 ≤ calculateOverallScore measurements kpis period ∧
      calculateOverallScore measurements kpis period ≤ F64.fin 100 := by
  obtain ⟨s, w, h, hs, hsw⟩ :=
    foldl_scoreStep_bounds measurements period kpis 0 0 (le_refl _) (le_refl _) hk
  unfold calculateOverallScore
  simp only [h]
  by_cases hw : w = 0
  · simp [F64.feq, F64.ble, hw]
  · have hwpos : 0 < w := lt_of_le_of_ne (le_trans hs hsw) (Ne.symm hw)
    have h0 : 0 ≤ s / w * 100 := mul_nonneg (div_nonneg hs hwpos.le) (by norm_num)
    have h1 : s / w * 100 ≤ 100 := by
      have : s / w ≤ 1 := (div_le_one hwpos).mpr hsw
      linarith
    simp [F64.feq, F64.ble, F64.div, F64.mul, hw, h0, h1]

/-! ## Overall score: sign in rounded arithmetic -/

/-- A value is not negative when it is `NaN`, `+Inf` or a finite number that is at least 0. -/
theorem notNegative_iff (x : F64) :
    F64.notNegative x ↔ x = F64.nan ∨ x = F64.pinf ∨ ∃ q : ℚ, x = F64.fin q ∧ 0 ≤ q := by
  cases x <;> simp [F64.notNegative, F64.ble]

/-- The binary64 number nearest to a positive rational is not negative. -/
theorem round64Pos_nonneg (num den : Nat) (v : ℚ) (h : F64.round64Pos num den = some v) :
    0 ≤ v := by
  unfold F64.round64Pos at h
  simp only at h
  split_ifs at h
  · injection h with h
    rw [← h]
    positivity
  · injection h with h
    rw [← h]
    positivity

/-- The rounding of binary64 arithmetic keeps the sign of a result. -/
theorem round64_keepsSign : F64.keepsSign F64.round64 := by
  intro q hq
  unfold F64.round64
  by_cases h0 : q = 0
  · right
    exact ⟨0, by simp [h0], le_refl 0⟩
  · have hpos : 0 < q := lt_of_le_of_ne hq (Ne.symm h0)
    simp only [h0, hpos, if_true, if_false]
    cases hr : F64.round64Pos q.num.natAbs q.den with
    | none => left; rfl
    | some v => right; exact ⟨v, rfl, round64Pos_nonneg _ _ v hr⟩

/-- The exact arithmetic keeps the sign of a result. -/
theorem fin_keepsSign : F64.keepsSign F64.fin := by
  intro q hq
  exact Or.inr ⟨q, rfl, hq⟩

/-- Rounding a result that is not negative gives a value that is not negative. -/
theorem notNegative_rounded (rnd : ℚ → F64) (hs : F64.keepsSign rnd) (x : F64)
    (hx : x = F64.nan ∨ x = F64.pinf ∨ ∃ q : ℚ, x = F64.fin q ∧ 0 ≤ q) :
    F64.notNegative (F64.rounded rnd x) := by
  rw [notNegative_iff]
  rcases hx with rfl | rfl | ⟨q, rfl, hq⟩
  · left; rfl
  · right; left; rfl
  · rcases hs q hq with h | ⟨r, h, hr⟩
    · right; left; simpa [F64.rounded] using h
    · right; right; exact ⟨r, by simpa [F64.rounded] using h, hr⟩

/-- The rounded sum of two values that are not negative is not negative. -/
theorem notNegative_addR (rnd : ℚ → F64) (hs : F64.keepsSign rnd) (a b : F64)
    (ha : F64.notNegative a) (hb : F64.notNegative b) : F64.notNegative (F64.addR rnd a b) := by
  apply notNegative_rounded rnd hs
  rw [notNegative_iff] at ha hb
  rcases ha with rfl | rfl | ⟨x, rfl, hx⟩ <;> rcases hb with rfl | rfl | ⟨y, rfl, hy⟩ <;>
    simp [F64.add]
  exact add_nonneg hx hy

/-- The rounded product of two values that are not negative is not negative. -/
theorem notNegative_mulR (rnd : ℚ → F64) (hs : F64.keepsSign rnd) (a b : F64)
    (ha : F64.notNegative a) (hb : F64.notNegative b) : F64.notNegative (F64.mulR rnd a b) := by
  apply notNegative_rounded rnd hs
  rw [notNegative_iff] at ha hb
  rcases ha with rfl | rfl | ⟨x, rfl, hx⟩ <;> rcases hb with rfl | rfl | ⟨y, rfl, hy⟩ <;>
    simp [F64.mul, F64.infOfSign]
  · split_ifs <;> simp_all
    linarith
  · split_ifs <;> simp_all
    linarith
  · exact mul_nonneg hx hy

/-- The rounded quotient of two values that are not negative is not negative. -/
theorem notNegative_divR (rnd : ℚ → F64) (hs : F64.keepsSign rnd) (a b : F64)
    (ha : F64.notNegative a) (hb : F64.notNegative b) : F64.notNegative (F64.divR rnd a b) := by
  apply notNegative_rounded rnd hs
  rw [notNegative_iff] at ha hb
  rcases ha with rfl | rfl | ⟨x, rfl, hx⟩ <;> rcases hb with rfl | rfl | ⟨y, rfl, hy⟩ <;>
    simp [F64.div, F64.infOfSign]
  · simp [hy]
  · by_cases hy0 : y = 0
    · simp [hy0]
      split_ifs <;> simp_all
      linarith
    · simp [hy0]
      exact div_nonneg hx hy


/-- A finite number that is at least 0 is not negative. -/
theorem notNegative_fin (q : ℚ) (hq : 0 ≤ q) : F64.notNegative (F64.fin q) := by
  rw [notNegative_iff]
  exact Or.inr (Or.inr ⟨q, rfl, hq⟩)

/-- The clamp at 100 keeps a value that is not negative so. -/
theorem notNegative_fmin_hundred (x : F64) (hx : F64.notNegative x) :
    F64.notNegative (F64.fmin (F64.fin 100) x) := by
  rw [← clamp_eq_fmin]
  split
  · exact notNegative_fin 100 (by norm_num)
  · exact hx

/-- The achievement of a value and a target that are not negative is not negative,
whatever the operator and for every rounding that keeps the sign. -/
theorem calculateAchievementRounded_notNegative (rnd : ℚ → F64) (hs : F64.keepsSign rnd)
    (kpi : KPI) (m : Measurement) (hv : F64.notNegative m.MetricValue)
    (ht : F64.notNegative kpi.TargetValue) :
    F64.notNegative (calculateAchievementRounded rnd kpi (some m)) := by
  have h100 : F64.notNegative (F64.fin 100) := notNegative_fin 100 (by norm_num)
  have hvt : F64.notNegative
      (F64.fmin (F64.fin 100)
        (F64.mulR rnd (F64.divR rnd m.MetricValue kpi.TargetValue) (F64.fin 100))) :=
    notNegative_fmin_hundred _
      (notNegative_mulR rnd hs _ _ (notNegative_divR rnd hs _ _ hv ht) h100)
  have htv : F64.notNegative
      (F64.fmin (F64.fin 100)
        (F64.mulR rnd (F64.divR rnd kpi.TargetValue m.MetricValue) (F64.fin 100))) :=
    notNegative_fmin_hundred _
      (notNegative_mulR rnd hs _ _ (notNegative_divR rnd hs _ _ ht hv) h100)
  by_cases h1 : kpi.Operator = "≤"
  · rw [calcRounded_le_op rnd kpi m (Or.inl h1)]
    split
    · exact h100
    · exact htv
  by_cases h2 : kpi.Operator = "<="
  · rw [calcRounded_le_op rnd kpi m (Or.inr h2)]
    split
    · exact h100
    · exact htv
  by_cases h3 : kpi.Operator = "≥"
  · rw [calcRounded_ge_op rnd kpi m (Or.inl h3)]
    exact hvt
  by_cases h4 : kpi.Operator = ">="
  · rw [calcRounded_ge_op rnd kpi m (Or.inr h4)]
    exact hvt
  by_cases h5 : kpi.Operator = "="
  · rw [calcRounded_eq_op rnd kpi m h5]
    split
    · exact h100
    · exact hvt
  rw [calcRounded_other_op rnd kpi m h1 h2 h3 h4 h5]
  exact hvt

/-- The loop of `calculateOverallScore` keeps both totals not negative. -/
theorem foldl_scoreStepRounded_notNegative (rnd : ℚ → F64) (hs : F64.keepsSign rnd)
    (measurements : List Measurement) (period : Time) (kpis : List KPI)
    (h : ∀ k ∈ kpis, ∀ m, getExistingMeasurement measurements k.ID period = some m →
      F64.notNegative k.Weight ∧ F64.notNegative m.MetricValue ∧
        F64.notNegative k.TargetValue)
    (acc : F64 × F64) (h1 : F64.notNegative acc.1) (h2 : F64.notNegative acc.2) :
    F64.notNegative (kpis.foldl (scoreStepRounded rnd measurements period) acc).1 ∧
      F64.notNegative (kpis.foldl (scoreStepRounded rnd measurements period) acc).2 := by
  induction kpis generalizing acc with
  | nil => exact ⟨h1, h2⟩
  | cons k rest ih =>
    rw [List.foldl_cons]
    have hrest : ∀ k ∈ rest, ∀ m, getExistingMeasurement measurements k.ID period = some m →
        F64.notNegative k.Weight ∧ F64.notNegative m.MetricValue ∧
          F64.notNegative k.TargetValue :=
      fun k hk => h k (List.mem_cons_of_mem _ hk)
    cases hm : getExistingMeasurement measurements k.ID period with
    | none =>
      have hstep : scoreStepRounded rnd measurements period acc k = acc := by
        simp [scoreStepRounded, hm]
      rw [hstep]
      exact ih hrest acc h1 h2
    | some m =>
      obtain ⟨hw, hv, ht⟩ := h k (List.mem_cons_self _ _) m hm
      have hstep : scoreStepRounded rnd measurements period acc k =
          (F64.addR rnd acc.1
              (F64.divR rnd
                (F64.mulR rnd (calculateAchievementRounded rnd k (some m)) k.Weight)
                (F64.fin 100)),
            F64.addR rnd acc.2 k.Weight) := by
        simp [scoreStepRounded, hm]
      rw [hstep]
      apply ih hrest
      · exact notNegative_addR rnd hs _ _ h1
          (notNegative_divR rnd hs _ _
            (notNegative_mulR rnd hs _ _
              (calculateAchievementRounded_notNegative rnd hs k m hv ht) hw)
            (notNegative_fin 100 (by norm_num)))
      · exact notNegative_addR rnd hs _ _ h2 hw

/-- The score of KPIs whose weights, measured values and targets are not negative is not
negative, for every rounding that keeps the sign. -/
theorem calculateOverallScoreRounded_notNegative (rnd : ℚ → F64) (hs : F64.keepsSign rnd)
    (measurements : List Measurement) (kpis : List KPI) (period : Time)
    (h : ∀ k ∈ kpis, ∀ m, getExistingMeasurement measurements k.ID period = some m →
      F64.notNegative k.Weight ∧ F64.notNegative m.MetricValue ∧
        F64.notNegative k.TargetValue) :
    F64.notNegative (calculateOverallScoreRounded rnd measurements kpis period) := by
  obtain ⟨h1, h2⟩ := foldl_scoreStepRounded_notNegative rnd hs measurements period kpis h
    (F64.fin 0, F64.fin 0) (notNegative_fin 0 (le_refl 0)) (notNegative_fin 0 (le_refl 0))
  unfold calculateOverallScoreRounded
  simp only
  split
  · exact notNegative_fin 0 (le_refl 0)
  · exact notNegative_mulR rnd hs _ _ (notNegative_divR rnd hs _ _ h1 h2)
      (notNegative_fin 100 (by norm_num))

/-! ## Overall score: the range claim -/

/-- Counterexample to C13: one KPI with operator "≥", target 1 and weight 70, measured
at -1: the score is -100, which is below 0.  Two more, in float64 arithmetic, with a
measured value 1 on target 1 (achievement 100) and a non-negative weight: with the
float64 weight 0.007 the rounded products and quotients give the score
100.00000000000003 (exactly `3518437208883201 / 2^45`), above 100; with the float64
weight `2^1023` the product `100 * weight` overflows and the score is `+Inf`. -/
theorem calculateOverallScore_range_counterexample :
    calculateOverallScore [mkMeasurement 1 1 (F64.fin (-1)) (firstOfMonth 2025 2)]
      [mkKPI 1 "≥" (F64.fin 1) (F64.fin 70)] (firstOfMonth 2025 2) = F64.fin (-100) ∧
    ¬ (F64.fin 0 ≤ calculateOverallScore
          [mkMeasurement 1 1 (F64.fin (-1)) (firstOfMonth 2025 2)]
          [mkKPI 1 "≥" (F64.fin 1) (F64.fin 70)] (firstOfMonth 2025 2) ∧
        calculateOverallScore [mkMeasurement 1 1 (F64.fin (-1)) (firstOfMonth 2025 2)]
          [mkKPI 1 "≥" (F64.fin 1) (F64.fin 70)] (firstOfMonth 2025 2) ≤ F64.fin 100) ∧
    F64.round64 (7 / 1000) = F64.fin (8070450532247929 / 1152921504606846976) ∧
    calculateAchievementRounded F64.round64
        (mkKPI 1 "≥" (F64.fin 1) (F64.fin (8070450532247929 / 1152921504606846976)))
        (some (mkMeasurement 1 1 (F64.fin 1) (firstOfMonth 2025 2))) = F64.fin 100 ∧
    calculateOverallScoreRounded F64.round64
        [mkMeasurement 1 1 (F64.fin 1) (firstOfMonth 2025 2)]
        [mkKPI 1 "≥" (F64.fin 1) (F64.fin (8070450532247929 / 1152921504606846976))]
        (firstOfMonth 2025 2) = F64.fin (3518437208883201 / 35184372088832) ∧
    ¬ (calculateOverallScoreRounded F64.round64
        [mkMeasurement 1 1 (F64.fin 1) (firstOfMonth 2025 2)]
        [mkKPI 1 "≥" (F64.fin 1) (F64.fin (8070450532247929 / 1152921504606846976))]
        (firstOfMonth 2025 2) ≤ F64.fin 100) ∧
    F64.round64 (2 ^ 1023) = F64.fin (2 ^ 1023) ∧
    calculateOverallScoreRounded F64.round64
        [mkMeasurement 1 1 (F64.fin 1) (firstOfMonth 2025 2)]
        [mkKPI 1 "≥" (F64.fin 1) (F64.fin (2 ^ 1023))]
        (firstOfMonth 2025 2) = F64.pinf := by
  have h : calculateOverallScore [mkMeasurement 1 1 (F64.fin (-1)) (firstOfMonth 2025 2)]
      [mkKPI 1 "≥" (F64.fin 1) (F64.fin 70)] (firstOfMonth 2025 2) = F64.fin (-100) := by
    decide!
  refine ⟨h, ?_, by decide!, by decide!, by decide!, by decide!, by decide!, by decide!⟩
  rw [h]
  simp [F64.ble]

/-- Claim C13 (amended): when every listed KPI that is measured in the period has a
finite non-negative weight, a finite measured value `v >= 0` and a finite target
`t > 0`, `calculateOverallScore` returns no negative value: with every rounding that
keeps the sign of a result, and so in float64 arithmetic, the score is `NaN` or at
least 0.  In exact arithmetic the score then lies in the closed interval [0, 100], as it
does whenever every measured KPI has a finite non-negative weight and a finite
achievement in [0, 100]. -/
theorem calculateOverallScore_range (measurements : List Measurement) (kpis : List KPI)
    (period : Time) :
    (∀ rnd : ℚ → F64, F64.keepsSign rnd →
      (∀ k ∈ kpis, ∀ m, getExistingMeasurement measurements k.ID period = some m →
        ∃ wk v t : ℚ, k.Weight = F64.fin wk ∧ 0 ≤ wk ∧ m.MetricValue = F64.fin v ∧
          0 ≤ v ∧ k.TargetValue = F64.fin t ∧ 0 < t) →
      (calculateOverallScoreRounded rnd measurements kpis period = F64.nan ∨
        F64.fin 0 ≤ calculateOverallScoreRounded rnd measurements kpis period)) ∧
    F64.keepsSign F64.round64 ∧
    ((∀ k ∈ kpis, ∀ m, getExistingMeasurement measurements k.ID period = some m →
        ∃ wk a : ℚ, k.Weight = F64.fin wk ∧ 0 ≤ wk ∧
          calculateAchievement k (some m) = F64.fin a ∧ 0 ≤ a ∧ a ≤ 100) →
      F64.fin 0 ≤ calculateOverallScore measurements kpis period ∧
        calculateOverallScore measurements kpis period ≤ F64.fin 100) ∧
    ((∀ k ∈ kpis, ∀ m, getExistingMeasurement measurements k.ID period = some m →
        ∃ wk v t : ℚ, k.Weight = F64.fin wk ∧ 0 ≤ wk ∧ m.MetricValue = F64.fin v ∧
          0 ≤ v ∧ k.TargetValue = F64.fin t ∧ 0 < t) →
      F64.fin 0 ≤ calculateOverallScore measurements kpis period ∧
        calculateOverallScore measurements kpis period ≤ F64.fin 100) := by
  refine ⟨?_, round64_keepsSign, calculateOverallScore_bounds measurements kpis period, ?_⟩
  · intro rnd hs h
    apply calculateOverallScoreRounded_notNegative rnd hs
    intro k hk m hm
    obtain ⟨wk, v, t, hwk, hwk0, hv, hv0, ht, ht0⟩ := h k hk m hm
    rw [hwk, hv, ht]
    exact ⟨notNegative_fin wk hwk0, notNegative_fin v hv0, notNegative_fin t (le_of_lt ht0)⟩
  · intro h
    apply calculateOverallScore_bounds
    intro k hk m hm
    obtain ⟨wk, v, t, hwk, hwk0, hv, hv0, ht, ht0⟩ := h k hk m hm
    obtain ⟨a, ha, ha0, ha100⟩ := calc_some_fin_range k m v t hv ht hv0 ht0
    exact ⟨wk, a, hwk, hwk0, ha, ha0, ha100⟩

/-- Witness of C13 (amended): weights 70 and 30, the first KPI measured at 6 days
against a target of 3: the float64 score is not negative and the exact score is in
[0, 100]. -/
theorem calculateOverallScore_range_witness :
    (calculateOverallScoreRounded F64.round64
          [mkMeasurement 1 1 (F64.fin 6) (firstOfMonth 2025 2)]
          [mkKPI 1 "≤" (F64.fin 3) (F64.fin 70), mkKPI 2 "≥" (F64.fin 10) (F64.fin 30)]
          (firstOfMonth 2025 2) = F64.nan ∨
      F64.fin 0 ≤ calculateOverallScoreRounded F64.round64
          [mkMeasurement 1 1 (F64.fin 6) (firstOfMonth 2025 2)]
          [mkKPI 1 "≤" (F64.fin 3) (F64.fin 70), mkKPI 2 "≥" (F64.fin 10) (F64.fin 30)]
          (firstOfMonth 2025 2)) ∧
    (F64.fin 0 ≤ calculateOverallScore
        [mkMeasurement 1 1 (F64.fin 6) (firstOfMonth 2025 2)]
        [mkKPI 1 "≤" (F64.fin 3) (F64.fin 70), mkKPI 2 "≥" (F64.fin 10) (F64.fin 30)]
        (firstOfMonth 2025 2) ∧
      calculateOverallScore [mkMeasurement 1 1 (F64.fin 6) (firstOfMonth 2025 2)]
        [mkKPI 1 "≤" (F64.fin 3) (F64.fin 70), mkKPI 2 "≥" (F64.fin 10) (F64.fin 30)]
        (firstOfMonth 2025 2) ≤ F64.fin 100) := by
  have hyp : ∀ k ∈ [mkKPI 1 "≤" (F64.fin 3) (F64.fin 70), mkKPI 2 "≥" (F64.fin 10) (F64.fin 30)],
      ∀ m, getExistingMeasurement [mkMeasurement 1 1 (F64.fin 6) (firstOfMonth 2025 2)] k.ID
          (firstOfMonth 2025 2) = some m →
        ∃ wk v t : ℚ, k.Weight = F64.fin wk ∧ 0 ≤ wk ∧ m.MetricValue = F64.fin v ∧
          0 ≤ v ∧ k.TargetValue = F64.fin t ∧ 0 < t := by
    intro k hk m hm
    simp only [List.mem_cons, List.mem_singleton, List.not_mem_nil, or_false] at hk
    rcases hk with rfl | rfl
    · have hm2 : m = mkMeasurement 1 1 (F64.fin 6) (firstOfMonth 2025 2) := by
        simpa [getExistingMeasurement, mkKPI, mkMeasurement] using hm.symm
      exact ⟨70, 6, 3, rfl, by norm_num, by rw [hm2]; rfl, by norm_num, rfl, by norm_num⟩
    · simp [getExistingMeasurement, mkKPI, mkMeasurement] at hm
  exact ⟨(calculateOverallScore_range [mkMeasurement 1 1 (F64.fin 6) (firstOfMonth 2025 2)]
      [mkKPI 1 "≤" (F64.fin 3) (F64.fin 70), mkKPI 2 "≥" (F64.fin 10) (F64.fin 30)]
      (firstOfMonth 2025 2)).1 F64.round64 round64_keepsSign hyp,
    (calculateOverallScore_range [mkMeasurement 1 1 (F64.fin 6) (firstOfMonth 2025 2)]
      [mkKPI 1 "≤" (F64.fin 3) (F64.fin 70), mkKPI 2 "≥" (F64.fin 10) (F64.fin 30)]
      (firstOfMonth 2025 2)).2.2.2 hyp⟩

/-! ## Measurement store: lookup and update -/

/-- The lookup returns `nil` exactly when no stored measurement is for the KPI and
month. -/
theorem getExistingMeasurement_eq_none_iff (ms : List Measurement) (kpiID : Int)
    (period : Time) :
    getExistingMeasurement ms kpiID period = none ↔ ∀ m ∈ ms, ¬ isFor m kpiID period := by
  induction ms with
  | nil => simp [getExistingMeasurement]
  | cons a rest ih =>
    unfold getExistingMeasurement
    by_cases h : a.KPIID = kpiID ∧ a.Period.Year = period.Year ∧
        a.Period.Month = period.Month
    · rw [if_pos h]
      simp only [List.mem_cons, forall_eq_or_imp]
      constructor
      · intro hn
        cases hn
      · intro hn
        exact absurd h hn.1
    · rw [if_neg h, ih]
      simp only [List.mem_cons, forall_eq_or_imp]
      exact ⟨fun hr => ⟨h, hr⟩, fun hr => hr.2⟩

/-- The pointer index is `nil` exactly when no stored measurement is for the KPI and
month. -/
theorem getExistingMeasurementIndex_eq_none_iff (ms : List Measurement) (kpiID : Int)
    (period : Time) :
    getExistingMeasurementIndex ms kpiID period = none ↔
      ∀ m ∈ ms, ¬ isFor m kpiID period := by
  induction ms with
  | nil => simp [getExistingMeasurementIndex]
  | cons a rest ih =>
    unfold getExistingMeasurementIndex
    by_cases h : a.KPIID = kpiID ∧ a.Period.Year = period.Year ∧
        a.Period.Month = period.Month
    · rw [if_pos h]
      simp only [List.mem_cons, forall_eq_or_imp]
      constructor
      · intro hn
        cases hn
      · intro hn
        exact absurd h hn.1
    · rw [if_neg h, Option.map_eq_none', ih]
      simp only [List.mem_cons, forall_eq_or_imp]
      exact ⟨fun hr => ⟨h, hr⟩, fun hr => hr.2⟩

/-- A store with a measurement for the KPI and month splits at the first one. -/
theorem exists_first_split (ms : List Measurement) (kpiID : Int) (period : Time)
    (h : ∃ m ∈ ms, isFor m kpiID period) :
    ∃ l1 m l2, ms = l1 ++ m :: l2 ∧ isFor m kpiID period ∧
      ∀ x ∈ l1, ¬ isFor x kpiID period := by
  induction ms with
  | nil =>
    obtain ⟨m, hm, _⟩ := h
    exact absurd hm (List.not_mem_nil m)
  | cons a rest ih =>
    by_cases ha : isFor a kpiID period
    · exact ⟨[], a, rest, rfl, ha, fun x hx => absurd hx (List.not_mem_nil x)⟩
    · obtain ⟨m, hm, hfor⟩ := h
      have hrest : ∃ m ∈ rest, isFor m kpiID period := by
        rcases List.mem_cons.mp hm with rfl | hm
        · exact absurd hfor ha
        · exact ⟨m, hm, hfor⟩
      obtain ⟨l1, m1, l2, hsplit, hfor1, hl1⟩ := ih hrest
      refine ⟨a :: l1, m1, l2, by rw [hsplit]; rfl, hfor1, ?_⟩
      intro x hx
      rcases List.mem_cons.mp hx with rfl | hx
      · exact ha
      · exact hl1 x hx

/-- The lookup on a store split at its first measurement for the KPI and month. -/
theorem getExistingMeasurement_of_split (l1 l2 : List Measurement) (m : Measurement)
    (kpiID : Int) (period : Time) (hm : isFor m kpiID period)
    (hl1 : ∀ x ∈ l1, ¬ isFor x kpiID period) :
    getExistingMeasurement (l1 ++ m :: l2) kpiID period = some m := by
  induction l1 with
  | nil =>
    have hm2 : m.KPIID = kpiID ∧ m.Period.Year = period.Year ∧
        m.Period.Month = period.Month := hm
    simp [getExistingMeasurement, hm2]
  | cons a rest ih =>
    have ha : ¬ (a.KPIID = kpiID ∧ a.Period.Year = period.Year ∧
        a.Period.Month = period.Month) := hl1 a (List.mem_cons_self _ _)
    rw [List.cons_append, getExistingMeasurement, if_neg ha]
    exact ih (fun x hx => hl1 x (List.mem_cons_of_mem _ hx))

/-- The pointer index on a store split at its first measurement for the KPI and
month. -/
theorem getExistingMeasurementIndex_of_split (l1 l2 : List Measurement) (m : Measurement)
    (kpiID : Int) (period : Time) (hm : isFor m kpiID period)
    (hl1 : ∀ x ∈ l1, ¬ isFor x kpiID period) :
    getExistingMeasurementIndex (l1 ++ m :: l2) kpiID period = some l1.length := by
  induction l1 with
  | nil =>
    have hm2 : m.KPIID = kpiID ∧ m.Period.Year = period.Year ∧
        m.Period.Month = period.Month := hm
    simp [getExistingMeasurementIndex, hm2]
  | cons a rest ih =>
    have ha : ¬ (a.KPIID = kpiID ∧ a.Period.Year = period.Year ∧
        a.Period.Month = period.Month) := hl1 a (List.mem_cons_self _ _)
    rw [List.cons_append, getExistingMeasurementIndex, if_neg ha,
      ih (fun x hx => hl1 x (List.mem_cons_of_mem _ hx))]
    rfl

/-- The value behind the returned pointer is the element at the returned index. -/
theorem getExistingMeasurement_eq_index (ms : List Measurement) (kpiID : Int)
    (period : Time) :
    getExistingMeasurement ms kpiID period =
      (getExistingMeasurementIndex ms kpiID period).bind (fun i => ms[i]?) := by
  induction ms with
  | nil => simp [getExistingMeasurement, getExistingMeasurementIndex]
  | cons a rest ih =>
    unfold getExistingMeasurement getExistingMeasurementIndex
    by_cases h : a.KPIID = kpiID ∧ a.Period.Year = period.Year ∧
        a.Period.Month = period.Month
    · simp [h]
    · rw [if_neg h, if_neg h, ih]
      cases getExistingMeasurementIndex rest kpiID period <;> simp

/-- Updating at the position of the split changes exactly that element. -/
theorem updateAt_split (l1 l2 : List Measurement) (m : Measurement)
    (f : Measurement → Measurement) :
    updateAt (l1 ++ m :: l2) l1.length f = l1 ++ f m :: l2 := by
  induction l1 with
  | nil => simp [updateAt]
  | cons a rest ih => simp [updateAt, ih]

/-- The update branch of `saveMeasurement` on a store split at the first measurement
for the KPI and month. -/
theorem saveMeasurement_of_split (l1 l2 : List Measurement) (m : Measurement)
    (kpiID : Int) (value : F64) (unit : String) (period : Time) (notes : String)
    (now : Time) (hm : isFor m kpiID period) (hl1 : ∀ x ∈ l1, ¬ isFor x kpiID period) :
    saveMeasurement (l1 ++ m :: l2) kpiID value unit period notes now =
      l1 ++ { m with MetricValue := value, Unit := unit, Notes := notes } :: l2 := by
  unfold saveMeasurement
  rw [getExistingMeasurementIndex_of_split l1 l2 m kpiID period hm hl1]
  exact updateAt_split l1 l2 m _

/-- The append branch of `saveMeasurement`. -/
theorem saveMeasurement_of_none (ms : List Measurement) (kpiID : Int) (value : F64)
    (unit : String) (period : Time) (notes : String) (now : Time)
    (h : ∀ x ∈ ms, ¬ isFor x kpiID period) :
    saveMeasurement ms kpiID value unit period notes now =
      ms ++ [{ ID := newID ms, KPIID := kpiID, MetricValue := value, Unit := unit,
               Period := period, Notes := notes, CreatedAt := now }] := by
  unfold saveMeasurement
  rw [(getExistingMeasurementIndex_eq_none_iff ms kpiID period).mpr h]

/-- The lookup reads the period only through its year and month. -/
theorem getExistingMeasurement_period_congr (ms : List Measurement) (kpiID : Int)
    (period period2 : Time) (hy : period2.Year = period.Year)
    (hmo : period2.Month = period.Month) :
    getExistingMeasurement ms kpiID period2 = getExistingMeasurement ms kpiID period := by
  induction ms with
  | nil => rfl
  | cons a rest ih =>
    unfold getExistingMeasurement
    rw [hy, hmo, ih]

/-- A successful lookup splits the store at the returned measurement. -/
theorem getExistingMeasurement_split (ms : List Measurement) (kpiID : Int) (period : Time)
    (m : Measurement) (h : getExistingMeasurement ms kpiID period = some m) :
    ∃ l1 l2, ms = l1 ++ m :: l2 ∧ isFor m kpiID period ∧
      ∀ x ∈ l1, ¬ isFor x kpiID period := by
  have hex : ∃ x ∈ ms, isFor x kpiID period := by
    by_contra hno
    have hnone := (getExistingMeasurement_eq_none_iff ms kpiID period).mpr
      (fun x hx hfor => hno ⟨x, hx, hfor⟩)
    rw [hnone] at h
    cases h
  obtain ⟨l1, m1, l2, hsplit, hfor, hl1⟩ := exists_first_split ms kpiID period hex
  have hm1 := getExistingMeasurement_of_split l1 l2 m1 kpiID period hfor hl1
  rw [← hsplit, h] at hm1
  cases hm1
  exact ⟨l1, l2, hsplit, hfor, hl1⟩

/-- Claim C14: `getExistingMeasurement(kpiID, period)` returns a measurement if and only
if the store holds one whose KPIID equals `kpiID` and whose Period has the calendar year
and month of `period`; the one returned is the first such measurement in store order;
and two periods in the same year and month give the same result. -/
theorem getExistingMeasurement_spec (ms : List Measurement) (kpiID : Int) (period : Time) :
    ((∃ m, getExistingMeasurement ms kpiID period = some m) ↔
      ∃ m ∈ ms, m.KPIID = kpiID ∧ m.Period.Year = period.Year ∧
        m.Period.Month = period.Month) ∧
    (∀ m, getExistingMeasurement ms kpiID period = some m →
      ∃ l1 l2, ms = l1 ++ m :: l2 ∧
        (m.KPIID = kpiID ∧ m.Period.Year = period.Year ∧ m.Period.Month = period.Month) ∧
        (∀ x ∈ l1, ¬ (x.KPIID = kpiID ∧ x.Period.Year = period.Year ∧
          x.Period.Month = period.Month)) ∧
        getExistingMeasurementIndex ms kpiID period = some l1.length) ∧
    (∀ period2 : Time, period2.Year = period.Year → period2.Month = period.Month →
      getExistingMeasurement ms kpiID period2 = getExistingMeasurement ms kpiID period) := by
  refine ⟨⟨?_, ?_⟩, ?_, ?_⟩
  · rintro ⟨m, hm⟩
    obtain ⟨l1, l2, hsplit, hfor, _⟩ := getExistingMeasurement_split ms kpiID period m hm
    exact ⟨m, by rw [hsplit]; simp, hfor⟩
  · intro hex
    obtain ⟨l1, m1, l2, hsplit, hfor, hl1⟩ := exists_first_split ms kpiID period hex
    exact ⟨m1, by rw [hsplit]; exact getExistingMeasurement_of_split l1 l2 m1 _ _ hfor hl1⟩
  · intro m hm
    obtain ⟨l1, l2, hsplit, hfor, hl1⟩ := getExistingMeasurement_split ms kpiID period m hm
    refine ⟨l1, l2, hsplit, hfor, hl1, ?_⟩
    rw [hsplit]
    exact getExistingMeasurementIndex_of_split l1 l2 m kpiID period hfor hl1
  · intro period2 hy hmo
    exact getExistingMeasurement_period_congr ms kpiID period period2 hy hmo

/-- Witness of C14: of two measurements of KPI 1 in February 2025 the lookup, asked for
the 15th of the month, returns the first. -/
theorem getExistingMeasurement_spec_witness :
    getExistingMeasurement
      [mkMeasurement 1 2 (F64.fin 4) (firstOfMonth 2025 2),
        mkMeasurement 2 1 (F64.fin 6) (firstOfMonth 2025 2),
        mkMeasurement 3 1 (F64.fin 7) (firstOfMonth 2025 2)] 1
      { year := 2025, month := 2, day := 15, nsec := 0 } =
    some (mkMeasurement 2 1 (F64.fin 6) (firstOfMonth 2025 2)) := by
  rw [(getExistingMeasurement_spec
    [mkMeasurement 1 2 (F64.fin 4) (firstOfMonth 2025 2),
      mkMeasurement 2 1 (F64.fin 6) (firstOfMonth 2025 2),
      mkMeasurement 3 1 (F64.fin 7) (firstOfMonth 2025 2)] 1 (firstOfMonth 2025 2)).2.2
    { year := 2025, month := 2, day := 15, nsec := 0 } rfl rfl]
  simp [getExistingMeasurement, mkMeasurement]

/-! ## Measurement store: update in place -/

/-- Claim C15: when the store already holds a measurement for (kpiID, year and month of
period), `saveMeasurement` changes only the first such measurement, setting its
MetricValue, Unit and Notes to the given arguments: its ID, KPIID, Period and CreatedAt
are unchanged, every other measurement is unchanged, and the number and order of stored
measurements are unchanged. -/
theorem saveMeasurement_updates_in_place (ms : List Measurement) (kpiID : Int)
    (value : F64) (unit : String) (period : Time) (notes : String) (now : Time)
    (h : ∃ m ∈ ms, m.KPIID = kpiID ∧ m.Period.Year = period.Year ∧
      m.Period.Month = period.Month) :
    ∃ l1 m l2, ms = l1 ++ m :: l2 ∧
      (m.KPIID = kpiID ∧ m.Period.Year = period.Year ∧ m.Period.Month = period.Month) ∧
      (∀ x ∈ l1, ¬ (x.KPIID = kpiID ∧ x.Period.Year = period.Year ∧
        x.Period.Month = period.Month)) ∧
      saveMeasurement ms kpiID value unit period notes now =
        l1 ++ { ID := m.ID, KPIID := m.KPIID, MetricValue := value, Unit := unit,
                Period := m.Period, Notes := notes, CreatedAt := m.CreatedAt } :: l2 ∧
      (saveMeasurement ms kpiID value unit period notes now).length = ms.length ∧
      (∀ j : Nat, j ≠ l1.length →
        (saveMeasurement ms kpiID value unit period notes now)[j]? = ms[j]?) := by
  obtain ⟨l1, m, l2, hsplit, hfor, hl1⟩ := exists_first_split ms kpiID period h
  have hsave := saveMeasurement_of_split l1 l2 m kpiID value unit period notes now hfor hl1
  rw [← hsplit] at hsave
  refine ⟨l1, m, l2, hsplit, hfor, hl1, hsave, ?_, ?_⟩
  · rw [hsave, hsplit]
    simp
  · intro j hj
    rw [hsave, hsplit]
    rcases Nat.lt_or_gt_of_ne hj with hlt | hgt
    · rw [List.getElem?_append_left hlt, List.getElem?_append_left hlt]
    · have hle : l1.length ≤ j := Nat.le_of_lt hgt
      rw [List.getElem?_append_right hle, List.getElem?_append_right hle]
      obtain ⟨d, hd⟩ : ∃ d, j - l1.length = d + 1 := ⟨j - l1.length - 1, by omega⟩
      rw [hd]
      rfl

/-- Witness of C15: a store of two measurements that holds one for KPI 1 in February
2025 still holds two after the save. -/
theorem saveMeasurement_updates_in_place_witness :
    (∃ m ∈ [mkMeasurement 1 2 (F64.fin 4) (firstOfMonth 2025 2),
        mkMeasurement 2 1 (F64.fin 2) (firstOfMonth 2025 2)],
      m.KPIID = 1 ∧ m.Period.Year = (firstOfMonth 2025 2).Year ∧
        m.Period.Month = (firstOfMonth 2025 2).Month) ∧
    (saveMeasurement
      [mkMeasurement 1 2 (F64.fin 4) (firstOfMonth 2025 2),
        mkMeasurement 2 1 (F64.fin 2) (firstOfMonth 2025 2)] 1 (F64.fin 6) "days"
      (firstOfMonth 2025 2) "late" (firstOfMonth 2025 3)).length = 2 :=
  ⟨⟨mkMeasurement 2 1 (F64.fin 2) (firstOfMonth 2025 2), by simp, rfl, rfl, rfl⟩, by
    obtain ⟨_, _, _, _, _, _, _, hlen, _⟩ := saveMeasurement_updates_in_place
      [mkMeasurement 1 2 (F64.fin 4) (firstOfMonth 2025 2),
        mkMeasurement 2 1 (F64.fin 2) (firstOfMonth 2025 2)] 1 (F64.fin 6) "days"
      (firstOfMonth 2025 2) "late" (firstOfMonth 2025 3)
      ⟨mkMeasurement 2 1 (F64.fin 2) (firstOfMonth 2025 2), by simp, rfl, rfl, rfl⟩
    exact hlen⟩

/-! ## Measurement store: appending -/

/-- The running `newID` never falls below its start value. -/
theorem newID_foldl_ge (ms : List Measurement) (a : Int) :
    a ≤ ms.foldl (fun acc m => if m.ID ≥ acc then m.ID + 1 else acc) a := by
  induction ms generalizing a with
  | nil => exact le_refl a
  | cons m rest ih =>
    rw [List.foldl_cons]
    refine le_trans ?_ (ih _)
    split
    · rename_i h
      omega
    · exact le_refl a

/-- The running `newID` ends above every ID it has seen. -/
theorem newID_foldl_gt (ms : List Measurement) (a : Int) :
    ∀ m ∈ ms, m.ID < ms.foldl (fun acc m => if m.ID ≥ acc then m.ID + 1 else acc) a := by
  induction ms generalizing a with
  | nil => intro m hm; exact absurd hm (List.not_mem_nil m)
  | cons x rest ih =>
    intro m hm
    rw [List.foldl_cons]
    rcases List.mem_cons.mp hm with rfl | hm
    · refine lt_of_lt_of_le ?_ (newID_foldl_ge rest _)
      split
      · omega
      · rename_i h
        omega
    · exact ih _ m hm

/-- The running `newID` ends at its start value or at one more than some ID. -/
theorem newID_foldl_eq (ms : List Measurement) (a : Int) :
    ms.foldl (fun acc m => if m.ID ≥ acc then m.ID + 1 else acc) a = a ∨
      ∃ m ∈ ms, ms.foldl (fun acc m => if m.ID ≥ acc then m.ID + 1 else acc) a =
        m.ID + 1 := by
  induction ms generalizing a with
  | nil => exact Or.inl rfl
  | cons x rest ih =>
    rw [List.foldl_cons]
    rcases ih (if x.ID ≥ a then x.ID + 1 else a) with h | ⟨m, hm, h⟩
    · by_cases hx : x.ID ≥ a
      · right
        refine ⟨x, List.mem_cons_self _ _, ?_⟩
        rw [h, if_pos hx]
      · left
        rw [h, if_neg hx]
    · exact Or.inr ⟨m, List.mem_cons_of_mem _ hm, h⟩

/-- An addition whose result fits in 64 bits does not wrap. -/
theorem wrapInt_of_fits (x : Int) (h1 : -9223372036854775808 ≤ x)
    (h2 : x ≤ 9223372036854775807) : wrapInt x = x := by
  unfold wrapInt
  omega

/-- While every stored ID is below `math.MaxInt64`, no addition of the `newID` loop
wraps around. -/
theorem newID_foldl_nowrap (ms : List Measurement) (a : Int)
    (hr : ∀ m ∈ ms, -9223372036854775808 ≤ m.ID ∧ m.ID < maxInt) :
    ms.foldl (fun acc m => if m.ID ≥ acc then wrapInt (m.ID + 1) else acc) a =
      ms.foldl (fun acc m => if m.ID ≥ acc then m.ID + 1 else acc) a := by
  induction ms generalizing a with
  | nil => rfl
  | cons x rest ih =>
    have hx := hr x (List.mem_cons_self _ _)
    unfold maxInt at hx
    rw [List.foldl_cons, List.foldl_cons, wrapInt_of_fits (x.ID + 1) (by omega) (by omega)]
    exact ih _ (fun m hm => hr m (List.mem_cons_of_mem _ hm))

/-- While every stored ID is below `math.MaxInt64`, the new ID is above every stored
ID. -/
theorem newID_gt (ms : List Measurement)
    (hr : ∀ m ∈ ms, -9223372036854775808 ≤ m.ID ∧ m.ID < maxInt) :
    ∀ m ∈ ms, m.ID < newID ms := by
  intro m hm
  unfold newID
  have hlen : ms.length > 0 := List.length_pos_of_mem hm
  rw [if_pos hlen, newID_foldl_nowrap ms 1 hr]
  exact newID_foldl_gt ms 1 m hm

/-- While every stored ID is below `math.MaxInt64`, the new ID is at least 1. -/
theorem newID_pos (ms : List Measurement)
    (hr : ∀ m ∈ ms, -9223372036854775808 ≤ m.ID ∧ m.ID < maxInt) : 1 ≤ newID ms := by
  unfold newID
  split
  · rw [newID_foldl_nowrap ms 1 hr]
    exact newID_foldl_ge ms 1
  · exact le_refl _

/-- The new ID of the empty store is 1. -/
theorem newID_nil : newID [] = 1 := rfl

/-- On a non-empty store of positive IDs below `math.MaxInt64` the new ID is the largest
stored ID plus one. -/
theorem newID_eq_max (ms : List Measurement) (hne : ms ≠ [])
    (hpos : ∀ m ∈ ms, 0 < m.ID) (hmax : ∀ m ∈ ms, m.ID < maxInt) :
    ∃ m ∈ ms, (∀ x ∈ ms, x.ID ≤ m.ID) ∧ newID ms = m.ID + 1 := by
  have hlen : ms.length > 0 := List.length_pos.mpr hne
  have hr : ∀ m ∈ ms, -9223372036854775808 ≤ m.ID ∧ m.ID < maxInt := by
    intro m hm
    have := hpos m hm
    exact ⟨by omega, hmax m hm⟩
  have hnew : newID ms = ms.foldl (fun acc m => if m.ID ≥ acc then m.ID + 1 else acc) 1 := by
    unfold newID
    rw [if_pos hlen, newID_foldl_nowrap ms 1 hr]
  obtain ⟨m0, hm0⟩ := List.exists_mem_of_ne_nil ms hne
  rcases newID_foldl_eq ms 1 with h | ⟨m, hm, h⟩
  · have h1 := newID_foldl_gt ms 1 m0 hm0
    have h2 := hpos m0 hm0
    omega
  · refine ⟨m, hm, ?_, by rw [hnew, h]⟩
    intro x hx
    have := newID_foldl_gt ms 1 x hx
    omega

/-- Counterexample to C16: a store of positive IDs that holds `math.MaxInt64` and 5 and no
measurement of KPI 1 for March 2025.  The addition `MaxInt64 + 1` wraps around to
`-2^63`, the following ID 5 raises the running value to 6, and the appended measurement
gets the ID 6, which is not the largest stored ID plus one. -/
theorem saveMeasurement_appends_counterexample :
    (∀ m ∈ [mkMeasurement 9223372036854775807 2 (F64.fin 4) (firstOfMonth 2025 2),
        mkMeasurement 5 1 (F64.fin 2) (firstOfMonth 2025 2)], 0 < m.ID) ∧
    (∀ m ∈ [mkMeasurement 9223372036854775807 2 (F64.fin 4) (firstOfMonth 2025 2),
        mkMeasurement 5 1 (F64.fin 2) (firstOfMonth 2025 2)],
      ¬ (m.KPIID = 1 ∧ m.Period.Year = (firstOfMonth 2025 3).Year ∧
        m.Period.Month = (firstOfMonth 2025 3).Month)) ∧
    saveMeasurement
        [mkMeasurement 9223372036854775807 2 (F64.fin 4) (firstOfMonth 2025 2),
          mkMeasurement 5 1 (F64.fin 2) (firstOfMonth 2025 2)] 1 (F64.fin 6) "days"
        (firstOfMonth 2025 3) "late" (firstOfMonth 2025 4) =
      [mkMeasurement 9223372036854775807 2 (F64.fin 4) (firstOfMonth 2025 2),
        mkMeasurement 5 1 (F64.fin 2) (firstOfMonth 2025 2),
        { ID := 6, KPIID := 1, MetricValue := F64.fin 6, Unit := "days",
          Period := firstOfMonth 2025 3, Notes := "late",
          CreatedAt := firstOfMonth 2025 4 }] ∧
    ¬ (∃ m ∈ [mkMeasurement 9223372036854775807 2 (F64.fin 4) (firstOfMonth 2025 2),
        mkMeasurement 5 1 (F64.fin 2) (firstOfMonth 2025 2)],
      (∀ x ∈ [mkMeasurement 9223372036854775807 2 (F64.fin 4) (firstOfMonth 2025 2),
          mkMeasurement 5 1 (F64.fin 2) (firstOfMonth 2025 2)], x.ID ≤ m.ID) ∧
        (6 : Int) = m.ID + 1) ∧
    newID [mkMeasurement 9223372036854775807 2 (F64.fin 4) (firstOfMonth 2025 2)] =
      -9223372036854775808 := by
  refine ⟨by simp [mkMeasurement], by simp [mkMeasurement, firstOfMonth, Time.Year, Time.Month],
    by decide, by simp [mkMeasurement], by decide⟩

/-- Claim C16 (amended): when the store, all of whose measurement IDs are positive and
below `math.MaxInt64`, holds no measurement for (kpiID, year and month of period),
`saveMeasurement` appends exactly one measurement at the end of the store and leaves all
earlier entries unchanged; the new measurement carries the given kpiID, value, unit,
period and notes, and its ID is max(existing IDs) + 1, or 1 when the store is empty. -/
theorem saveMeasurement_appends (ms : List Measurement) (kpiID : Int) (value : F64)
    (unit : String) (period : Time) (notes : String) (now : Time)
    (hpos : ∀ m ∈ ms, 0 < m.ID) (hmax : ∀ m ∈ ms, m.ID < maxInt)
    (hnone : ∀ m ∈ ms, ¬ (m.KPIID = kpiID ∧ m.Period.Year = period.Year ∧
      m.Period.Month = period.Month)) :
    ∃ created : Measurement,
      saveMeasurement ms kpiID value unit period notes now = ms ++ [created] ∧
      created.KPIID = kpiID ∧ created.MetricValue = value ∧ created.Unit = unit ∧
      created.Period = period ∧ created.Notes = notes ∧ created.CreatedAt = now ∧
      (ms = [] → created.ID = 1) ∧
      (ms ≠ [] → ∃ m ∈ ms, (∀ x ∈ ms, x.ID ≤ m.ID) ∧ created.ID = m.ID + 1) := by
  refine ⟨_, saveMeasurement_of_none ms kpiID value unit period notes now hnone,
    rfl, rfl, rfl, rfl, rfl, rfl, ?_, ?_⟩
  · intro h
    rw [h]
    rfl
  · intro hne
    exact newID_eq_max ms hne hpos hmax

/-- Witness of C16: saving a March measurement into a store that only holds February
ones (IDs 1 and 5) appends a measurement with ID 6. -/
theorem saveMeasurement_appends_witness :
    (∀ m ∈ [mkMeasurement 1 2 (F64.fin 4) (firstOfMonth 2025 2),
        mkMeasurement 5 1 (F64.fin 2) (firstOfMonth 2025 2)], 0 < m.ID) ∧
    (∀ m ∈ [mkMeasurement 1 2 (F64.fin 4) (firstOfMonth 2025 2),
        mkMeasurement 5 1 (F64.fin 2) (firstOfMonth 2025 2)], m.ID < maxInt) ∧
    (saveMeasurement
      [mkMeasurement 1 2 (F64.fin 4) (firstOfMonth 2025 2),
        mkMeasurement 5 1 (F64.fin 2) (firstOfMonth 2025 2)] 1 (F64.fin 6) "days"
      (firstOfMonth 2025 3) "late" (firstOfMonth 2025 4)).length = 3 :=
  ⟨by simp [mkMeasurement], by simp [mkMeasurement, maxInt], by
    obtain ⟨created, hsave, _⟩ := saveMeasurement_appends
      [mkMeasurement 1 2 (F64.fin 4) (firstOfMonth 2025 2),
        mkMeasurement 5 1 (F64.fin 2) (firstOfMonth 2025 2)] 1 (F64.fin 6) "days"
      (firstOfMonth 2025 3) "late" (firstOfMonth 2025 4)
      (by simp [mkMeasurement]) (by simp [mkMeasurement, maxInt])
      (by simp [mkMeasurement, firstOfMonth, Time.Year, Time.Month])
    rw [hsave]
    rfl⟩

/-! ## Measurement store: the two branches of saveMeasurement -/

/-- The two branches of `saveMeasurement`: update the first measurement for the KPI and
month in place, or append a new measurement when there is none. -/
theorem saveMeasurement_cases (ms : List Measurement) (kpiID : Int) (value : F64)
    (unit : String) (period : Time) (notes : String) (now : Time) :
    (∃ l1 m l2, ms = l1 ++ m :: l2 ∧ isFor m kpiID period ∧
      (∀ x ∈ l1, ¬ isFor x kpiID period) ∧
      saveMeasurement ms kpiID value unit period notes now =
        l1 ++ { m with MetricValue := value, Unit := unit, Notes := notes } :: l2) ∨
    ((∀ x ∈ ms, ¬ isFor x kpiID period) ∧
      saveMeasurement ms kpiID value unit period notes now =
        ms ++ [{ ID := newID ms, KPIID := kpiID, MetricValue := value, Unit := unit,
                 Period := period, Notes := notes, CreatedAt := now }]) := by
  by_cases h : ∃ m ∈ ms, isFor m kpiID period
  · left
    obtain ⟨l1, m, l2, hsplit, hfor, hl1⟩ := exists_first_split ms kpiID period h
    refine ⟨l1, m, l2, hsplit, hfor, hl1, ?_⟩
    rw [hsplit]
    exact saveMeasurement_of_split l1 l2 m kpiID value unit period notes now hfor hl1
  · right
    have hnone : ∀ x ∈ ms, ¬ isFor x kpiID period := fun x hx hfor => h ⟨x, hx, hfor⟩
    exact ⟨hnone, saveMeasurement_of_none ms kpiID value unit period notes now hnone⟩

/-- After `saveMeasurement` the store splits at a first measurement for the KPI and
month, and that measurement carries the saved value, unit and notes. -/
theorem saveMeasurement_split (ms : List Measurement) (kpiID : Int) (value : F64)
    (unit : String) (period : Time) (notes : String) (now : Time) :
    ∃ l1 m l2, saveMeasurement ms kpiID value unit period notes now = l1 ++ m :: l2 ∧
      isFor m kpiID period ∧ (∀ x ∈ l1, ¬ isFor x kpiID period) ∧
      m.MetricValue = value ∧ m.Unit = unit ∧ m.Notes = notes := by
  rcases saveMeasurement_cases ms kpiID value unit period notes now with
    ⟨l1, m, l2, _, hfor, hl1, hsave⟩ | ⟨hnone, hsave⟩
  · exact ⟨l1, _, l2, hsave, hfor, hl1, rfl, rfl, rfl⟩
  · exact ⟨ms, _, [], hsave, ⟨rfl, rfl, rfl⟩, hnone, rfl, rfl, rfl⟩

/-- Saving the same arguments again changes nothing. -/
theorem saveMeasurement_twice (ms : List Measurement) (kpiID : Int) (value : F64)
    (unit : String) (period : Time) (notes : String) (now1 now2 : Time) :
    saveMeasurement (saveMeasurement ms kpiID value unit period notes now1) kpiID value unit
      period notes now2 = saveMeasurement ms kpiID value unit period notes now1 := by
  obtain ⟨l1, m, l2, hsave, hfor, hl1, hv, hu, hn⟩ :=
    saveMeasurement_split ms kpiID value unit period notes now1
  rw [hsave, saveMeasurement_of_split l1 l2 m kpiID value unit period notes now2 hfor hl1]
  cases m
  simp_all

/-- The store keys are unchanged by the update branch and extended by the key of the
new measurement in the append branch. -/
theorem saveMeasurement_keys (ms : List Measurement) (kpiID : Int) (value : F64)
    (unit : String) (period : Time) (notes : String) (now : Time) :
    ((∃ m ∈ ms, isFor m kpiID period) ∧
      (saveMeasurement ms kpiID value unit period notes now).map monthKey =
        ms.map monthKey) ∨
    ((∀ x ∈ ms, ¬ isFor x kpiID period) ∧
      (saveMeasurement ms kpiID value unit period notes now).map monthKey =
        ms.map monthKey ++ [(kpiID, period.Year, period.Month)]) := by
  rcases saveMeasurement_cases ms kpiID value unit period notes now with
    ⟨l1, m, l2, hsplit, hfor, hl1, hsave⟩ | ⟨hnone, hsave⟩
  · left
    refine ⟨⟨m, by rw [hsplit]; simp, hfor⟩, ?_⟩
    rw [hsave, hsplit]
    simp [monthKey]
  · right
    refine ⟨hnone, ?_⟩
    rw [hsave]
    simp [monthKey]

/-- The count of measurements for a KPI and month reads only the store keys. -/
theorem countFor_eq_count (ms : List Measurement) (kpiID : Int) (period : Time) :
    countFor ms kpiID period =
      (ms.map monthKey).count (kpiID, period.Year, period.Month) := by
  induction ms with
  | nil => rfl
  | cons a rest ih =>
    unfold countFor at ih ⊢
    rw [List.map_cons, List.count_cons, ← ih, List.filter_cons]
    by_cases h : isFor a kpiID period
    · have hk : monthKey a = (kpiID, period.Year, period.Month) := by
        obtain ⟨h1, h2, h3⟩ := h
        simp [monthKey, h1, h2, h3]
      simp [h, hk]
    · have hk : ¬ (monthKey a = (kpiID, period.Year, period.Month)) := by
        intro hk
        apply h
        simp only [monthKey, Prod.mk.injEq] at hk
        exact hk
      simp [h, hk]

/-! ## Measurement store: references and idempotence -/

/-- Counterexample to C17: with KPI 1 as the only KPI, `saveMeasurement` for the unknown
KPI 99 on the empty store returns no error and stores a measurement. -/
theorem saveMeasurement_invalid_reference_counterexample :
    (∀ k ∈ [mkKPI 1 "≤" (F64.fin 3) (F64.fin 70)], k.ID ≠ 99) ∧
    saveMeasurement [] 99 (F64.fin 6) "days" (firstOfMonth 2025 2) "" (firstOfMonth 2025 3) =
      [{ ID := 1, KPIID := 99, MetricValue := F64.fin 6, Unit := "days",
         Period := firstOfMonth 2025 2, Notes := "", CreatedAt := firstOfMonth 2025 3 }] ∧
    saveMeasurement [] 99 (F64.fin 6) "days" (firstOfMonth 2025 2) "" (firstOfMonth 2025 3) ≠
      [] := by
  refine ⟨by simp [mkKPI], rfl, ?_⟩
  simp [saveMeasurement, getExistingMeasurementIndex]

/-- Claim C17 (amended): for every kpiID that is not the ID of any KPI in the dataset,
the `createMeasurement` handler rejects the decoded request with the error
"Invalid KPI ID" (status 400) and leaves the measurement collection unchanged;
`saveMeasurement` itself checks no reference and reports no error: when the store holds
no measurement of that kpiID it appends one for it. -/
theorem createMeasurement_invalid_reference (kpis : List KPI) (ms : List Measurement)
    (req : MeasurementRequest) (now : Time) (excelError : Option String)
    (h : ∀ k ∈ kpis, k.ID ≠ req.KPIID) :
    createMeasurement kpis ms (some req) now excelError =
      (Response.httpError "Invalid KPI ID" 400, ms) ∧
    ((∀ m ∈ ms, m.KPIID ≠ req.KPIID) →
      saveMeasurement ms req.KPIID req.MetricValue req.Unit req.Period req.Notes now =
        ms ++ [{ ID := newID ms, KPIID := req.KPIID, MetricValue := req.MetricValue,
                 Unit := req.Unit, Period := req.Period, Notes := req.Notes,
                 CreatedAt := now }]) := by
  constructor
  · have hany : kpis.any (fun kpi => decide (kpi.ID = req.KPIID)) = false := by
      rw [List.any_eq_false]
      intro k hk
      simpa using h k hk
    simp [createMeasurement, hany]
  · intro hms
    apply saveMeasurement_of_none
    intro x hx hfor
    exact hms x hx hfor.1

/-- Witness of C17 (amended): a request for the unknown KPI 99 is rejected and the
store stays empty. -/
theorem createMeasurement_invalid_reference_witness :
    (∀ k ∈ [mkKPI 1 "≤" (F64.fin 3) (F64.fin 70)], k.ID ≠ 99) ∧
    createMeasurement [mkKPI 1 "≤" (F64.fin 3) (F64.fin 70)] []
      (some { KPIID := 99, MetricValue := F64.fin 6, Unit := "days",
              Period := firstOfMonth 2025 2, Notes := "" })
      (firstOfMonth 2025 3) none = (Response.httpError "Invalid KPI ID" 400, []) :=
  ⟨by simp [mkKPI],
    (createMeasurement_invalid_reference [mkKPI 1 "≤" (F64.fin 3) (F64.fin 70)] []
      { KPIID := 99, MetricValue := F64.fin 6, Unit := "days",
        Period := firstOfMonth 2025 2, Notes := "" }
      (firstOfMonth 2025 3) none (by simp [mkKPI])).1⟩

/-- Counterexample to C18: a store that already holds two measurements of KPI 1 for
February 2025 still holds two, not one, after the same save is made twice. -/
theorem saveMeasurement_idempotent_counterexample :
    countFor
      (saveMeasurement
        (saveMeasurement
          [mkMeasurement 1 1 (F64.fin 2) (firstOfMonth 2025 2),
            mkMeasurement 2 1 (F64.fin 3) (firstOfMonth 2025 2)]
          1 (F64.fin 6) "days" (firstOfMonth 2025 2) "late" (firstOfMonth 2025 3))
        1 (F64.fin 6) "days" (firstOfMonth 2025 2) "late" (firstOfMonth 2025 3))
      1 (firstOfMonth 2025 2) = 2 ∧
    countFor
      (saveMeasurement
        (saveMeasurement
          [mkMeasurement 1 1 (F64.fin 2) (firstOfMonth 2025 2),
            mkMeasurement 2 1 (F64.fin 3) (firstOfMonth 2025 2)]
          1 (F64.fin 6) "days" (firstOfMonth 2025 2) "late" (firstOfMonth 2025 3))
        1 (F64.fin 6) "days" (firstOfMonth 2025 2) "late" (firstOfMonth 2025 3))
      1 (firstOfMonth 2025 2) ≠ 1 := by
  have h : countFor
      (saveMeasurement
        (saveMeasurement
          [mkMeasurement 1 1 (F64.fin 2) (firstOfMonth 2025 2),
            mkMeasurement 2 1 (F64.fin 3) (firstOfMonth 2025 2)]
          1 (F64.fin 6) "days" (firstOfMonth 2025 2) "late" (firstOfMonth 2025 3))
        1 (F64.fin 6) "days" (firstOfMonth 2025 2) "late" (firstOfMonth 2025 3))
      1 (firstOfMonth 2025 2) = 2 := by
    simp [saveMeasurement, getExistingMeasurementIndex, updateAt, countFor, isFor,
      mkMeasurement]
  exact ⟨h, by rw [h]; decide⟩

/-- Claim C18 (amended): `saveMeasurement` is idempotent: calling it twice with the same
arguments leaves the store exactly as after the first call, so the second call adds no
measurement and the measurement found for (kpiID, month of period) is the same, with
the same ID, after the first and after the second call; the store then holds exactly
one measurement for (kpiID, month of period) whenever it held at most one before the
first call. -/
theorem saveMeasurement_idempotent (ms : List Measurement) (kpiID : Int) (value : F64)
    (unit : String) (period : Time) (notes : String) (now1 now2 : Time) :
    saveMeasurement (saveMeasurement ms kpiID value unit period notes now1) kpiID value unit
      period notes now2 = saveMeasurement ms kpiID value unit period notes now1 ∧
    countFor (saveMeasurement (saveMeasurement ms kpiID value unit period notes now1) kpiID
      value unit period notes now2) kpiID period =
      countFor (saveMeasurement ms kpiID value unit period notes now1) kpiID period ∧
    (∃ m, getExistingMeasurement (saveMeasurement ms kpiID value unit period notes now1)
        kpiID period = some m ∧
      getExistingMeasurement (saveMeasurement (saveMeasurement ms kpiID value unit period
        notes now1) kpiID value unit period notes now2) kpiID period = some m) ∧
    (countFor ms kpiID period ≤ 1 →
      countFor (saveMeasurement (saveMeasurement ms kpiID value unit period notes now1)
        kpiID value unit period notes now2) kpiID period = 1) := by
  have htwice := saveMeasurement_twice ms kpiID value unit period notes now1 now2
  refine ⟨htwice, by rw [htwice], ?_, ?_⟩
  · obtain ⟨l1, m, l2, hsave, hfor, hl1, _⟩ :=
      saveMeasurement_split ms kpiID value unit period notes now1
    refine ⟨m, ?_, ?_⟩
    · rw [hsave]
      exact getExistingMeasurement_of_split l1 l2 m kpiID period hfor hl1
    · rw [htwice, hsave]
      exact getExistingMeasurement_of_split l1 l2 m kpiID period hfor hl1
  · intro hcount
    rw [htwice, countFor_eq_count]
    rw [countFor_eq_count] at hcount
    rcases saveMeasurement_keys ms kpiID value unit period notes now1 with
      ⟨⟨m, hm, hfor⟩, hkeys⟩ | ⟨hnone, hkeys⟩
    · rw [hkeys]
      have hpos : 0 < (ms.map monthKey).count (kpiID, period.Year, period.Month) := by
        rw [List.count_pos_iff]
        refine List.mem_map.mpr ⟨m, hm, ?_⟩
        obtain ⟨h1, h2, h3⟩ := hfor
        simp [monthKey, h1, h2, h3]
      omega
    · rw [hkeys, List.count_append]
      have hzero : (ms.map monthKey).count (kpiID, period.Year, period.Month) = 0 := by
        rw [List.count_eq_zero]
        intro hmem
        obtain ⟨x, hx, hk⟩ := List.mem_map.mp hmem
        apply hnone x hx
        simp only [monthKey, Prod.mk.injEq] at hk
        exact hk
      rw [hzero]
      simp

/-- Witness of C18 (amended): on the empty store two equal saves leave one
measurement. -/
theorem saveMeasurement_idempotent_witness :
    countFor [] 1 (firstOfMonth 2025 2) ≤ 1 ∧
    countFor
      (saveMeasurement
        (saveMeasurement [] 1 (F64.fin 6) "days" (firstOfMonth 2025 2) "late"
          (firstOfMonth 2025 3))
        1 (F64.fin 6) "days" (firstOfMonth 2025 2) "late" (firstOfMonth 2025 4))
      1 (firstOfMonth 2025 2) = 1 :=
  ⟨by decide,
    (saveMeasurement_idempotent [] 1 (F64.fin 6) "days" (firstOfMonth 2025 2) "late"
      (firstOfMonth 2025 3) (firstOfMonth 2025 4)).2.2.2 (by decide)⟩

/-! ## Measurement store: uniqueness per KPI and month -/

/-- Uniqueness per KPI and month says that the store keys have no duplicate. -/
theorem uniquePerKPIMonth_iff_nodup (ms : List Measurement) :
    uniquePerKPIMonth ms ↔ (ms.map monthKey).Nodup := by
  unfold uniquePerKPIMonth List.Nodup
  rw [List.pairwise_map]
  apply Iff.intro
  · intro h
    refine h.imp ?_
    intro a b hab hk
    apply hab
    simp only [monthKey, Prod.mk.injEq] at hk
    exact hk
  · intro h
    refine h.imp ?_
    intro a b hab hk
    apply hab
    obtain ⟨h1, h2, h3⟩ := hk
    simp [monthKey, h1, h2, h3]

/-- One `saveMeasurement` call keeps the store unique per KPI and month. -/
theorem saveMeasurement_preserves_unique (ms : List Measurement) (kpiID : Int)
    (value : F64) (unit : String) (period : Time) (notes : String) (now : Time)
    (h : uniquePerKPIMonth ms) :
    uniquePerKPIMonth (saveMeasurement ms kpiID value unit period notes now) := by
  rw [uniquePerKPIMonth_iff_nodup] at h ⊢
  rcases saveMeasurement_keys ms kpiID value unit period notes now with
    ⟨_, hkeys⟩ | ⟨hnone, hkeys⟩
  · rw [hkeys]
    exact h
  · rw [hkeys]
    rw [List.nodup_append]
    refine ⟨h, List.nodup_singleton _, ?_⟩
    intro k hk1 hk2
    rw [List.mem_singleton] at hk2
    obtain ⟨x, hx, hxk⟩ := List.mem_map.mp hk1
    apply hnone x hx
    rw [hk2] at hxk
    simp only [monthKey, Prod.mk.injEq] at hxk
    exact hxk

/-- Any sequence of `saveMeasurement` calls keeps the store unique per KPI and month. -/
theorem saveAll_preserves_unique (calls : List SaveCall) (ms : List Measurement)
    (h : uniquePerKPIMonth ms) : uniquePerKPIMonth (saveAll ms calls) := by
  induction calls generalizing ms with
  | nil => exact h
  | cons c rest ih =>
    unfold saveAll
    rw [List.foldl_cons]
    exact ih _ (saveMeasurement_preserves_unique ms c.kpiID c.value c.unit c.period c.notes
      c.now h)

/-- Claim C19: uniqueness is an invariant of `saveMeasurement`: if the store holds at
most one measurement per (KPIID, Period year, Period month), it still does after any
`saveMeasurement` call; hence, starting from the empty store, after any finite sequence
of `saveMeasurement` calls no two stored measurements share the same KPIID, year and
month. -/
theorem saveMeasurement_uniqueness_invariant :
    (∀ (ms : List Measurement) (kpiID : Int) (value : F64) (unit : String) (period : Time)
        (notes : String) (now : Time),
      uniquePerKPIMonth ms →
        uniquePerKPIMonth (saveMeasurement ms kpiID value unit period notes now)) ∧
    (∀ calls : List SaveCall,
      ∀ i j : Nat, i < j → ∀ a b : Measurement,
        (saveAll [] calls)[i]? = some a → (saveAll [] calls)[j]? = some b →
        ¬ (a.KPIID = b.KPIID ∧ a.Period.Year = b.Period.Year ∧
          a.Period.Month = b.Period.Month)) := by
  refine ⟨saveMeasurement_preserves_unique, ?_⟩
  intro calls i j hij a b ha hb
  have huniq : uniquePerKPIMonth (saveAll [] calls) :=
    saveAll_preserves_unique calls [] List.Pairwise.nil
  obtain ⟨hi, hai⟩ := List.getElem?_eq_some_iff.mp ha
  obtain ⟨hj, hbj⟩ := List.getElem?_eq_some_iff.mp hb
  have := (List.pairwise_iff_getElem.mp huniq) i j hi hj hij
  rw [hai, hbj] at this
  exact this

/-- Witness of C19: after three saves, two of them for the same KPI and month, the two
stored measurements differ in KPI or month. -/
theorem saveMeasurement_uniqueness_invariant_witness :
    uniquePerKPIMonth
      (saveMeasurement
        (saveAll []
          [{ kpiID := 1, value := F64.fin 2, unit := "days", period := firstOfMonth 2025 2,
             notes := "", now := firstOfMonth 2025 3 },
           { kpiID := 1, value := F64.fin 6, unit := "days", period := firstOfMonth 2025 2,
             notes := "late", now := firstOfMonth 2025 3 }])
        2 (F64.fin 9) "%" (firstOfMonth 2025 2) "" (firstOfMonth 2025 3)) :=
  saveMeasurement_uniqueness_invariant.1 _ 2 (F64.fin 9) "%" (firstOfMonth 2025 2) ""
    (firstOfMonth 2025 3) (by
      rw [uniquePerKPIMonth_iff_nodup]
      simp [saveAll, saveMeasurement, getExistingMeasurementIndex, updateAt, monthKey])

/-! ## Measurement store: IDs -/

/-- The stored IDs are unchanged by the update branch and extended by `newID` in the
append branch. -/
theorem saveMeasurement_ids (ms : List Measurement) (kpiID : Int) (value : F64)
    (unit : String) (period : Time) (notes : String) (now : Time) :
    (saveMeasurement ms kpiID value unit period notes now).map (fun m => m.ID) =
        ms.map (fun m => m.ID) ∨
    ((∀ x ∈ ms, ¬ isFor x kpiID period) ∧
      (saveMeasurement ms kpiID value unit period notes now).map (fun m => m.ID) =
        ms.map (fun m => m.ID) ++ [newID ms]) := by
  rcases saveMeasurement_cases ms kpiID value unit period notes now with
    ⟨l1, m, l2, hsplit, _, _, hsave⟩ | ⟨hnone, hsave⟩
  · left
    rw [hsave, hsplit]
    simp
  · right
    refine ⟨hnone, ?_⟩
    rw [hsave]
    simp

/-- Counterexample to C20: a store whose only measurement has the ID `math.MaxInt64`
(positive, pairwise distinct).  Saving a measurement of another month appends one whose
ID is `MaxInt64 + 1` wrapped around, `-2^63`: not positive and not greater than the ID
that was in the store. -/
theorem saveMeasurement_ids_invariant_counterexample :
    (∀ m ∈ [mkMeasurement 9223372036854775807 1 (F64.fin 2) (firstOfMonth 2025 2)],
      0 < m.ID) ∧
    (([mkMeasurement 9223372036854775807 1 (F64.fin 2) (firstOfMonth 2025 2)].map
      (fun m => m.ID)).Nodup) ∧
    saveMeasurement [mkMeasurement 9223372036854775807 1 (F64.fin 2) (firstOfMonth 2025 2)]
        1 (F64.fin 6) "days" (firstOfMonth 2025 3) "late" (firstOfMonth 2025 4) =
      [mkMeasurement 9223372036854775807 1 (F64.fin 2) (firstOfMonth 2025 2),
        { ID := -9223372036854775808, KPIID := 1, MetricValue := F64.fin 6, Unit := "days",
          Period := firstOfMonth 2025 3, Notes := "late",
          CreatedAt := firstOfMonth 2025 4 }] ∧
    ¬ (∀ m ∈ saveMeasurement
        [mkMeasurement 9223372036854775807 1 (F64.fin 2) (firstOfMonth 2025 2)]
        1 (F64.fin 6) "days" (firstOfMonth 2025 3) "late" (firstOfMonth 2025 4), 0 < m.ID) ∧
    ¬ ((9223372036854775807 : Int) < -9223372036854775808) := by
  have h : saveMeasurement
      [mkMeasurement 9223372036854775807 1 (F64.fin 2) (firstOfMonth 2025 2)]
        1 (F64.fin 6) "days" (firstOfMonth 2025 3) "late" (firstOfMonth 2025 4) =
      [mkMeasurement 9223372036854775807 1 (F64.fin 2) (firstOfMonth 2025 2),
        { ID := -9223372036854775808, KPIID := 1, MetricValue := F64.fin 6, Unit := "days",
          Period := firstOfMonth 2025 3, Notes := "late",
          CreatedAt := firstOfMonth 2025 4 }] := by decide
  refine ⟨by simp [mkMeasurement], by simp [mkMeasurement], h, ?_, by decide⟩
  rw [h]
  simp [mkMeasurement]

/-- Claim C20 (amended): measurement IDs stay positive, unique and increasing while they
are below `math.MaxInt64`: if all stored measurement IDs are positive, below
`math.MaxInt64` and pairwise distinct, then after any `saveMeasurement` call they are
still positive and pairwise distinct, no existing measurement's ID has changed, and a
newly created measurement's ID is strictly greater than every ID that was in the store
before the call. -/
theorem saveMeasurement_ids_invariant (ms : List Measurement) (kpiID : Int) (value : F64)
    (unit : String) (period : Time) (notes : String) (now : Time)
    (hpos : ∀ m ∈ ms, 0 < m.ID) (hmax : ∀ m ∈ ms, m.ID < maxInt)
    (hdistinct : (ms.map (fun m => m.ID)).Nodup) :
    (∀ m ∈ saveMeasurement ms kpiID value unit period notes now, 0 < m.ID) ∧
    ((saveMeasurement ms kpiID value unit period notes now).map (fun m => m.ID)).Nodup ∧
    (((saveMeasurement ms kpiID value unit period notes now).take ms.length).map
      (fun m => m.ID) = ms.map (fun m => m.ID)) ∧
    (∀ created : Measurement,
      saveMeasurement ms kpiID value unit period notes now = ms ++ [created] →
      ∀ m ∈ ms, m.ID < created.ID) := by
  have hr : ∀ m ∈ ms, -9223372036854775808 ≤ m.ID ∧ m.ID < maxInt := by
    intro m hm
    have := hpos m hm
    exact ⟨by omega, hmax m hm⟩
  have hids := saveMeasurement_ids ms kpiID value unit period notes now
  have hmem : ∀ m ∈ saveMeasurement ms kpiID value unit period notes now,
      m.ID ∈ (saveMeasurement ms kpiID value unit period notes now).map (fun m => m.ID) :=
    fun m hm => List.mem_map.mpr ⟨m, hm, rfl⟩
  have hposIds : ∀ i ∈ ms.map (fun m => m.ID), 0 < i := by
    intro i hi
    obtain ⟨x, hx, rfl⟩ := List.mem_map.mp hi
    exact hpos x hx
  have hgtIds : ∀ i ∈ ms.map (fun m => m.ID), i < newID ms := by
    intro i hi
    obtain ⟨x, hx, rfl⟩ := List.mem_map.mp hi
    exact newID_gt ms hr x hx
  refine ⟨?_, ?_, ?_, ?_⟩
  · intro m hm
    have hm2 := hmem m hm
    rcases hids with h | ⟨_, h⟩
    · rw [h] at hm2
      exact hposIds _ hm2
    · rw [h, List.mem_append, List.mem_singleton] at hm2
      rcases hm2 with hm2 | hm2
      · exact hposIds _ hm2
      · have := newID_pos ms hr
        omega
  · rcases hids with h | ⟨_, h⟩
    · rw [h]
      exact hdistinct
    · rw [h, List.nodup_append]
      refine ⟨hdistinct, List.nodup_singleton _, ?_⟩
      intro i hi1 hi2
      rw [List.mem_singleton] at hi2
      have := hgtIds i hi1
      omega
  · rw [List.map_take]
    rcases hids with h | ⟨_, h⟩
    · rw [h]
      have hlen : ms.length = (ms.map (fun m => m.ID)).length := by simp
      rw [hlen, List.take_length]
    · rw [h]
      have hlen : ms.length = (ms.map (fun m => m.ID)).length := by simp
      rw [hlen, List.take_left]
  · intro created hsave m hm
    rcases hids with h | ⟨_, h⟩
    · have := congrArg List.length h
      rw [hsave] at this
      simp at this
    · rw [hsave] at h
      simp only [List.map_append, List.map_cons, List.map_nil] at h
      have hc : created.ID = newID ms := by
        have := List.append_cancel_left h
        simpa using this
      rw [hc]
      exact newID_gt ms hr m hm

/-- Witness of C20: saving a March measurement into a store with IDs 1 and 5 keeps all
IDs positive. -/
theorem saveMeasurement_ids_invariant_witness :
    (∀ m ∈ [mkMeasurement 1 2 (F64.fin 4) (firstOfMonth 2025 2),
        mkMeasurement 5 1 (F64.fin 2) (firstOfMonth 2025 2)], 0 < m.ID) ∧
    (∀ m ∈ [mkMeasurement 1 2 (F64.fin 4) (firstOfMonth 2025 2),
        mkMeasurement 5 1 (F64.fin 2) (firstOfMonth 2025 2)], m.ID < maxInt) ∧
    (([mkMeasurement 1 2 (F64.fin 4) (firstOfMonth 2025 2),
        mkMeasurement 5 1 (F64.fin 2) (firstOfMonth 2025 2)].map (fun m => m.ID)).Nodup) ∧
    (∀ m ∈ saveMeasurement
        [mkMeasurement 1 2 (F64.fin 4) (firstOfMonth 2025 2),
          mkMeasurement 5 1 (F64.fin 2) (firstOfMonth 2025 2)] 1 (F64.fin 6) "days"
        (firstOfMonth 2025 3) "late" (firstOfMonth 2025 4), 0 < m.ID) :=
  ⟨by simp [mkMeasurement], by simp [mkMeasurement, maxInt], by simp [mkMeasurement],
    (saveMeasurement_ids_invariant
      [mkMeasurement 1 2 (F64.fin 4) (firstOfMonth 2025 2),
        mkMeasurement 5 1 (F64.fin 2) (firstOfMonth 2025 2)] 1 (F64.fin 6) "days"
      (firstOfMonth 2025 3) "late" (firstOfMonth 2025 4)
      (by simp [mkMeasurement]) (by simp [mkMeasurement, maxInt])
      (by simp [mkMeasurement])).1⟩

/-! ## Calendar arithmetic -/

/-- Values of the time model: 1 January 1970 UTC is the instant 0 and the zero
`time.Time` is 1 January of year 1; a timestamp with offset `+05:00` is five hours before
the same civil time in UTC; `time.Date` carries month 13 into the next year and 30
February 2024 into 1 March; in `America/Asuncion` midnight of 1 October 2017 does not
exist and `time.Date` returns 30 September, 23:00. -/
theorem time_examples :
    (firstOfMonth 1970 1).instant = 0 ∧
    Time.IsZero { year := 1, month := 1, day := 1, nsec := 0 } = true ∧
    (firstOfMonth 2025 3).instant - (firstOfMonthAt 18000 2025 3).instant =
      18000 * 1000000000 ∧
    Date 2025 13 1 0 Location.utc = firstOfMonth 2026 1 ∧
    Date 2024 2 30 0 Location.utc = firstOfMonth 2024 3 ∧
    Date 2017 10 1 0 asuncion =
      { year := 2017, month := 9, day := 30, nsec := 82800000000000, offset := -14400,
        loc := asuncion } ∧
    Date 2017 11 1 0 asuncion =
      { year := 2017, month := 11, day := 1, nsec := 0, offset := -10800,
        loc := asuncion } := by
  refine ⟨by decide, by decide, by decide, by decide, by decide, by decide, by decide⟩

/-- Every month has at least 28 days. -/
theorem daysIn_ge (year : Int) (month : Nat) : 28 ≤ daysIn year month := by
  unfold daysIn
  split_ifs <;> omega

/-- The leap-year test as a proposition. -/
theorem isLeap_iff (y : Int) : isLeap y = true ↔ (y % 4 = 0 ∧ (y % 100 ≠ 0 ∨ y % 400 = 0)) := by
  simp [isLeap]

/-- The first of the next month comes after the days of the month. -/
theorem monthStartDay_succ (i : Int) :
    monthStartDay (i + 1) = monthStartDay i + (daysIn (i / 12) ((i % 12).toNat + 1) : Int) := by
  have hr0 : 0 ≤ i % 12 := Int.emod_nonneg i (by norm_num)
  have hr1 : i % 12 < 12 := Int.emod_lt_of_pos i (by norm_num)
  obtain ⟨r, hr⟩ : ∃ r : Nat, (r : Int) = i % 12 := ⟨(i % 12).toNat, Int.toNat_of_nonneg hr0⟩
  have hrt : (i % 12).toNat = r := by rw [← hr]; exact Int.toNat_natCast r
  have hr12 : r < 12 := by omega
  by_cases h11 : r = 11
  · have hq : (i + 1) / 12 = i / 12 + 1 := by omega
    have hm : (i + 1) % 12 = 0 := by omega
    unfold monthStartDay
    rw [hq, hm, hrt, h11]
    simp only [daysBeforeMonth, daysBeforeYear, daysIn, isLeap_iff]
    by_cases hl : (i / 12 % 4 = 0 ∧ (i / 12 % 100 ≠ 0 ∨ i / 12 % 400 = 0))
    · simp [hl]
      omega
    · simp [hl]
      omega
  · have hq : (i + 1) / 12 = i / 12 := by omega
    have hm : (i + 1) % 12 = ((r + 1 : Nat) : Int) := by push_cast; omega
    unfold monthStartDay
    rw [hq, hm, hrt, Int.toNat_natCast]
    simp only [daysBeforeMonth, daysIn, isLeap_iff]
    by_cases hl : (i / 12 % 4 = 0 ∧ (i / 12 % 100 ≠ 0 ∨ i / 12 % 400 = 0))
    · interval_cases r <;> simp [hl] <;> omega
    · interval_cases r <;> simp [hl] <;> omega


/-- A day within the first 28 needs no normalisation. -/
theorem normDay_of_le (fuel : Nat) (year : Int) (month day nsec : Nat) (h : day ≤ 28) :
    normDay fuel year month day nsec =
      { year := year, month := month, day := day, nsec := nsec } := by
  cases fuel with
  | zero => rfl
  | succ f =>
    have := daysIn_ge year month
    have hn : ¬ (day > daysIn year month) := by omega
    simp only [normDay, hn, if_false]

/-- The first of a later month is at least 28 days per month later. -/
theorem monthStartDay_add (i : Int) (n : Nat) :
    monthStartDay i + 28 * (n : Int) ≤ monthStartDay (i + (n : Int)) := by
  induction n with
  | zero => simp
  | succ n ih =>
    have hstep := monthStartDay_succ (i + (n : Int))
    have hge := daysIn_ge ((i + (n : Int)) / 12) (((i + (n : Int)) % 12).toNat + 1)
    have hcast : i + ((n + 1 : Nat) : Int) = i + (n : Int) + 1 := by push_cast; ring
    rw [hcast, hstep]
    push_cast
    omega

/-- The firsts of the months are in the order of the month line. -/
theorem monthStartDay_mono (i j : Int) (h : i ≤ j) : monthStartDay i ≤ monthStartDay j := by
  have := monthStartDay_add i (j - i).toNat
  have hc : i + ((j - i).toNat : Int) = j := by omega
  rw [hc] at this
  omega

/-- The first of a later month is a later day. -/
theorem monthStartDay_lt (i j : Int) (h : i < j) : monthStartDay i < monthStartDay j := by
  have := monthStartDay_add i (j - i).toNat
  have hc : i + ((j - i).toNat : Int) = j := by omega
  rw [hc] at this
  omega

/-- The zone found in a location without transitions. -/
theorem lookup_fixedZone (z sec : Int) :
    (fixedZone z).lookup sec = { offset := z, start := none, stop := none } := rfl

/-- In a location without transitions `time.Date` keeps the civil time asked for. -/
theorem date_fixedZone (year month : Int) (day nsec : Nat) (z : Int) :
    Date year month day nsec (fixedZone z) =
      { normDay day (year + (month - 1) / 12) (((month - 1) % 12).toNat + 1) day nsec with
        offset := z, loc := fixedZone z } := by
  unfold Date
  simp only [lookup_fixedZone, ZoneSpan.excludes]
  by_cases hz : z = 0
  · simp [hz]
  · simp [hz]

/-- The fields of the first of a month on the month line. -/
theorem monthOfIndexAt_fields (z i : Int) :
    monthOfIndexAt z i =
      { year := i / 12, month := (i % 12).toNat + 1, day := 1, nsec := 0, offset := z,
        loc := fixedZone z } :=
  rfl

/-- The instant of the first of a month on the month line. -/
theorem instant_monthOfIndexAt (z i : Int) :
    (monthOfIndexAt z i).instant = ((monthStartDay i - 719162) * 86400 - z) * 1000000000 := by
  simp [monthOfIndexAt_fields, Time.instant, Time.Unix, civilSeconds, monthStartDay]

/-- The day of a valid time counted from the first of its month. -/
theorem instant_of_valid (e : Time) (hm1 : 1 ≤ e.month) (hm12 : e.month ≤ 12) :
    e.instant =
      ((monthStartDay (monthIndex e) + ((e.day : Int) - 1) - 719162) * 86400 +
        ((e.nsec / 1000000000 : Nat) : Int) - e.offset) * 1000000000 +
        ((e.nsec % 1000000000 : Nat) : Int) := by
  have hq : (12 * e.year + ((e.month : Int) - 1)) / 12 = e.year := by omega
  have hr : (12 * e.year + ((e.month : Int) - 1)) % 12 = ((e.month - 1 : Nat) : Int) := by omega
  have hmo : e.month - 1 + 1 = e.month := by omega
  simp only [Time.instant, Time.Unix, civilSeconds, monthStartDay, monthIndex, hq, hr,
    Int.toNat_natCast, hmo]

/-- Advancing the first of a month by `AddDate(0, 1, 0)` gives the first of the next
month, in a location without transitions. -/
theorem addDate_monthOfIndexAt (z i : Int) :
    (monthOfIndexAt z i).AddDate 0 1 0 = monthOfIndexAt z (i + 1) := by
  have hr0 : 0 ≤ i % 12 := Int.emod_nonneg i (by norm_num)
  have hr1 : i % 12 < 12 := Int.emod_lt_of_pos i (by norm_num)
  have hcast : (((i % 12).toNat + 1 : Nat) : Int) = i % 12 + 1 := by
    rw [Nat.cast_add, Int.toNat_of_nonneg hr0]
    rfl
  rw [monthOfIndexAt_fields, monthOfIndexAt_fields]
  simp only [Time.AddDate, add_zero]
  rw [date_fixedZone, normDay_of_le _ _ _ _ _ (by norm_num), hcast]
  have hy : i / 12 + (i % 12 + 1 + 1 - 1) / 12 = (i + 1) / 12 := by omega
  have hm : ((i % 12 + 1 + 1 - 1) % 12).toNat + 1 = ((i + 1) % 12).toNat + 1 := by
    have : (i % 12 + 1 + 1 - 1) % 12 = (i + 1) % 12 := by omega
    rw [this]
  rw [hy, hm]

/-- The first of a month is before or equal to a valid time of the same offset exactly
when its month is not after the month of that time. -/
theorem monthOfIndexAt_le_iff (z i : Int) (e : Time) (hz : e.offset = z)
    (hm1 : 1 ≤ e.month) (hm12 : e.month ≤ 12) (hd1 : 1 ≤ e.day)
    (hd2 : e.day ≤ daysIn e.year e.month) (hn : e.nsec < 86400000000000) :
    ((monthOfIndexAt z i).Before e || (monthOfIndexAt z i).Equal e) = true ↔
      i ≤ monthIndex e := by
  have hq : monthIndex e / 12 = e.year := by unfold monthIndex; omega
  have hr : monthIndex e % 12 = ((e.month - 1 : Nat) : Int) := by unfold monthIndex; omega
  have hmo : e.month - 1 + 1 = e.month := by omega
  have hnext := monthStartDay_succ (monthIndex e)
  rw [hq, hr, Int.toNat_natCast, hmo] at hnext
  simp only [Time.Before, Time.Equal, Bool.or_eq_true, decide_eq_true_eq,
    instant_monthOfIndexAt, instant_of_valid e hm1 hm12, hz]
  have hs : (e.nsec / 1000000000 : Nat) < 86400 := by omega
  have hf : (e.nsec % 1000000000 : Nat) < 1000000000 := Nat.mod_lt _ (by norm_num)
  constructor
  · intro h
    by_contra hlt
    have hlt2 : monthIndex e + 1 ≤ i := by omega
    have hmono := monthStartDay_mono _ _ hlt2
    omega
  · intro h
    have hmono := monthStartDay_mono _ _ h
    omega


/-! ## Month loop -/

/-- The month loop started on the first of a month visits the first of every month up
to the month of a valid end of the same fixed offset, and stops there whatever fuel is
left. -/
theorem monthLoop_monthOfIndexAt (z : Int) (n : Nat) (i : Int) (e : Time) (hz : e.offset = z)
    (hm1 : 1 ≤ e.month) (hm12 : e.month ≤ 12) (hd1 : 1 ≤ e.day)
    (hd2 : e.day ≤ daysIn e.year e.month) (hns : e.nsec < 86400000000000)
    (hn : monthIndex e - i + 1 = (n : Int))
    (fuel : Nat) (hfuel : n ≤ fuel) :
    monthLoop fuel (monthOfIndexAt z i) e =
      (List.range n).map (fun (k : Nat) => monthOfIndexAt z (i + (k : Int))) := by
  induction n generalizing i fuel with
  | zero =>
    have hcond : ¬ (((monthOfIndexAt z i).Before e || (monthOfIndexAt z i).Equal e) = true) := by
      rw [monthOfIndexAt_le_iff z i e hz hm1 hm12 hd1 hd2 hns]
      omega
    cases fuel with
    | zero => rfl
    | succ f => simp [monthLoop, hcond]
  | succ n ih =>
    obtain ⟨f, rfl⟩ : ∃ f, fuel = f + 1 := ⟨fuel - 1, by omega⟩
    have hcond : ((monthOfIndexAt z i).Before e || (monthOfIndexAt z i).Equal e) = true := by
      rw [monthOfIndexAt_le_iff z i e hz hm1 hm12 hd1 hd2 hns]
      omega
    simp only [monthLoop, hcond, if_true]
    rw [addDate_monthOfIndexAt, ih (i + 1) (by push_cast at hn ⊢; omega) f (by omega),
      List.range_succ_eq_map, List.map_cons, List.map_map]
    congr 1
    · simp
    · apply List.map_congr_left
      intro k _
      simp only [Function.comp, Nat.succ_eq_add_one, Nat.cast_add, Nat.cast_one]
      congr 1
      ring

/-- The first of a valid month is the month of its position on the month line. -/
theorem monthOfIndexAt_firstOfMonthAt (z y : Int) (m : Nat) (h1 : 1 ≤ m) (h12 : m ≤ 12) :
    monthOfIndexAt z (12 * y + ((m : Int) - 1)) = firstOfMonthAt z y m := by
  unfold monthOfIndexAt
  have hq : (12 * y + ((m : Int) - 1)) / 12 = y := by omega
  have hr : (12 * y + ((m : Int) - 1)) % 12 = ((m - 1 : Nat) : Int) := by omega
  rw [hq, hr, Int.toNat_natCast]
  congr 1
  omega

/-- Later positions on the month line are later first-of-month instants. -/
theorem monthOfIndexAt_before (z i j : Int) (h : i < j) :
    (monthOfIndexAt z i).Before (monthOfIndexAt z j) = true := by
  have := monthStartDay_lt i j h
  simp only [Time.Before, decide_eq_true_eq, instant_monthOfIndexAt]
  omega

/-- The firsts of `n` consecutive months are in strictly ascending order. -/
theorem monthRange_pairwise (z i : Int) (n : Nat) :
    ((List.range n).map (fun (k : Nat) => monthOfIndexAt z (i + (k : Int)))).Pairwise
      (fun a b => a.Before b = true) := by
  rw [List.pairwise_map]
  refine List.Pairwise.imp ?_ (List.pairwise_lt_range n)
  intro a b hab
  exact monthOfIndexAt_before _ _ _ (by omega)

/-- The firsts of `n` consecutive months from position `i` are the firsts of the
calendar months whose position lies in `[i, i + n)`. -/
theorem mem_monthRange (z i : Int) (n : Nat) (t : Time) :
    t ∈ (List.range n).map (fun (k : Nat) => monthOfIndexAt z (i + (k : Int))) ↔
      ∃ (y : Int) (m : Nat), 1 ≤ m ∧ m ≤ 12 ∧ t = firstOfMonthAt z y m ∧
        i ≤ 12 * y + ((m : Int) - 1) ∧ 12 * y + ((m : Int) - 1) < i + n := by
  rw [List.mem_map]
  constructor
  · rintro ⟨k, hk, rfl⟩
    rw [List.mem_range] at hk
    have hr0 : 0 ≤ (i + (k : Int)) % 12 := Int.emod_nonneg _ (by norm_num)
    have hr1 : (i + (k : Int)) % 12 < 12 := Int.emod_lt_of_pos _ (by norm_num)
    obtain ⟨r, hr⟩ : ∃ r : Nat, (r : Int) = (i + (k : Int)) % 12 :=
      ⟨((i + (k : Int)) % 12).toNat, Int.toNat_of_nonneg hr0⟩
    have hrt : ((i + (k : Int)) % 12).toNat = r := by
      rw [← hr]
      exact Int.toNat_natCast r
    refine ⟨(i + (k : Int)) / 12, r + 1, by omega, by omega, ?_, by omega, by omega⟩
    rw [monthOfIndexAt_fields, hrt]
    rfl
  · rintro ⟨y, m, h1, h12, rfl, hlo, hhi⟩
    refine ⟨(12 * y + ((m : Int) - 1) - i).toNat, ?_, ?_⟩
    · rw [List.mem_range]
      omega
    · have : i + ((12 * y + ((m : Int) - 1) - i).toNat : Int) = 12 * y + ((m : Int) - 1) := by
        omega
      rw [this]
      exact monthOfIndexAt_firstOfMonthAt z y m h1 h12

/-! ## Month loop between first-of-month dates -/

/-- A first-of-month end that is not before a first-of-month start of the same offset is
in a month not before the month of the start. -/
theorem firstOfMonthAt_not_before (z ys ye : Int) (ms me : Nat)
    (hms1 : 1 ≤ ms) (hms12 : ms ≤ 12) (hme1 : 1 ≤ me) (hme12 : me ≤ 12)
    (hrange : (firstOfMonthAt z ye me).Before (firstOfMonthAt z ys ms) = false) :
    12 * ys + (ms : Int) ≤ 12 * ye + (me : Int) := by
  have hcond : ((monthOfIndexAt z (12 * ys + ((ms : Int) - 1))).Before (firstOfMonthAt z ye me) ||
      (monthOfIndexAt z (12 * ys + ((ms : Int) - 1))).Equal (firstOfMonthAt z ye me)) = true := by
    rw [monthOfIndexAt_firstOfMonthAt z ys ms hms1 hms12]
    simp only [Time.Before, Time.Equal, Bool.or_eq_true, decide_eq_true_eq,
      decide_eq_false_iff_not] at hrange ⊢
    omega
  have hge := daysIn_ge ye me
  rw [monthOfIndexAt_le_iff z _ (firstOfMonthAt z ye me) rfl hme1 hme12 (le_refl 1)
    (by simp only [firstOfMonthAt]; omega) (by simp [firstOfMonthAt])] at hcond
  simp only [monthIndex, firstOfMonthAt] at hcond
  omega

/-- Counterexample to C22: the start is 1 January 2025 at midnight UTC and the end is
1 March 2025 at midnight in the zone `+05:00`, which is 28 February 19:00 UTC.  Both are
the first day of a month and the end is not before the start, but the loop compares
instants and visits January and February only: two months instead of
`12 * 0 + (3 - 1) + 1 = 3`, and none of March.  The same happens within one location
when the time of day differs: from 1 January 10:00 to 1 March 09:00 (UTC) the loop
visits January and February only. -/
theorem monthLoop_first_of_month_counterexample :
    (firstOfMonthAt 18000 2025 3).Before (firstOfMonth 2025 1) = false ∧
    monthLoop 12 (firstOfMonth 2025 1) (firstOfMonthAt 18000 2025 3) =
      [firstOfMonth 2025 1, firstOfMonth 2025 2] ∧
    (monthLoop 12 (firstOfMonth 2025 1) (firstOfMonthAt 18000 2025 3)).length ≠ 3 ∧
    (∀ t ∈ monthLoop 12 (firstOfMonth 2025 1) (firstOfMonthAt 18000 2025 3),
      ¬ (t.Year = 2025 ∧ t.Month = 3)) ∧
    Time.Before { year := 2025, month := 3, day := 1, nsec := 32400000000000 }
      { year := 2025, month := 1, day := 1, nsec := 36000000000000 } = false ∧
    monthLoop 12 { year := 2025, month := 1, day := 1, nsec := 36000000000000 }
        { year := 2025, month := 3, day := 1, nsec := 32400000000000 } =
      [{ year := 2025, month := 1, day := 1, nsec := 36000000000000 },
       { year := 2025, month := 2, day := 1, nsec := 36000000000000 }] := by
  have h : monthLoop 12 (firstOfMonth 2025 1) (firstOfMonthAt 18000 2025 3) =
      [firstOfMonth 2025 1, firstOfMonth 2025 2] := by decide
  refine ⟨by decide, h, ?_, ?_, by decide, by decide⟩
  · rw [h]
    decide
  · rw [h]
    decide


/-- Claim C22 (amended): for every start and end that are both the first day of a month at
midnight in one location with a fixed offset from UTC, with end not before start, the
month loop of the reports visits exactly the calendar months from start through end
inclusive, each once and in ascending order, that is
`12 * (endYear - startYear) + (endMonth - startMonth) + 1` months, and it stops there;
for start January 2025 and end March 2025 (UTC) it visits exactly January, February and
March 2025. -/
theorem monthLoop_first_of_month (z ys ye : Int) (ms me : Nat)
    (hms1 : 1 ≤ ms) (hms12 : ms ≤ 12) (hme1 : 1 ≤ me) (hme12 : me ≤ 12)
    (hrange : (firstOfMonthAt z ye me).Before (firstOfMonthAt z ys ms) = false) :
    (∀ fuel : Nat, (12 * (ye - ys) + ((me : Int) - (ms : Int)) + 1).toNat ≤ fuel →
      monthLoop fuel (firstOfMonthAt z ys ms) (firstOfMonthAt z ye me) =
          (List.range (12 * (ye - ys) + ((me : Int) - (ms : Int)) + 1).toNat).map
            (fun (k : Nat) => monthOfIndexAt z (12 * ys + ((ms : Int) - 1) + (k : Int))) ∧
        ((monthLoop fuel (firstOfMonthAt z ys ms) (firstOfMonthAt z ye me)).length : Int) =
          12 * (ye - ys) + ((me : Int) - (ms : Int)) + 1 ∧
        (monthLoop fuel (firstOfMonthAt z ys ms) (firstOfMonthAt z ye me)).Pairwise
          (fun a b => a.Before b = true) ∧
        (∀ t : Time, t ∈ monthLoop fuel (firstOfMonthAt z ys ms) (firstOfMonthAt z ye me) ↔
          ∃ (y : Int) (m : Nat), 1 ≤ m ∧ m ≤ 12 ∧ t = firstOfMonthAt z y m ∧
            12 * ys + (ms : Int) ≤ 12 * y + (m : Int) ∧
            12 * y + (m : Int) ≤ 12 * ye + (me : Int))) ∧
    (∀ fuel : Nat, 3 ≤ fuel →
      monthLoop fuel (firstOfMonth 2025 1) (firstOfMonth 2025 3) =
        [firstOfMonth 2025 1, firstOfMonth 2025 2, firstOfMonth 2025 3]) := by
  have hle : 12 * ys + (ms : Int) ≤ 12 * ye + (me : Int) :=
    firstOfMonthAt_not_before z ys ye ms me hms1 hms12 hme1 hme12 hrange
  constructor
  · intro fuel hfuel
    have hge := daysIn_ge ye me
    have hloop := monthLoop_monthOfIndexAt z
      (12 * (ye - ys) + ((me : Int) - (ms : Int)) + 1).toNat
      (12 * ys + ((ms : Int) - 1)) (firstOfMonthAt z ye me) rfl hme1 hme12 (le_refl 1)
      (by simp only [firstOfMonthAt]; omega) (by simp [firstOfMonthAt])
      (by simp only [monthIndex, firstOfMonthAt]; omega) fuel hfuel
    rw [monthOfIndexAt_firstOfMonthAt z ys ms hms1 hms12] at hloop
    refine ⟨hloop, ?_, ?_, ?_⟩
    · rw [hloop, List.length_map, List.length_range]
      omega
    · rw [hloop]
      exact monthRange_pairwise _ _ _
    · intro t
      rw [hloop, mem_monthRange]
      constructor
      · rintro ⟨y, m, h1, h12, ht, hlo, hhi⟩
        exact ⟨y, m, h1, h12, ht, by omega, by omega⟩
      · rintro ⟨y, m, h1, h12, ht, hlo, hhi⟩
        exact ⟨y, m, h1, h12, ht, by omega, by omega⟩
  · intro fuel hfuel
    have hloop := monthLoop_monthOfIndexAt 0 3 (12 * 2025 + (((1 : Nat) : Int) - 1))
      (firstOfMonthAt 0 2025 3) rfl (by decide) (by decide) (le_refl 1) (by decide)
      (by decide) (by simp only [monthIndex, firstOfMonthAt]; omega) fuel hfuel
    rw [monthOfIndexAt_firstOfMonthAt 0 2025 1 (by decide) (by decide)] at hloop
    have h1 : firstOfMonth 2025 1 = firstOfMonthAt 0 2025 1 := rfl
    have h3 : firstOfMonth 2025 3 = firstOfMonthAt 0 2025 3 := rfl
    rw [h1, h3, hloop]
    decide

/-- Witness of C22: from November 2024 through February 2025, in the zone `+05:00`, the
loop visits four months. -/
theorem monthLoop_first_of_month_witness :
    (firstOfMonthAt 18000 2025 2).Before (firstOfMonthAt 18000 2024 11) = false ∧
    monthLoop 10 (firstOfMonthAt 18000 2024 11) (firstOfMonthAt 18000 2025 2) =
      [firstOfMonthAt 18000 2024 11, firstOfMonthAt 18000 2024 12,
        firstOfMonthAt 18000 2025 1, firstOfMonthAt 18000 2025 2] :=
  ⟨by decide, by
    rw [((monthLoop_first_of_month 18000 2024 2025 11 2 (by decide) (by decide) (by decide)
      (by decide) (by decide)).1 10 (by decide)).1]
    decide⟩

/-! ## Month loop from arbitrary dates -/

/-- Claim C23 (code defect): the custom report of `getCustomReport` from
2025-01-31T00:00:00Z to 2025-03-31T00:00:00Z.  The end is not before the start, so the
request is accepted, and the month loop visits 31 January and 3 March
(`AddDate(0, 1, 0)` turns 31 January into 31 February, which is 3 March): the visited
periods are not the first day of their month and no period of February is visited. -/
theorem monthLoop_skips_february :
    Time.Before { year := 2025, month := 3, day := 31, nsec := 0 }
      { year := 2025, month := 1, day := 31, nsec := 0 } = false ∧
    monthLoop 12 { year := 2025, month := 1, day := 31, nsec := 0 }
      { year := 2025, month := 3, day := 31, nsec := 0 } =
      [{ year := 2025, month := 1, day := 31, nsec := 0 },
       { year := 2025, month := 3, day := 3, nsec := 0 }] ∧
    ¬ (∀ t ∈ monthLoop 12 { year := 2025, month := 1, day := 31, nsec := 0 }
        { year := 2025, month := 3, day := 31, nsec := 0 }, t.day = 1) ∧
    (∀ t ∈ monthLoop 12 { year := 2025, month := 1, day := 31, nsec := 0 }
        { year := 2025, month := 3, day := 31, nsec := 0 },
      ¬ (t.Year = 2025 ∧ t.Month = 2)) := by
  have h : monthLoop 12 { year := 2025, month := 1, day := 31, nsec := 0 }
      { year := 2025, month := 3, day := 31, nsec := 0 } =
      [{ year := 2025, month := 1, day := 31, nsec := 0 },
       { year := 2025, month := 3, day := 3, nsec := 0 }] := by decide
  refine ⟨by decide, h, ?_, ?_⟩
  · rw [h]
    decide
  · rw [h]
    decide

/-! ## Quarterly and yearly ranges -/

/-- Claim C24 (code defect): the quarterly report of the fourth quarter of 2017 when
`time.Local` is `America/Asuncion`, where daylight saving starts on 1 October 2017 at
local midnight.  `time.Date(2017, 10, 1, 0, 0, 0, 0, time.Local)` names a civil time that
does not exist and returns 30 September 2017, 23:00 (UTC-4); the end is 1 December 2017
at midnight (UTC-3).  The month loop then visits 30 September, 30 October and
30 November, 23:00: the report covers September, October and November, not October,
November and December. -/
theorem quarterlyPeriods_daylight_saving_gap :
    quarterlyPeriods asuncion 2017 4 =
      some ({ year := 2017, month := 9, day := 30, nsec := 82800000000000,
              offset := -14400, loc := asuncion },
            { year := 2017, month := 12, day := 1, nsec := 0, offset := -10800,
              loc := asuncion }) ∧
    monthLoop 12
        { year := 2017, month := 9, day := 30, nsec := 82800000000000, offset := -14400,
          loc := asuncion }
        { year := 2017, month := 12, day := 1, nsec := 0, offset := -10800,
          loc := asuncion } =
      [{ year := 2017, month := 9, day := 30, nsec := 82800000000000, offset := -14400,
         loc := asuncion },
       { year := 2017, month := 10, day := 30, nsec := 82800000000000, offset := -10800,
         loc := asuncion },
       { year := 2017, month := 11, day := 30, nsec := 82800000000000, offset := -10800,
         loc := asuncion }] ∧
    (monthLoop 12
        { year := 2017, month := 9, day := 30, nsec := 82800000000000, offset := -14400,
          loc := asuncion }
        { year := 2017, month := 12, day := 1, nsec := 0, offset := -10800,
          loc := asuncion }).map (fun t => (t.Year, t.Month)) =
      [(2017, 9), (2017, 10), (2017, 11)] := by
  have h : monthLoop 12
        { year := 2017, month := 9, day := 30, nsec := 82800000000000, offset := -14400,
          loc := asuncion }
        { year := 2017, month := 12, day := 1, nsec := 0, offset := -10800,
          loc := asuncion } =
      [{ year := 2017, month := 9, day := 30, nsec := 82800000000000, offset := -14400,
         loc := asuncion },
       { year := 2017, month := 10, day := 30, nsec := 82800000000000, offset := -10800,
         loc := asuncion },
       { year := 2017, month := 11, day := 30, nsec := 82800000000000, offset := -10800,
         loc := asuncion }] := by decide
  refine ⟨by decide, h, ?_⟩
  rw [h]
  rfl


/-- In a location without transitions, `time.Date` of the first day of a valid month at
midnight is that day. -/
theorem date_first_of_month (z y : Int) (m : Nat) (h1 : 1 ≤ m) (h12 : m ≤ 12) :
    Date y (m : Int) 1 0 (fixedZone z) = firstOfMonthAt z y m := by
  rw [date_fixedZone, normDay_of_le _ _ _ _ _ (by norm_num)]
  have hq : ((m : Int) - 1) / 12 = 0 := by omega
  have hr : ((m : Int) - 1) % 12 = ((m - 1 : Nat) : Int) := by omega
  have hmo : m - 1 + 1 = m := by omega
  rw [hq, hr, Int.toNat_natCast, add_zero, hmo]
  rfl

/-- The month loop between two first-of-month dates of one year, in a location without
transitions. -/
theorem monthLoop_within_year (z y : Int) (a b : Nat) (ha : 1 ≤ a) (hab : a ≤ b)
    (hb : b ≤ 12) (fuel : Nat) (hfuel : b - a + 1 ≤ fuel) :
    monthLoop fuel (firstOfMonthAt z y a) (firstOfMonthAt z y b) =
      (List.range (b - a + 1)).map (fun (k : Nat) => firstOfMonthAt z y (a + k)) := by
  have hge := daysIn_ge y b
  have hloop := monthLoop_monthOfIndexAt z (b - a + 1) (12 * y + ((a : Int) - 1))
    (firstOfMonthAt z y b) rfl (le_trans ha hab) hb (le_refl 1)
    (by simp only [firstOfMonthAt]; omega) (by simp [firstOfMonthAt])
    (by simp only [monthIndex, firstOfMonthAt]; omega) fuel hfuel
  rw [monthOfIndexAt_firstOfMonthAt z y a ha (le_trans hab hb)] at hloop
  rw [hloop]
  apply List.map_congr_left
  intro k hk
  rw [List.mem_range] at hk
  have : 12 * y + ((a : Int) - 1) + (k : Int) = 12 * y + (((a + k : Nat) : Int) - 1) := by
    push_cast
    ring
  rw [this]
  exact monthOfIndexAt_firstOfMonthAt z y (a + k) (by omega) (by omega)

/-- When `time.Local` is a location with a fixed offset from UTC, the quarterly report of
quarter `q` in 1..4 of a year in 2000..2100 ranges from the first of month `3(q-1)+1` to
the first of month `3q` and its month loop covers exactly the three months of the quarter;
the yearly report ranges from January to December and its month loop covers exactly
months 1 through 12. -/
theorem quarterly_and_yearly_periods_fixed_zone (z y : Int) (hy1 : 2000 ≤ y)
    (hy2 : y ≤ 2100) :
    (∀ q : Nat, 1 ≤ q → q ≤ 4 →
      quarterlyPeriods (fixedZone z) y (q : Int) =
          some (firstOfMonthAt z y (3 * (q - 1) + 1), firstOfMonthAt z y (3 * q)) ∧
        1 ≤ 3 * (q - 1) + 1 ∧ 3 * q ≤ 12 ∧
        (∀ fuel : Nat, 3 ≤ fuel →
          monthLoop fuel (firstOfMonthAt z y (3 * (q - 1) + 1)) (firstOfMonthAt z y (3 * q)) =
            [firstOfMonthAt z y (3 * (q - 1) + 1), firstOfMonthAt z y (3 * (q - 1) + 2),
              firstOfMonthAt z y (3 * q)])) ∧
    (yearlyPeriods (fixedZone z) y = some (firstOfMonthAt z y 1, firstOfMonthAt z y 12) ∧
      (∀ fuel : Nat, 12 ≤ fuel →
        monthLoop fuel (firstOfMonthAt z y 1) (firstOfMonthAt z y 12) =
          [firstOfMonthAt z y 1, firstOfMonthAt z y 2, firstOfMonthAt z y 3,
            firstOfMonthAt z y 4, firstOfMonthAt z y 5, firstOfMonthAt z y 6,
            firstOfMonthAt z y 7, firstOfMonthAt z y 8, firstOfMonthAt z y 9,
            firstOfMonthAt z y 10, firstOfMonthAt z y 11, firstOfMonthAt z y 12])) := by
  have hyear : ¬ (y < 2000 ∨ y > 2100) := by omega
  constructor
  · intro q hq1 hq4
    have hquarter : ¬ ((q : Int) < 1 ∨ (q : Int) > 4) := by omega
    refine ⟨?_, by omega, by omega, ?_⟩
    · have hs : ((q : Int) - 1) * 3 + 1 = ((3 * (q - 1) + 1 : Nat) : Int) := by omega
      have he : (q : Int) * 3 = ((3 * q : Nat) : Int) := by omega
      simp only [quarterlyPeriods, hyear, hquarter, if_false]
      rw [hs, he, date_first_of_month z y _ (by omega) (by omega),
        date_first_of_month z y _ (by omega) (by omega)]
    · intro fuel hfuel
      have hloop := monthLoop_within_year z y (3 * (q - 1) + 1) (3 * q) (by omega) (by omega)
        (by omega) fuel (by omega)
      have hn : 3 * q - (3 * (q - 1) + 1) + 1 = 3 := by omega
      rw [hloop, hn, show List.range 3 = [0, 1, 2] from rfl]
      simp only [List.map_cons, List.map_nil, add_zero]
      rw [show 3 * (q - 1) + 1 + 2 = 3 * q by omega]
  · constructor
    · simp only [yearlyPeriods, hyear, if_false]
      rw [show (1 : Int) = ((1 : Nat) : Int) from rfl,
        show (12 : Int) = ((12 : Nat) : Int) from rfl,
        date_first_of_month z y 1 (by decide) (by decide),
        date_first_of_month z y 12 (by decide) (by decide)]
    · intro fuel hfuel
      rw [monthLoop_within_year z y 1 12 (by decide) (by decide) (by decide) fuel hfuel]
      rfl

/-! ## Custom ranges and KPIs of a role -/

/-- Claim C25: every period-range report request whose end precedes its start is
rejected with an invalid-range failure surfaced to the caller (the HTTP error
"End period cannot be before start period" with status 400 from `getCustomReport`, the
printed rejection from the console `generateCustomReport`) and produces no report; a
request whose end is equal to or after its start is never rejected for that reason. -/
theorem custom_report_range_check (r : Renderers) (startPeriod endPeriod : Time) :
    (endPeriod.Before startPeriod = true →
      (∀ (roleIDs : List Int) (format : String),
        getCustomReport r
            (some { StartPeriod := startPeriod, EndPeriod := endPeriod,
                    RoleIDs := roleIDs, Format := format }) =
          ReportResponse.httpError "End period cannot be before start period" 400) ∧
      (startPeriod.IsZero = false → endPeriod.IsZero = false →
        ∀ selection : Option String,
          generateCustomReport r startPeriod endPeriod selection =
            ConsoleOutcome.rejected "End period cannot be before start period.")) ∧
    (endPeriod.Before startPeriod = false →
      (∀ (roleIDs : List Int) (format : String),
        getCustomReport r
              (some { StartPeriod := startPeriod, EndPeriod := endPeriod,
                      RoleIDs := roleIDs, Format := format }) =
            ReportResponse.rangeSummary startPeriod endPeriod roleIDs ∨
          getCustomReport r
              (some { StartPeriod := startPeriod, EndPeriod := endPeriod,
                      RoleIDs := roleIDs, Format := format }) =
            ReportResponse.content (generateReport r startPeriod endPeriod format)) ∧
      (∀ (selection : Option String) (message : String),
        generateCustomReport r startPeriod endPeriod selection ≠
          ConsoleOutcome.rejected message) ∧
      (startPeriod.IsZero = false → endPeriod.IsZero = false → ∀ format : String,
        generateCustomReport r startPeriod endPeriod (some format) =
          ConsoleOutcome.saved (generateReport r startPeriod endPeriod format))) := by
  constructor
  · intro hbefore
    constructor
    · intro roleIDs format
      simp [getCustomReport, hbefore]
    · intro hs he selection
      simp [generateCustomReport, hs, he, hbefore]
  · intro hbefore
    refine ⟨?_, ?_, ?_⟩
    · intro roleIDs format
      by_cases hempty : format = ""
      · left
        simp [getCustomReport, hbefore, hempty]
      · by_cases hjson : format = "json"
        · left
          simp [getCustomReport, hbefore, hjson]
        · right
          simp [getCustomReport, hbefore, hempty, hjson]
    · intro selection message
      unfold generateCustomReport
      cases hs : startPeriod.IsZero <;> cases he : endPeriod.IsZero <;>
        cases selection <;> simp [hbefore]
    · intro hs he format
      simp [generateCustomReport, hs, he, hbefore]

/-- Witness of C25: a custom request from 2025-03-01T00:00:00-05:00 to
2025-03-01T00:00:00Z is rejected: the civil fields of start and end are the same, but the
end is the earlier instant. -/
theorem custom_report_range_check_witness :
    (firstOfMonth 2025 3).Before (firstOfMonthAt (-18000) 2025 3) = true ∧
    getCustomReport sampleRenderers
        (some { StartPeriod := firstOfMonthAt (-18000) 2025 3,
                EndPeriod := firstOfMonth 2025 3, RoleIDs := [], Format := "csv" }) =
      ReportResponse.httpError "End period cannot be before start period" 400 :=
  ⟨by decide,
    ((custom_report_range_check sampleRenderers (firstOfMonthAt (-18000) 2025 3)
      (firstOfMonth 2025 3)).1 (by decide)).1 [] "csv"⟩

/-- The loop of `getKPIsByRoleID` appends the KPIs of the role to its accumulator. -/
theorem getKPIsByRoleID_foldl (kpis : List KPI) (roleID : Int) (acc : List KPI) :
    kpis.foldl (fun result kpi => if kpi.RoleID = roleID then result ++ [kpi] else result)
        acc =
      acc ++ kpis.filter (fun k => decide (k.RoleID = roleID)) := by
  induction kpis generalizing acc with
  | nil => simp
  | cons k rest ih =>
    rw [List.foldl_cons, ih, List.filter_cons]
    by_cases h : k.RoleID = roleID
    · simp [h]
    · simp [h]

/-- Claim C26: for every roleID, `getKPIsByRoleID` returns exactly the KPIs of the
dataset whose RoleID equals roleID, of every category, in the same relative order as in
the dataset (it is the order-preserving filter of the KPI collection), and the empty
sequence when no KPI has that RoleID. -/
theorem getKPIsByRoleID_spec (kpis : List KPI) (roleID : Int) :
    getKPIsByRoleID kpis roleID = kpis.filter (fun k => decide (k.RoleID = roleID)) ∧
    (∀ k : KPI, k ∈ getKPIsByRoleID kpis roleID ↔ k ∈ kpis ∧ k.RoleID = roleID) ∧
    (getKPIsByRoleID kpis roleID).Sublist kpis ∧
    ((∀ k ∈ kpis, k.RoleID ≠ roleID) → getKPIsByRoleID kpis roleID = []) := by
  have h : getKPIsByRoleID kpis roleID =
      kpis.filter (fun k => decide (k.RoleID = roleID)) := by
    unfold getKPIsByRoleID
    rw [getKPIsByRoleID_foldl]
    simp
  refine ⟨h, ?_, ?_, ?_⟩
  · intro k
    rw [h, List.mem_filter]
    simp
  · rw [h]
    exact List.filter_sublist kpis
  · intro hnone
    rw [h, List.filter_eq_nil_iff]
    intro k hk
    simpa using hnone k hk

/-- Witness of C26: with no KPI of role 7 in the dataset the result is empty. -/
theorem getKPIsByRoleID_spec_witness :
    (∀ k ∈ [mkKPI 1 "≤" (F64.fin 3) (F64.fin 70), mkKPI 2 "≥" (F64.fin 10) (F64.fin 30)],
      k.RoleID ≠ 7) ∧
    getKPIsByRoleID
      [mkKPI 1 "≤" (F64.fin 3) (F64.fin 70), mkKPI 2 "≥" (F64.fin 10) (F64.fin 30)] 7 = [] :=
  ⟨by simp [mkKPI],
    (getKPIsByRoleID_spec
      [mkKPI 1 "≤" (F64.fin 3) (F64.fin 70), mkKPI 2 "≥" (F64.fin 10) (F64.fin 30)] 7).2.2.2
      (by simp [mkKPI])⟩

/-! ## Loading the dataset -/

/-- Counterexample to C27: when the workbook opens but its roles sheet cannot be read,
`loadFromExcel` returns an error and leaves the three collections empty, not as they
were. -/
theorem loadFromExcel_failure_counterexample :
    loadFromExcel sampleParsers (firstOfMonth 2025 3)
      (OpenResult.opened { rolesRows := Except.error "sheet Roles does not exist",
                           kpisRows := Except.ok [], measurementsRows := Except.ok [] })
      none (Except.error "") sampleDataset =
      (some "failed to read roles sheet: sheet Roles does not exist",
        { roles := [], kpis := [], measurements := [] }) ∧
    (loadFromExcel sampleParsers (firstOfMonth 2025 3)
      (OpenResult.opened { rolesRows := Except.error "sheet Roles does not exist",
                           kpisRows := Except.ok [], measurementsRows := Except.ok [] })
      none (Except.error "") sampleDataset).2 ≠ sampleDataset := by
  have h : loadFromExcel sampleParsers (firstOfMonth 2025 3)
      (OpenResult.opened { rolesRows := Except.error "sheet Roles does not exist",
                           kpisRows := Except.ok [], measurementsRows := Except.ok [] })
      none (Except.error "") sampleDataset =
      (some "failed to read roles sheet: sheet Roles does not exist",
        { roles := [], kpis := [], measurements := [] }) := by
    simp [loadFromExcel, loadSheets]
  refine ⟨h, ?_⟩
  rw [h]
  simp [sampleDataset]

/-- Claim C27 (amended): when `loadFromExcel` fails because the workbook cannot be
opened, cannot be created, or cannot be opened after its creation, the roles, kpis and
measurements collections are exactly what they were before the call.  When it fails
on a sheet, the collections have already been cleared: after a failure on the roles
sheet all three are empty; after a failure on the KPIs sheet `roles` holds the roles
just loaded and the other two are empty; after a failure on the measurements sheet
`roles` and `kpis` hold the data just loaded and `measurements` is empty. -/
theorem loadFromExcel_failures (p : Parsers) (now : Time) (createError : Option String)
    (reopening : Except String Workbook) (data : Dataset) :
    (∀ err : String,
      loadFromExcel p now (OpenResult.failed err) createError reopening data =
        (some ("failed to open Excel database: " ++ err), data)) ∧
    (∀ notFound err : String,
      loadFromExcel p now (OpenResult.notExist notFound) (some err) reopening data =
        (some ("failed to create new Excel database: " ++ err), data)) ∧
    (∀ notFound err : String,
      loadFromExcel p now (OpenResult.notExist notFound) none (Except.error err) data =
        (some ("failed to open newly created Excel database: " ++ err), data)) ∧
    (∀ (f : Workbook) (err : String), f.rolesRows = Except.error err →
      loadFromExcel p now (OpenResult.opened f) createError reopening data =
        (some ("failed to read roles sheet: " ++ err),
          { roles := [], kpis := [], measurements := [] })) ∧
    (∀ (f : Workbook) (roleRows : List (List String)) (err : String),
      f.rolesRows = Except.ok roleRows → f.kpisRows = Except.error err →
      loadFromExcel p now (OpenResult.opened f) createError reopening data =
        (some ("failed to read KPIs sheet: " ++ err),
          { roles := loadRoles p roleRows, kpis := [], measurements := [] })) ∧
    (∀ (f : Workbook) (roleRows kpiRows : List (List String)) (err : String),
      f.rolesRows = Except.ok roleRows → f.kpisRows = Except.ok kpiRows →
      f.measurementsRows = Except.error err →
      loadFromExcel p now (OpenResult.opened f) createError reopening data =
        (some ("failed to read measurements sheet: " ++ err),
          { roles := loadRoles p roleRows, kpis := loadKPIs p kpiRows,
            measurements := [] })) := by
  refine ⟨?_, ?_, ?_, ?_, ?_, ?_⟩
  · intro err
    rfl
  · intro notFound err
    rfl
  · intro notFound err
    rfl
  · intro f err h1
    simp only [loadFromExcel, loadSheets, h1]
  · intro f roleRows err h1 h2
    simp only [loadFromExcel, loadSheets, h1, h2]
  · intro f roleRows kpiRows err h1 h2 h3
    simp only [loadFromExcel, loadSheets, h1, h2, h3]

/-- Witness of C27 (amended): a workbook that cannot be opened leaves the dataset as it
was. -/
theorem loadFromExcel_failures_witness :
    loadFromExcel sampleParsers (firstOfMonth 2025 3) (OpenResult.failed "permission denied")
      none (Except.error "") sampleDataset =
      (some ("failed to open Excel database: " ++ "permission denied"), sampleDataset) :=
  (loadFromExcel_failures sampleParsers (firstOfMonth 2025 3) none (Except.error "")
    sampleDataset).1 "permission denied"

/-! ## End-to-end scenario and read-your-write -/

/-- Claim C21: with one KPI (ID 1, RoleID 1, operator "≤", TargetValue 3, Weight 70)
and an empty measurement store, `saveMeasurement(1, 2.0, "days", Feb 2025, "")` makes
`calculateOverallScore([kpi], Feb 2025)` equal 100; a following
`saveMeasurement(1, 6.0, "days", Feb 2025, "late")` updates the same record (same ID),
after which `calculateAchievement` is 50, `calculateOverallScore` is 50, and the store
still holds exactly 1 measurement. -/
theorem end_to_end_scenario (now1 now2 : Time) :
    saveMeasurement [] 1 (F64.fin 2) "days" (firstOfMonth 2025 2) "" now1 =
      [{ ID := 1, KPIID := 1, MetricValue := F64.fin 2, Unit := "days",
         Period := firstOfMonth 2025 2, Notes := "", CreatedAt := now1 }] ∧
    calculateOverallScore
      (saveMeasurement [] 1 (F64.fin 2) "days" (firstOfMonth 2025 2) "" now1)
      [mkKPI 1 "≤" (F64.fin 3) (F64.fin 70)] (firstOfMonth 2025 2) = F64.fin 100 ∧
    saveMeasurement
      (saveMeasurement [] 1 (F64.fin 2) "days" (firstOfMonth 2025 2) "" now1)
      1 (F64.fin 6) "days" (firstOfMonth 2025 2) "late" now2 =
      [{ ID := 1, KPIID := 1, MetricValue := F64.fin 6, Unit := "days",
         Period := firstOfMonth 2025 2, Notes := "late", CreatedAt := now1 }] ∧
    calculateAchievement (mkKPI 1 "≤" (F64.fin 3) (F64.fin 70))
      (getExistingMeasurement
        (saveMeasurement
          (saveMeasurement [] 1 (F64.fin 2) "days" (firstOfMonth 2025 2) "" now1)
          1 (F64.fin 6) "days" (firstOfMonth 2025 2) "late" now2)
        1 (firstOfMonth 2025 2)) = F64.fin 50 ∧
    calculateOverallScore
      (saveMeasurement
        (saveMeasurement [] 1 (F64.fin 2) "days" (firstOfMonth 2025 2) "" now1)
        1 (F64.fin 6) "days" (firstOfMonth 2025 2) "late" now2)
      [mkKPI 1 "≤" (F64.fin 3) (F64.fin 70)] (firstOfMonth 2025 2) = F64.fin 50 ∧
    (saveMeasurement
      (saveMeasurement [] 1 (F64.fin 2) "days" (firstOfMonth 2025 2) "" now1)
      1 (F64.fin 6) "days" (firstOfMonth 2025 2) "late" now2).length = 1 := by
  have h1 : saveMeasurement [] 1 (F64.fin 2) "days" (firstOfMonth 2025 2) "" now1 =
      [{ ID := 1, KPIID := 1, MetricValue := F64.fin 2, Unit := "days",
         Period := firstOfMonth 2025 2, Notes := "", CreatedAt := now1 }] := rfl
  have h2 : saveMeasurement
      (saveMeasurement [] 1 (F64.fin 2) "days" (firstOfMonth 2025 2) "" now1)
      1 (F64.fin 6) "days" (firstOfMonth 2025 2) "late" now2 =
      [{ ID := 1, KPIID := 1, MetricValue := F64.fin 6, Unit := "days",
         Period := firstOfMonth 2025 2, Notes := "late", CreatedAt := now1 }] := by
    rw [h1]
    simp [saveMeasurement, getExistingMeasurementIndex, updateAt]
  refine ⟨h1, ?_, h2, ?_, ?_, ?_⟩
  · rw [h1]
    simp [calculateOverallScore, scoreStep, getExistingMeasurement, calculateAchievement,
      mkKPI, F64.add, F64.mul, F64.div, F64.feq, F64.ble, F64.blt]
    norm_num
  · rw [h2]
    simp [getExistingMeasurement, calculateAchievement, mkKPI, F64.mul, F64.div, F64.ble,
      F64.blt]
    norm_num
  · rw [h2]
    simp [calculateOverallScore, scoreStep, getExistingMeasurement, calculateAchievement,
      mkKPI, F64.add, F64.mul, F64.div, F64.feq, F64.ble, F64.blt]
    norm_num
  · rw [h2]
    rfl

/-- Claim C29: read-your-write: for every store and every (kpiID, value, unit, period,
notes), immediately after `saveMeasurement` the lookup `getExistingMeasurement(kpiID,
period)` finds a measurement, and that measurement has KPIID = kpiID, MetricValue =
value, Unit = unit and Notes = notes, whatever the store contained before; the
`createMeasurement` handler returns that measurement for a known KPI when the save to
Excel succeeds. -/
theorem saveMeasurement_read_your_write (ms : List Measurement) (kpiID : Int) (value : F64)
    (unit : String) (period : Time) (notes : String) (now : Time) :
    (∃ m, getExistingMeasurement (saveMeasurement ms kpiID value unit period notes now)
        kpiID period = some m ∧
      m.KPIID = kpiID ∧ m.MetricValue = value ∧ m.Unit = unit ∧ m.Notes = notes) ∧
    (∀ kpis : List KPI, (∃ k ∈ kpis, k.ID = kpiID) →
      ∃ m, createMeasurement kpis ms
          (some { KPIID := kpiID, MetricValue := value, Unit := unit, Period := period,
                  Notes := notes }) now none =
          (Response.encoded (some m),
            saveMeasurement ms kpiID value unit period notes now) ∧
        m.KPIID = kpiID ∧ m.MetricValue = value ∧ m.Unit = unit ∧ m.Notes = notes) := by
  obtain ⟨l1, m, l2, hsave, hfor, hl1, hv, hu, hn⟩ :=
    saveMeasurement_split ms kpiID value unit period notes now
  have hget : getExistingMeasurement (saveMeasurement ms kpiID value unit period notes now)
      kpiID period = some m := by
    rw [hsave]
    exact getExistingMeasurement_of_split l1 l2 m kpiID period hfor hl1
  refine ⟨⟨m, hget, hfor.1, hv, hu, hn⟩, ?_⟩
  rintro kpis ⟨k, hk, hkid⟩
  refine ⟨m, ?_, hfor.1, hv, hu, hn⟩
  have hany : kpis.any (fun kpi => decide (kpi.ID = kpiID)) = true := by
    rw [List.any_eq_true]
    exact ⟨k, hk, by simpa using hkid⟩
  simp [createMeasurement, hany, hget]

/-- Witness of C29: with two stored measurements of KPI 1 for February 2025, the lookup
after a save returns the saved value. -/
theorem saveMeasurement_read_your_write_witness :
    ∃ m, getExistingMeasurement
        (saveMeasurement
          [mkMeasurement 1 1 (F64.fin 2) (firstOfMonth 2025 2),
            mkMeasurement 2 1 (F64.fin 3) (firstOfMonth 2025 2)]
          1 (F64.fin 6) "days" (firstOfMonth 2025 2) "late" (firstOfMonth 2025 3))
        1 (firstOfMonth 2025 2) = some m ∧
      m.KPIID = 1 ∧ m.MetricValue = F64.fin 6 ∧ m.Unit = "days" ∧ m.Notes = "late" :=
  (saveMeasurement_read_your_write
    [mkMeasurement 1 1 (F64.fin 2) (firstOfMonth 2025 2),
      mkMeasurement 2 1 (F64.fin 3) (firstOfMonth 2025 2)]
    1 (F64.fin 6) "days" (firstOfMonth 2025 2) "late" (firstOfMonth 2025 3)).1

/-! ## Rescaling in the float64 model -/

/-- A positive factor keeps the sign that directs an infinity. -/
theorem infOfSign_mul (c x : ℚ) (hc : 0 < c) : F64.infOfSign (c * x) = F64.infOfSign x := by
  unfold F64.infOfSign
  have h1 : 0 < c * x ↔ 0 < x := by
    constructor
    · intro h
      exact pos_of_mul_pos_right h hc.le
    · intro h
      exact mul_pos hc h
  have h2 : c * x < 0 ↔ x < 0 := by
    constructor
    · intro h
      by_contra hx
      have : 0 ≤ c * x := mul_nonneg hc.le (not_lt.mp hx)
      exact absurd h (not_lt.mpr this)
    · intro h
      exact mul_neg_of_pos_of_neg hc h
  simp only [h1, h2]

/-- A positive finite factor leaves an infinity or `NaN` of a sign as it is. -/
theorem scale_infOfSign (c x : ℚ) (hc : 0 < c) :
    F64.fin c * F64.infOfSign x = F64.infOfSign x := by
  have hnc : ¬ (c < 0) := not_lt.mpr hc.le
  unfold F64.infOfSign
  split_ifs <;> simp [F64.mul, F64.infOfSign, hc, hnc]

/-- Multiplication by a positive finite factor distributes over the sum. -/
theorem scale_add (c : ℚ) (hc : 0 < c) (x y : F64) :
    F64.fin c * (x + y) = F64.fin c * x + F64.fin c * y := by
  have hnc : ¬ (c < 0) := not_lt.mpr hc.le
  cases x <;> cases y <;> simp [F64.mul, F64.add, F64.infOfSign, hc, hnc]
  ring

/-- A positive finite factor moves out of a product. -/
theorem scale_mul (c : ℚ) (hc : 0 < c) (a w : F64) :
    a * (F64.fin c * w) = F64.fin c * (a * w) := by
  have hnc : ¬ (c < 0) := not_lt.mpr hc.le
  cases a with
  | fin x =>
    cases w with
    | fin y => simp [F64.mul]; ring
    | pinf =>
      change F64.fin x * F64.infOfSign c = F64.fin c * F64.infOfSign x
      rw [scale_infOfSign c x hc]
      simp [F64.mul, F64.infOfSign, hc]
    | ninf =>
      change F64.fin x * F64.infOfSign (-c) = F64.fin c * F64.infOfSign (-x)
      rw [scale_infOfSign c (-x) hc]
      simp [F64.mul, F64.infOfSign, hc, hnc]
    | nan => simp [F64.mul]
  | pinf =>
    cases w with
    | fin y =>
      change F64.infOfSign (c * y) = F64.fin c * F64.infOfSign y
      rw [scale_infOfSign c y hc, infOfSign_mul c y hc]
    | pinf => simp [F64.mul, F64.infOfSign, hc, hnc]
    | ninf => simp [F64.mul, F64.infOfSign, hc, hnc]
    | nan => simp [F64.mul]
  | ninf =>
    cases w with
    | fin y =>
      change F64.infOfSign (-(c * y)) = F64.fin c * F64.infOfSign (-y)
      rw [scale_infOfSign c (-y) hc, ← mul_neg, infOfSign_mul c (-y) hc]
    | pinf => simp [F64.mul, F64.infOfSign, hc, hnc]
    | ninf => simp [F64.mul, F64.infOfSign, hc, hnc]
    | nan => simp [F64.mul]
  | nan => cases w <;> simp [F64.mul]

/-- A positive finite factor moves out of the division by 100. -/
theorem scale_div_hundred (c : ℚ) (hc : 0 < c) (x : F64) :
    (F64.fin c * x) / F64.fin 100 = F64.fin c * (x / F64.fin 100) := by
  have hnc : ¬ (c < 0) := not_lt.mpr hc.le
  cases x <;> simp [F64.mul, F64.div, F64.infOfSign, hc, hnc]
  ring

/-- A positive finite factor does not change whether a total is zero. -/
theorem scale_feq_zero (c : ℚ) (hc : 0 < c) (w : F64) :
    F64.feq (F64.fin c * w) (F64.fin 0) = F64.feq w (F64.fin 0) := by
  have hnc : ¬ (c < 0) := not_lt.mpr hc.le
  cases w <;> simp [F64.mul, F64.feq, F64.infOfSign, hc, hnc, hc.ne']

/-- A common positive finite factor cancels in a quotient. -/
theorem scale_div (c : ℚ) (hc : 0 < c) (s w : F64) :
    (F64.fin c * s) / (F64.fin c * w) = s / w := by
  have hnc : ¬ (c < 0) := not_lt.mpr hc.le
  cases s with
  | fin x =>
    cases w with
    | fin y =>
      by_cases hy : y = 0
      · simp [F64.mul, F64.div, hy, infOfSign_mul c x hc]
      · simp [F64.mul, F64.div, hy, hc.ne']
        field_simp
        ring
    | pinf => simp [F64.mul, F64.div, F64.infOfSign, hc, hnc]
    | ninf => simp [F64.mul, F64.div, F64.infOfSign, hc, hnc]
    | nan => simp [F64.mul, F64.div]
  | pinf =>
    cases w with
    | fin y =>
      have h : (0 ≤ c * y) ↔ (0 ≤ y) := by
        constructor
        · intro h
          by_contra hy
          exact absurd h (not_le.mpr (mul_neg_of_pos_of_neg hc (not_le.mp hy)))
        · intro h
          exact mul_nonneg hc.le h
      simp [F64.mul, F64.div, F64.infOfSign, hc, hnc, h]
    | pinf => simp [F64.mul, F64.div, F64.infOfSign, hc, hnc]
    | ninf => simp [F64.mul, F64.div, F64.infOfSign, hc, hnc]
    | nan => simp [F64.mul, F64.div, F64.infOfSign, hc, hnc]
  | ninf =>
    cases w with
    | fin y =>
      have h : (0 ≤ c * y) ↔ (0 ≤ y) := by
        constructor
        · intro h
          by_contra hy
          exact absurd h (not_le.mpr (mul_neg_of_pos_of_neg hc (not_le.mp hy)))
        · intro h
          exact mul_nonneg hc.le h
      simp [F64.mul, F64.div, F64.infOfSign, hc, hnc, h]
    | pinf => simp [F64.mul, F64.div, F64.infOfSign, hc, hnc]
    | ninf => simp [F64.mul, F64.div, F64.infOfSign, hc, hnc]
    | nan => simp [F64.mul, F64.div, F64.infOfSign, hc, hnc]
  | nan => cases w <;> simp [F64.mul, F64.div]

/-! ## Relative weights -/

/-- The achievement does not read the weight. -/
theorem calculateAchievement_weight (k : KPI) (w : F64) (m : Option Measurement) :
    calculateAchievement { k with Weight := w } m = calculateAchievement k m := rfl

/-- One step of the score loop on a rescaled KPI and rescaled totals. -/
theorem scoreStep_scale (ms : List Measurement) (period : Time) (c : ℚ) (hc : 0 < c)
    (k : KPI) (s w : F64) :
    scoreStep ms period (F64.fin c * s, F64.fin c * w)
        { k with Weight := F64.fin c * k.Weight } =
      (F64.fin c * (scoreStep ms period (s, w) k).1,
        F64.fin c * (scoreStep ms period (s, w) k).2) := by
  cases hm : getExistingMeasurement ms k.ID period with
  | none => simp only [scoreStep, hm]
  | some m =>
    simp only [scoreStep, hm, calculateAchievement_weight]
    rw [scale_mul c hc, scale_div_hundred c hc, ← scale_add c hc, ← scale_add c hc]

/-- The score loop on rescaled KPIs yields the rescaled totals. -/
theorem foldl_scoreStep_scale (ms : List Measurement) (period : Time) (c : ℚ) (hc : 0 < c)
    (kpis : List KPI) (s w : F64) :
    (scaleWeights c kpis).foldl (scoreStep ms period) (F64.fin c * s, F64.fin c * w) =
      (F64.fin c * (kpis.foldl (scoreStep ms period) (s, w)).1,
        F64.fin c * (kpis.foldl (scoreStep ms period) (s, w)).2) := by
  induction kpis generalizing s w with
  | nil => rfl
  | cons k rest ih =>
    unfold scaleWeights at ih ⊢
    rw [List.map_cons, List.foldl_cons, List.foldl_cons, scoreStep_scale ms period c hc]
    exact ih _ _

/-- With one finite achievement `a` for every measured KPI and finite weights, the
score loop keeps `totalScore = a * totalWeight / 100`. -/
theorem foldl_scoreStep_same (ms : List Measurement) (period : Time) (a : ℚ)
    (kpis : List KPI) (w : ℚ)
    (h : ∀ k ∈ kpis, ∀ m, getExistingMeasurement ms k.ID period = some m →
      calculateAchievement k (some m) = F64.fin a ∧ ∃ wk : ℚ, k.Weight = F64.fin wk) :
    ∃ w2 : ℚ, kpis.foldl (scoreStep ms period) (F64.fin (a * w / 100), F64.fin w) =
      (F64.fin (a * w2 / 100), F64.fin w2) := by
  induction kpis generalizing w with
  | nil => exact ⟨w, rfl⟩
  | cons k rest ih =>
    rw [List.foldl_cons]
    have hrest : ∀ k2 ∈ rest, ∀ m, getExistingMeasurement ms k2.ID period = some m →
        calculateAchievement k2 (some m) = F64.fin a ∧ ∃ wk : ℚ, k2.Weight = F64.fin wk :=
      fun k2 hk2 => h k2 (List.mem_cons_of_mem _ hk2)
    cases hm : getExistingMeasurement ms k.ID period with
    | none =>
      simp only [scoreStep, hm]
      exact ih w hrest
    | some m =>
      obtain ⟨ha, wk, hwk⟩ := h k (List.mem_cons_self _ _) m hm
      have hstep : scoreStep ms period (F64.fin (a * w / 100), F64.fin w) k =
          (F64.fin (a * (w + wk) / 100), F64.fin (w + wk)) := by
        simp only [scoreStep, hm, ha, hwk]
        simp [F64.add, F64.mul, F64.div]
        ring
      rw [hstep]
      exact ih (w + wk) hrest

/-- Claim C30: `calculateOverallScore` depends only on the relative weights: for every
KPI list, store, period and every constant `c > 0`, multiplying the Weight of every KPI
in the list by `c` leaves the returned score unchanged (in exact arithmetic); and when
all measured KPIs have the same achievement `a` and their weights sum to a positive
value, the score is `a`. -/
theorem calculateOverallScore_relative_weights (ms : List Measurement) (kpis : List KPI)
    (period : Time) :
    (∀ c : ℚ, 0 < c →
      calculateOverallScore ms (scaleWeights c kpis) period =
        calculateOverallScore ms kpis period) ∧
    (∀ a total : ℚ,
      (∀ k ∈ kpis, ∀ m, getExistingMeasurement ms k.ID period = some m →
        calculateAchievement k (some m) = F64.fin a ∧ ∃ wk : ℚ, k.Weight = F64.fin wk) →
      F64.sum ((measuredKPIs ms kpis period).map (fun k => k.Weight)) = F64.fin total →
      0 < total →
      calculateOverallScore ms kpis period = F64.fin a) := by
  constructor
  · intro c hc
    have h := foldl_scoreStep_scale ms period c hc kpis (F64.fin 0) (F64.fin 0)
    have h0 : F64.fin c * F64.fin 0 = F64.fin 0 := by simp [F64.mul]
    rw [h0] at h
    unfold calculateOverallScore
    simp only [h]
    rw [scale_feq_zero c hc, scale_div c hc]
  · intro a total hsame hsum hpos
    obtain ⟨w2, hw2⟩ := foldl_scoreStep_same ms period a kpis 0 hsame
    have h0 : F64.fin (a * 0 / 100) = F64.fin 0 := by simp
    rw [h0] at hw2
    have hw : w2 = total := by
      have h2 := foldl_scoreStep ms period kpis (F64.fin 0, F64.fin 0)
      rw [hw2] at h2
      have h3 := congrArg Prod.snd h2
      simp only at h3
      unfold F64.sum at hsum
      rw [hsum] at h3
      exact F64.fin.inj h3
    unfold calculateOverallScore
    simp only [hw2, hw]
    have hne : total ≠ 0 := hpos.ne'
    simp [F64.feq, F64.div, F64.mul, hne]
    field_simp
    ring

/-- Witness of C30: doubling the weights 70 and 30 leaves the score unchanged. -/
theorem calculateOverallScore_relative_weights_witness :
    (0 : ℚ) < 2 ∧
    calculateOverallScore [mkMeasurement 1 1 (F64.fin 6) (firstOfMonth 2025 2)]
      (scaleWeights 2
        [mkKPI 1 "≤" (F64.fin 3) (F64.fin 70), mkKPI 2 "≥" (F64.fin 10) (F64.fin 30)])
      (firstOfMonth 2025 2) =
    calculateOverallScore [mkMeasurement 1 1 (F64.fin 6) (firstOfMonth 2025 2)]
      [mkKPI 1 "≤" (F64.fin 3) (F64.fin 70), mkKPI 2 "≥" (F64.fin 10) (F64.fin 30)]
      (firstOfMonth 2025 2) :=
  ⟨by norm_num,
    (calculateOverallScore_relative_weights
      [mkMeasurement 1 1 (F64.fin 6) (firstOfMonth 2025 2)]
      [mkKPI 1 "≤" (F64.fin 3) (F64.fin 70), mkKPI 2 "≥" (F64.fin 10) (F64.fin 30)]
      (firstOfMonth 2025 2)).1 2 (by norm_num)⟩

end KPITracker
